import Mathlib

/-!
# Inventory-aware cart / order / product store

A shallow embedding of the store of `BackEnd/internal/store` (the in-memory engine of
`memory.go`, the checkout transaction and the status update of `mysql.go`), of the records
of `BackEnd/internal/models`, and of the handlers `ProductsHandler.Create`,
`ProductsHandler.Update`, `ProductsHandler.AdminList`, `ReviewsHandler.Create`,
`CheckoutHandler.Checkout`, `CheckoutHandler.MidtransCallback` and
`AdminOrdersHandler.UpdateStatus` of `BackEnd/internal/handlers`.

Modelling conventions.

* Go `int` and `int64` values (stock, quantity, price, amount) are integers (`Int`); `int` has
  64 bits, as on the platforms the server is built for.  What the code adds, subtracts or
  multiplies is reduced to 64 bits (`wrapInt64`): the sum in the stock check of `AddToCart`
  and the quantity it writes, the stock `CreateOrder` writes, the amount `Checkout` adds up,
  and the sales `AdminList` counts.  The difference `RemoveFromCart` writes is taken only when
  the quantity of the line exceeds the positive quantity removed, so that it needs no
  reduction.  A theorem that depends on a stored value being within 64 bits says so
  (`InInt64`, `StocksInInt64`).
* `time.Time` is an integer instant; `time.Now()` and `uuid.NewString()` are inputs of the
  operation that calls them (`now`, `id`).
* A Go `map[string]*T` is an association list (`GoMap T`): `get` reads the binding of a key,
  `set` overwrites it or adds it, `delete` removes it.  A write through a pointer obtained from
  the map (`p.Stock -= n`) is a `set` of the updated record at the same key.
* A Go slice is a `List`.
* A record the store returns through a pointer is the value of the record at the time of the
  return; the section on pointers (`PointerStore`) keeps the addresses instead, for what a
  caller can do through a pointer it was given.
* A Go string is a `String`; where its bytes matter (`toLower`, `contains`) they are the
  bytes of its UTF-8 encoding.
* An operation is a function from the state before the call to the state after it, paired
  with what the call returns; `error` results carry the message of `errors.New`.
* The mutex of `InMemoryStore` serialises the operations; each operation is one atomic step.
* The order in which `range` visits a map is an input of the operation that ranges over it
  (a `Traversal`).
* Of the user maps of `InMemoryStore` the state holds `users`, which `GetUserByID` reads; the
  index `byEmail` and the token maps are neither read nor written by the operations embedded
  here and are left out.
-/

namespace Ecommerce

/-! ## Records (`models/models.go`) -/

/-- An instant of `time.Time`. -/
abbrev Time := Int

/-- Record `models.Product`.  `Rating` is the bit pattern of the `float64` field, which the
store never inspects. -/
structure Product where
  ID : String
  Name : String
  Description : String
  Category : String
  PriceCents : Int
  SKU : String
  Stock : Int
  Thumbnail : String
  Images : String
  Rating : Nat
  ReviewCount : Int
  CreatedAt : Time
  UpdatedAt : Time
deriving DecidableEq, Repr

/-- Record `models.CartItem`. -/
structure CartItem where
  ProductID : String
  Quantity : Int
deriving DecidableEq, Repr

/-- Record `models.Cart`. -/
structure Cart where
  UserID : String
  Items : List CartItem
deriving DecidableEq, Repr

/-- Record `models.Order`. -/
structure Order where
  ID : String
  UserID : String
  Items : List CartItem
  Amount : Int
  Status : String
  PaymentRef : String
  CreatedAt : Time
deriving DecidableEq, Repr

/-- Record `models.Review`. -/
structure Review where
  ID : String
  UserID : String
  UserName : String
  UserPhoto : String
  Rating : Int
  Comment : String
  CreatedAt : Time
deriving DecidableEq, Repr

/-- Record `models.User` (`models/user.go`). -/
structure User where
  ID : String
  FullName : String
  Phone : String
  Email : String
  Password : String
  Role : String
  AuthProvider : String
  GoogleID : String
  EmailVerified : Bool
  CreatedAt : Time
deriving DecidableEq, Repr

/-! ## Go maps with string keys -/

/-- A Go `map[string]*V`: its bindings.  The writes and deletes of a map keep its keys
distinct (`nodup_keys_set`, `nodup_keys_delete`); `get` reads the first binding of a key and
`range` visits the bindings. -/
abbrev GoMap (V : Type) := List (String × V)

/-- An order in which `for ... := range m` visits the bindings of a map: a rearrangement of
the bindings, chosen anew by each loop. -/
structure Traversal (V : Type) where
  visit : GoMap V → GoMap V
  perm : ∀ m : GoMap V, (visit m).Perm m

/-- The traversal that visits the bindings in the order in which they were written. -/
def Traversal.stored (V : Type) : Traversal V :=
  { visit := fun m => m, perm := fun m => List.Perm.refl m }

/-- The traversal that visits the bindings in the reverse of that order. -/
def Traversal.reversed (V : Type) : Traversal V :=
  { visit := fun m => m.reverse, perm := fun m => List.reverse_perm m }

namespace GoMap

variable {V : Type}

/-- Map read `m[k]` with the comma-ok result. -/
def get : GoMap V → String → Option V
  | [], _ => none
  | (k1, v) :: rest, k => if k1 = k then some v else get rest k

/-- Map write `m[k] = v`. -/
def set : GoMap V → String → V → GoMap V
  | [], k, v => [(k, v)]
  | (k1, v1) :: rest, k, v => if k1 = k then (k, v) :: rest else (k1, v1) :: set rest k v

/-- Builtin `delete(m, k)`. -/
def delete (m : GoMap V) (k : String) : GoMap V :=
  m.filter (fun kv => decide (kv.1 ≠ k))

end GoMap

/-! ## 64-bit integers -/

/-- The `int64` value of an integer result: the result modulo `2^64`, taken in the range from
`-2^63` to `2^63 - 1`. -/
def wrapInt64 (x : Int) : Int :=
  (x + 9223372036854775808) % 18446744073709551616 - 9223372036854775808

/-- The integer lies in the range of `int64`. -/
def InInt64 (x : Int) : Prop :=
  -9223372036854775808 ≤ x ∧ x ≤ 9223372036854775807

instance (x : Int) : Decidable (InInt64 x) := by
  unfold InInt64; infer_instance

/-! ## String helpers of `store/memory.go` -/

/-- The bytes of a Go string, which holds the UTF-8 encoding of its text. -/
def goBytes (s : String) : List Nat :=
  s.toUTF8.data.toList.map UInt8.toNat

/-- Body of the loop of `toLower` for one byte: `'A' <= b && b <= 'Z'` gives `b + 32`. -/
def lowerByte (b : Nat) : Nat :=
  if 65 ≤ b ∧ b ≤ 90 then b + 32 else b

/-- Helper `toLower`, on the bytes of the string. -/
def toLower (bs : List Nat) : List Nat :=
  bs.map lowerByte

/-- Loop of `contains` (for a `sub` that is not empty): the argument is the rest `s[i:]` of
the string at the index `i` of the loop; the loop goes on while `i+len(sub) <= len(s)` and
returns `true` when `s[i:i+len(sub)] == sub`. -/
def containsLoop (sub : List Nat) : List Nat → Bool
  | [] => false
  | b :: rest =>
    if sub.length ≤ (b :: rest).length then
      if (b :: rest).take sub.length = sub then true else containsLoop sub rest
    else false

/-- Helper `contains`. -/
def contains (s sub : List Nat) : Bool :=
  if sub.length = 0 then true else containsLoop sub s

/-- Helper `containsFold`. -/
def containsFold (s substr : String) : Bool :=
  contains (toLower (goBytes s)) (toLower (goBytes substr))

/-! ## The in-memory engine (`store/memory.go`) -/

/-- State of `InMemoryStore`: the product, cart, order and review maps, and the map `users`
(empty unless it is given). -/
structure InMemoryStore where
  products : GoMap Product
  carts : GoMap Cart
  orders : GoMap Order
  reviews : GoMap Review
  users : GoMap User := []
deriving DecidableEq, Repr

/-- Constructor `NewInMemoryStore`: all maps empty. -/
def NewInMemoryStore : InMemoryStore :=
  { products := [], carts := [], orders := [], reviews := [] }

namespace InMemoryStore

/-- `InMemoryStore.CreateProduct`: stamps the draft with the fresh identity and the current
time and stores it; no field is validated. -/
def CreateProduct (s : InMemoryStore) (p : Product) (id : String) (now : Time) :
    InMemoryStore × Except String Product :=
  let p1 := { p with ID := id, CreatedAt := now, UpdatedAt := now }
  ({ s with products := s.products.set id p1 }, .ok p1)

/-- `InMemoryStore.UpdateProduct`.  The callback `update` works on the stored record itself:
it yields the record as the callback left it and the error it returned (`none` for `nil`).
What the callback wrote stays in the store also when it returns an error. -/
def UpdateProduct (s : InMemoryStore) (id : String)
    (update : Product → Product × Option String) (now : Time) :
    InMemoryStore × Except String Product :=
  match s.products.get id with
  | none => (s, .error "product not found")
  | some p =>
    match update p with
    | (p1, some err) => ({ s with products := s.products.set id p1 }, .error err)
    | (p1, none) =>
      let p2 := { p1 with UpdatedAt := now }
      ({ s with products := s.products.set id p2 }, .ok p2)

/-- `InMemoryStore.DeleteProduct`. -/
def DeleteProduct (s : InMemoryStore) (id : String) : InMemoryStore × Except String Unit :=
  match s.products.get id with
  | none => (s, .error "product not found")
  | some _ => ({ s with products := s.products.delete id }, .ok ())

/-- `InMemoryStore.GetOrCreateCart`. -/
def GetOrCreateCart (s : InMemoryStore) (userID : String) : InMemoryStore × Cart :=
  match s.carts.get userID with
  | some c => (s, c)
  | none =>
    let c : Cart := { UserID := userID, Items := [] }
    ({ s with carts := s.carts.set userID c }, c)

/-- First loop of `AddToCart`: quantity of the first line for `productID`, `0` when there is
none (`currentQty`). -/
def currentQty : List CartItem → String → Int
  | [], _ => 0
  | it :: rest, productID =>
    if it.ProductID = productID then it.Quantity else currentQty rest productID

/-- Second loop of `AddToCart`: adds `qty` to the first line for `productID`; the flag is the
variable `found`. -/
def addOrUpdate : List CartItem → String → Int → List CartItem × Bool
  | [], _, _ => ([], false)
  | it :: rest, productID, qty =>
    if it.ProductID = productID then
      ({ it with Quantity := wrapInt64 (it.Quantity + qty) } :: rest, true)
    else
      ((addOrUpdate rest productID qty).1.cons it, (addOrUpdate rest productID qty).2)

/-- `InMemoryStore.AddToCart`.  The cart of the user is created before the product is looked
up, so it exists afterwards also when the call fails on the product or on the stock. -/
def AddToCart (s : InMemoryStore) (userID productID : String) (qty : Int) :
    InMemoryStore × Except String Unit :=
  if qty ≤ 0 then (s, .error "quantity must be positive")
  else
    let c : Cart :=
      match s.carts.get userID with
      | some c => c
      | none => { UserID := userID, Items := [] }
    let s1 : InMemoryStore :=
      match s.carts.get userID with
      | some _ => s
      | none => { s with carts := s.carts.set userID c }
    match s1.products.get productID with
    | none => (s1, .error "product not found")
    | some p =>
      if p.Stock < wrapInt64 (currentQty c.Items productID + qty) then
        (s1, .error "insufficient stock")
      else
        let upd := addOrUpdate c.Items productID qty
        let items1 :=
          if upd.2 then upd.1 else upd.1 ++ [{ ProductID := productID, Quantity := qty }]
        ({ s1 with carts := s1.carts.set userID { c with Items := items1 } }, .ok ())

/-- Loop of `RemoveFromCart` over the lines: `none` when no line names `productID`, else the
lines after the first such line was deleted (quantity at most `qty`) or decremented. -/
def removeLine : List CartItem → String → Int → Option (List CartItem)
  | [], _, _ => none
  | it :: rest, productID, qty =>
    if it.ProductID = productID then
      if it.Quantity ≤ qty then some rest
      else some ({ it with Quantity := it.Quantity - qty } :: rest)
    else
      match removeLine rest productID qty with
      | some r => some (it :: r)
      | none => none

/-- `InMemoryStore.RemoveFromCart`. -/
def RemoveFromCart (s : InMemoryStore) (userID productID : String) (qty : Int) :
    InMemoryStore × Except String Unit :=
  if qty ≤ 0 then (s, .error "quantity must be positive")
  else
    match s.carts.get userID with
    | none => (s, .error "cart not found")
    | some c =>
      match removeLine c.Items productID qty with
      | some items1 =>
        ({ s with carts := s.carts.set userID { c with Items := items1 } }, .ok ())
      | none => (s, .error "item not in cart")

/-- `InMemoryStore.ClearCart`. -/
def ClearCart (s : InMemoryStore) (userID : String) : InMemoryStore :=
  { s with carts := s.carts.delete userID }

/-- `InMemoryStore.GetCart`: a cart made of the user and a copy of the stored lines; a user
without a cart gets the empty cart.  The error result is always `nil`. -/
def GetCart (s : InMemoryStore) (userID : String) : Except String Cart :=
  match s.carts.get userID with
  | none => .ok { UserID := userID, Items := [] }
  | some c => .ok { UserID := userID, Items := c.Items }

/-- The lines of the cart stored for a user, none when the user has no cart. -/
def cartLines (s : InMemoryStore) (userID : String) : List CartItem :=
  match s.carts.get userID with
  | none => []
  | some c => c.Items

/-- Stock loop of `CreateOrder`: for each item in turn, when the product exists and its stock
is at least the quantity, the quantity is subtracted; otherwise the item is passed over. -/
def decrementStock : GoMap Product → List CartItem → GoMap Product
  | products, [] => products
  | products, it :: rest =>
    match products.get it.ProductID with
    | some p =>
      if p.Stock ≥ it.Quantity then
        decrementStock
          (products.set it.ProductID { p with Stock := wrapInt64 (p.Stock - it.Quantity) }) rest
      else decrementStock products rest
    | none => decrementStock products rest

/-- `InMemoryStore.CreateOrder`: stores the order, then runs the stock loop; it has no error
return. -/
def CreateOrder (s : InMemoryStore) (userID : String) (items : List CartItem) (amount : Int)
    (status paymentRef : String) (id : String) (now : Time) :
    InMemoryStore × Except String Order :=
  let o : Order :=
    { ID := id, UserID := userID, Items := items, Amount := amount, Status := status,
      PaymentRef := paymentRef, CreatedAt := now }
  let s1 := { s with orders := s.orders.set id o }
  ({ s1 with products := decrementStock s1.products items }, .ok o)

/-- `InMemoryStore.UpdateOrderStatus`. -/
def UpdateOrderStatus (s : InMemoryStore) (orderID status : String) :
    InMemoryStore × Except String Unit :=
  match s.orders.get orderID with
  | none => (s, .error "order not found")
  | some o => ({ s with orders := s.orders.set orderID { o with Status := status } }, .ok ())

/-- `InMemoryStore.UpdateOrderPaymentRef`. -/
def UpdateOrderPaymentRef (s : InMemoryStore) (orderID paymentRef : String) :
    InMemoryStore × Except String Unit :=
  match s.orders.get orderID with
  | none => (s, .error "order not found")
  | some o =>
    ({ s with orders := s.orders.set orderID { o with PaymentRef := paymentRef } }, .ok ())

/-- `InMemoryStore.CreateReview`. -/
def CreateReview (s : InMemoryStore) (userID userName userPhoto : String) (rating : Int)
    (comment : String) (id : String) (now : Time) : InMemoryStore × Except String Review :=
  if rating < 1 ∨ rating > 5 then (s, .error "rating must be between 1 and 5")
  else
    let r : Review :=
      { ID := id, UserID := userID, UserName := userName, UserPhoto := userPhoto,
        Rating := rating, Comment := comment, CreatedAt := now }
    ({ s with reviews := s.reviews.set id r }, .ok r)

/-- `InMemoryStore.GetUserByID`. -/
def GetUserByID (s : InMemoryStore) (id : String) : Except String User :=
  match s.users.get id with
  | none => .error "user not found"
  | some u => .ok u

/-- `InMemoryStore.GetProduct`: the stored record (through the stored pointer, see
`PointerStore.GetProduct`). -/
def GetProduct (s : InMemoryStore) (id : String) : Except String Product :=
  match s.products.get id with
  | none => .error "product not found"
  | some p => .ok p

/-- Condition of the loop of `ListProducts` for one product. -/
def matchesQuery (p : Product) (query : String) : Bool :=
  decide (query = "") || containsFold p.Name query || containsFold p.Description query
    || containsFold p.SKU query || containsFold p.Category query

/-- `InMemoryStore.ListProducts`: copies of the products that meet the condition, in the
order in which `range` visits the map.  The error result is always `nil`. -/
def ListProducts (s : InMemoryStore) (query : String) (t : Traversal Product) :
    Except String (List Product) :=
  .ok (((t.visit s.products).filter (fun kv => matchesQuery kv.2 query)).map Prod.snd)

/-- `InMemoryStore.ListOrdersByUser`: copies of the orders of the user, in the order in
which `range` visits the map. -/
def ListOrdersByUser (s : InMemoryStore) (userID : String) (t : Traversal Order) :
    Except String (List Order) :=
  .ok (((t.visit s.orders).filter (fun kv => decide (kv.2.UserID = userID))).map Prod.snd)

/-- `InMemoryStore.ListOrders`: copies of all orders, in the order in which `range` visits
the map. -/
def ListOrders (s : InMemoryStore) (t : Traversal Order) : Except String (List Order) :=
  .ok ((t.visit s.orders).map Prod.snd)

/-- `InMemoryStore.GetUserReviewCount`: the loop adds one for each review of the user, so
the count does not depend on the order of the visits.  The error result is always `nil`. -/
def GetUserReviewCount (s : InMemoryStore) (userID : String) : Int :=
  ((s.reviews.filter (fun kv => decide (kv.2.UserID = userID))).length : Int)

/-- Inner loop of the sort of `ListReviews`, for one index `i`: `x` is the element at `i`
and the list holds the elements at the indices `j` above it.  When `res[i]` is created before
`res[j]` the two are swapped.  The result is the element left at `i` and the elements left
above it. -/
def exchangePass (x : Review) : List Review → Review × List Review
  | [] => (x, [])
  | y :: rest =>
    if x.CreatedAt < y.CreatedAt then
      ((exchangePass y rest).1, x :: (exchangePass y rest).2)
    else ((exchangePass x rest).1, y :: (exchangePass x rest).2)

/-- Outer loop of the sort of `ListReviews`: the number is that of the passes still to run
(`i < len(res)-1`), the list holds the elements from the index `i` on. -/
def exchangePasses : Nat → List Review → List Review
  | 0, res => res
  | _ + 1, [] => []
  | n + 1, x :: rest => (exchangePass x rest).1 :: exchangePasses n (exchangePass x rest).2

/-- The sort of `ListReviews`: `len(res)-1` passes. -/
def exchangeSort (res : List Review) : List Review :=
  exchangePasses (res.length - 1) res

/-- `InMemoryStore.ListReviews`: copies of the reviews in the order of the visits, sorted,
and cut to `limit` elements when `limit > 0 && len(res) > limit`.  The error result is always
`nil`. -/
def ListReviews (s : InMemoryStore) (limit : Int) (t : Traversal Review) :
    Except String (List Review) :=
  let res := exchangeSort ((t.visit s.reviews).map Prod.snd)
  if limit > 0 ∧ (res.length : Int) > limit then .ok (res.take limit.toNat) else .ok res

/-- One call of a state-changing operation of the in-memory engine, with its arguments and
with the identity and time the call draws. -/
inductive Op where
  | createProduct (p : Product) (id : String) (now : Time)
  | updateProduct (id : String) (update : Product → Product × Option String) (now : Time)
  | deleteProduct (id : String)
  | getOrCreateCart (userID : String)
  | addToCart (userID productID : String) (qty : Int)
  | removeFromCart (userID productID : String) (qty : Int)
  | clearCart (userID : String)
  | createOrder (userID : String) (items : List CartItem) (amount : Int)
      (status paymentRef : String) (id : String) (now : Time)
  | updateOrderStatus (orderID status : String)
  | updateOrderPaymentRef (orderID paymentRef : String)
  | createReview (userID userName userPhoto : String) (rating : Int) (comment : String)
      (id : String) (now : Time)

/-- State after one call. -/
def step (s : InMemoryStore) : Op → InMemoryStore
  | .createProduct p id now => (s.CreateProduct p id now).1
  | .updateProduct id update now => (s.UpdateProduct id update now).1
  | .deleteProduct id => (s.DeleteProduct id).1
  | .getOrCreateCart userID => (s.GetOrCreateCart userID).1
  | .addToCart userID productID qty => (s.AddToCart userID productID qty).1
  | .removeFromCart userID productID qty => (s.RemoveFromCart userID productID qty).1
  | .clearCart userID => s.ClearCart userID
  | .createOrder userID items amount status paymentRef id now =>
    (s.CreateOrder userID items amount status paymentRef id now).1
  | .updateOrderStatus orderID status => (s.UpdateOrderStatus orderID status).1
  | .updateOrderPaymentRef orderID paymentRef => (s.UpdateOrderPaymentRef orderID paymentRef).1
  | .createReview userID userName userPhoto rating comment id now =>
    (s.CreateReview userID userName userPhoto rating comment id now).1

/-- State after a sequence of calls, the first call first. -/
def run (s : InMemoryStore) (ops : List Op) : InMemoryStore :=
  ops.foldl step s

/-- A state the store can be in: the state after some sequence of calls on the empty
store. -/
def Reachable (s : InMemoryStore) : Prop :=
  ∃ ops : List Op, run NewInMemoryStore ops = s

/-- Every stored product has a stock that is not negative. -/
def StockNonneg (s : InMemoryStore) : Prop :=
  ∀ kv ∈ s.products, 0 ≤ kv.2.Stock

instance (s : InMemoryStore) : Decidable (StockNonneg s) := by
  unfold StockNonneg; infer_instance

/-- Every stored product has a stock within 64 bits. -/
def StocksInInt64 (s : InMemoryStore) : Prop :=
  ∀ kv ∈ s.products, InInt64 kv.2.Stock

instance (s : InMemoryStore) : Decidable (StocksInInt64 s) := by
  unfold StocksInInt64; infer_instance

/-- An operation that can be trusted with the stock invariant: a created draft has a stock
that is not negative, a patch does not make such a stock negative, and an order has no item
with a negative quantity.  The stocks are Go integers: that of the draft is within 64 bits,
and so is the stock a patch leaves. -/
def Op.KeepsStockNonneg : Op → Prop
  | .createProduct p _ _ => 0 ≤ p.Stock ∧ InInt64 p.Stock
  | .updateProduct _ update _ =>
    ∀ q : Product, 0 ≤ q.Stock → InInt64 q.Stock →
      0 ≤ (update q).1.Stock ∧ InInt64 (update q).1.Stock
  | .createOrder _ items _ _ _ _ _ => ∀ it ∈ items, 0 ≤ it.Quantity
  | _ => True

/-- A cart is well formed: no two lines name the same product and every quantity is
positive. -/
def CartWF (c : Cart) : Prop :=
  (c.Items.map CartItem.ProductID).Nodup ∧ ∀ it ∈ c.Items, 0 < it.Quantity

instance (c : Cart) : Decidable (CartWF c) := by
  unfold CartWF; infer_instance

/-- Every stored cart is well formed. -/
def CartsWF (s : InMemoryStore) : Prop :=
  ∀ kv ∈ s.carts, CartWF kv.2

instance (s : InMemoryStore) : Decidable (CartsWF s) := by
  unfold CartsWF; infer_instance

end InMemoryStore

/-! ## Pointers of the in-memory engine

The maps of `InMemoryStore` hold pointers, and most operations return pointers.  This view
keeps the objects in a heap, by address, so that what a caller writes through a pointer it
was given can be followed. -/

/-- A Go slice `[]models.CartItem`: the address of its backing array and its length.  The
slices the store builds start at the first element of their array. -/
structure ItemSlice where
  array : Nat
  len : Nat
deriving DecidableEq, Repr

/-- A `models.Cart` object in memory. -/
structure CartObject where
  UserID : String
  Items : ItemSlice
deriving DecidableEq, Repr

/-- A `models.Order` object in memory. -/
structure OrderObject where
  ID : String
  UserID : String
  Items : ItemSlice
  Amount : Int
  Status : String
  PaymentRef : String
  CreatedAt : Time
deriving DecidableEq, Repr

/-- The heap: the objects of each type, an object having its position as address.  An
allocation puts a new object at the end. -/
structure Heap where
  products : List Product
  carts : List CartObject
  orders : List OrderObject
  arrays : List (List CartItem)
deriving DecidableEq, Repr

namespace Heap

/-- The elements of a slice. -/
def items (h : Heap) (sl : ItemSlice) : List CartItem :=
  ((h.arrays[sl.array]?).getD []).take sl.len

/-- The cart a pointer leads to: the object with the elements of its slice. -/
def cart (h : Heap) (c : Nat) : Option Cart :=
  (h.carts[c]?).map (fun obj => { UserID := obj.UserID, Items := h.items obj.Items })

/-- The order a pointer leads to: the object with the elements of its slice. -/
def order (h : Heap) (o : Nat) : Option Order :=
  (h.orders[o]?).map (fun obj =>
    { ID := obj.ID, UserID := obj.UserID, Items := h.items obj.Items, Amount := obj.Amount,
      Status := obj.Status, PaymentRef := obj.PaymentRef, CreatedAt := obj.CreatedAt })

/-- A caller's assignment `*p = v` through a pointer to a product. -/
def setProduct (h : Heap) (p : Nat) (v : Product) : Heap :=
  { h with products := h.products.set p v }

/-- A caller's assignment `c.Items[i] = v` or `o.Items[i] = v` to an element of the slice
`sl`. -/
def setItem (h : Heap) (sl : ItemSlice) (i : Nat) (v : CartItem) : Heap :=
  if i < sl.len then
    { h with arrays := h.arrays.set sl.array (((h.arrays[sl.array]?).getD []).set i v) }
  else h

/-- What a caller that was given the pointer `c` to a cart can have done to the heap `h`:
in `after`, every object allocated in `h` is as in `h`, but for the cart object at `c` and
the backing array of its slice. -/
def ChangedThroughCart (h after : Heap) (c : Nat) : Prop :=
  after.products = h.products ∧ after.orders = h.orders
    ∧ (∀ i, i ≠ c → i < h.carts.length → after.carts[i]? = h.carts[i]?)
    ∧ (∀ j, (∀ obj, h.carts[c]? = some obj → j ≠ obj.Items.array) → j < h.arrays.length →
        after.arrays[j]? = h.arrays[j]?)

end Heap

/-- State of `InMemoryStore` with its pointers: the heap and the maps from keys to
addresses. -/
structure PointerStore where
  heap : Heap
  products : GoMap Nat
  carts : GoMap Nat
  orders : GoMap Nat
deriving DecidableEq, Repr

namespace PointerStore

/-- Every pointer the store holds for a cart leads to an allocated cart object whose slice
has an allocated backing array. -/
def CartsAllocated (m : PointerStore) : Prop :=
  ∀ kv ∈ m.carts, ∃ obj, m.heap.carts[kv.2]? = some obj ∧ obj.Items.array < m.heap.arrays.length

/-- The lines of the cart stored for a user, none when the user has no cart. -/
def cartLines (m : PointerStore) (userID : String) : List CartItem :=
  match m.carts.get userID with
  | none => []
  | some c =>
    match m.heap.cart c with
    | none => []
    | some cart => cart.Items

/-- `InMemoryStore.GetProduct`: returns the pointer the map holds. -/
def GetProduct (m : PointerStore) (id : String) : Except String Nat :=
  match m.products.get id with
  | none => .error "product not found"
  | some p => .ok p

/-- `InMemoryStore.CreateProduct`: writes identity and times through the pointer `p` of the
caller, stores that pointer and returns it.  (With a pointer that leads to no object the Go
code panics; that is the error result here.) -/
def CreateProduct (m : PointerStore) (p : Nat) (id : String) (now : Time) :
    PointerStore × Except String Nat :=
  match m.heap.products[p]? with
  | none => (m, .error "invalid memory address or nil pointer dereference")
  | some v =>
    ({ m with
        heap := m.heap.setProduct p { v with ID := id, CreatedAt := now, UpdatedAt := now },
        products := m.products.set id p }, .ok p)

/-- `InMemoryStore.UpdateProduct`: the callback and the time stamp write through the stored
pointer, which is returned. -/
def UpdateProduct (m : PointerStore) (id : String)
    (update : Product → Product × Option String) (now : Time) :
    PointerStore × Except String Nat :=
  match m.products.get id with
  | none => (m, .error "product not found")
  | some p =>
    match m.heap.products[p]? with
    | none => (m, .error "invalid memory address or nil pointer dereference")
    | some v =>
      match update v with
      | (v1, some err) => ({ m with heap := m.heap.setProduct p v1 }, .error err)
      | (v1, none) =>
        ({ m with heap := m.heap.setProduct p { v1 with UpdatedAt := now } }, .ok p)

/-- `InMemoryStore.GetOrCreateCart`: returns the pointer the map holds, after storing a new
empty cart when there was none. -/
def GetOrCreateCart (m : PointerStore) (userID : String) : PointerStore × Nat :=
  match m.carts.get userID with
  | some c => (m, c)
  | none =>
    ({ m with
        heap := { m.heap with
          arrays := m.heap.arrays ++ [[]],
          carts := m.heap.carts
            ++ [{ UserID := userID, Items := { array := m.heap.arrays.length, len := 0 } }] },
        carts := m.carts.set userID m.heap.carts.length },
     m.heap.carts.length)

/-- `InMemoryStore.GetCart`: allocates a new array (`make`) with a copy of the stored lines
(`copy`) and a new cart object that holds it, and returns the pointer to that object; for a
user without a cart the new object holds an empty slice.  The error result is always
`nil`. -/
def GetCart (m : PointerStore) (userID : String) : PointerStore × Nat :=
  let copyItems : List CartItem := m.cartLines userID
  ({ m with
      heap := { m.heap with
        arrays := m.heap.arrays ++ [copyItems],
        carts := m.heap.carts
          ++ [{ UserID := userID,
                Items := { array := m.heap.arrays.length, len := copyItems.length } }] } },
   m.heap.carts.length)

/-- Loop of `ListOrders`: `copyO := *o` allocates a new order object with the fields of the
stored one, the slice `Items` among them, and `&copyO` is appended to the result. -/
def copyOrders (h : Heap) : List Nat → Heap × List Nat
  | [] => (h, [])
  | o :: rest =>
    match h.orders[o]? with
    | none => copyOrders h rest
    | some obj =>
      ((copyOrders { h with orders := h.orders ++ [obj] } rest).1,
       h.orders.length :: (copyOrders { h with orders := h.orders ++ [obj] } rest).2)

/-- `InMemoryStore.ListOrders`: pointers to the copies, in the order of the visits. -/
def ListOrders (m : PointerStore) (t : Traversal Nat) : PointerStore × List Nat :=
  ({ m with heap := (copyOrders m.heap ((t.visit m.orders).map Prod.snd)).1 },
   (copyOrders m.heap ((t.visit m.orders).map Prod.snd)).2)

/-- `InMemoryStore.ListOrdersByUser`: pointers to the copies of the orders of the user, in
the order of the visits. -/
def ListOrdersByUser (m : PointerStore) (userID : String) (t : Traversal Nat) :
    PointerStore × List Nat :=
  ({ m with heap := (copyOrders m.heap (((t.visit m.orders).map Prod.snd).filter (fun o =>
      match m.heap.orders[o]? with
      | none => false
      | some obj => decide (obj.UserID = userID)))).1 },
   (copyOrders m.heap (((t.visit m.orders).map Prod.snd).filter (fun o =>
      match m.heap.orders[o]? with
      | none => false
      | some obj => decide (obj.UserID = userID)))).2)

end PointerStore

/-! ## The checkout transaction of the relational engine (`store/mysql.go`) -/

/-- Row of table `products`. -/
structure ProductRow where
  id : String
  name : String
  description : String
  category : String
  price_cents : Int
  sku : String
  stock : Int
  thumbnail : String
  created_at : Time
  updated_at : Time
deriving DecidableEq, Repr

/-- Row of table `orders`. -/
structure OrderRow where
  id : String
  user_id : String
  amount_cents : Int
  status : String
  payment_ref : String
  created_at : Time
deriving DecidableEq, Repr

/-- Row of table `order_items`. -/
structure OrderItemRow where
  order_id : String
  product_id : String
  quantity : Int
  price_cents : Int
deriving DecidableEq, Repr

/-- The committed content of the tables that `MySQLStore.CreateOrder` reads or writes.  A
transaction works on a copy taken at `Begin`; `Commit` makes the copy the committed content,
`Rollback` drops it. -/
structure MySQLStore where
  products : List ProductRow
  orders : List OrderRow
  order_items : List OrderItemRow
deriving DecidableEq, Repr

namespace MySQLStore

/-- Statement `INSERT INTO orders (...) VALUES (...)`: refused when the primary key `id` is
taken.  The user of the order is taken to be on record, so that the foreign key to `users`
holds. -/
def insertOrder (db : MySQLStore) (row : OrderRow) : Except String MySQLStore :=
  if db.orders.any (fun r => decide (r.id = row.id)) then .error "duplicate entry for key PRIMARY"
  else .ok { db with orders := db.orders ++ [row] }

/-- Query `SELECT price_cents FROM products WHERE id=?` with `Scan`: `none` is
`sql.ErrNoRows`. -/
def selectPrice (db : MySQLStore) (productID : String) : Option Int :=
  (db.products.find? (fun r => decide (r.id = productID))).map ProductRow.price_cents

/-- Statement `INSERT INTO order_items (...) VALUES (...)`: refused when the primary key
`(order_id, product_id)` is taken. -/
def insertOrderItem (db : MySQLStore) (row : OrderItemRow) : Except String MySQLStore :=
  if db.order_items.any
      (fun r => decide (r.order_id = row.order_id ∧ r.product_id = row.product_id)) then
    .error "duplicate entry for key PRIMARY"
  else .ok { db with order_items := db.order_items ++ [row] }

/-- Statement `UPDATE products SET stock = stock - ? WHERE id=? AND stock >= ?`, with the
count `RowsAffected` reports: the rows the statement changed. -/
def updateStock (db : MySQLStore) (productID : String) (quantity : Int) : MySQLStore × Nat :=
  ({ db with
      products := db.products.map (fun r =>
        if r.id = productID ∧ r.stock ≥ quantity then { r with stock := r.stock - quantity }
        else r) },
    (db.products.filter (fun r =>
      decide (r.id = productID ∧ r.stock ≥ quantity ∧ r.stock - quantity ≠ r.stock))).length)

/-- Where the body of `CreateOrder` stands when it executes a `return`: the working copy of
the transaction, the value of the variable `err` declared by `tx, err := s.db.Begin()` (the
one the deferred closure reads), and the error operand of the `return` (`none` when the loop
has run to its end). -/
structure AtReturn where
  work : MySQLStore
  err : Option String
  returned : Option String
deriving DecidableEq, Repr

/-- The loop `for _, it := range items` of `CreateOrder`; `err` is the function-scope
variable on entry.

* `if err := row.Scan(&priceCents); err != nil` declares an `err` of the `if` statement; the
  `return nil, err` inside it leaves the function-scope `err` as it was.
* `_, err = tx.Exec(INSERT INTO order_items ...)` assigns the function-scope `err`.
* `res, err := tx.Exec(UPDATE products ...)` declares a new `err` in the loop body, so
  neither this statement nor the `return nil, errors.New(...)` that follows `affected == 0`
  touches the function-scope `err`. -/
def orderItemsLoop (id : String) : MySQLStore → Option String → List CartItem → AtReturn
  | work, err, [] => { work := work, err := err, returned := none }
  | work, err, it :: rest =>
    match selectPrice work it.ProductID with
    | none => { work := work, err := err, returned := some "sql: no rows in result set" }
    | some priceCents =>
      match insertOrderItem work
          { order_id := id, product_id := it.ProductID, quantity := it.Quantity,
            price_cents := priceCents } with
      | .error e => { work := work, err := some e, returned := some e }
      | .ok work1 =>
        let err1 : Option String := none
        let res := updateStock work1 it.ProductID it.Quantity
        if res.2 = 0 then
          { work := res.1, err := err1,
            returned := some ("insufficient stock for product: " ++ it.ProductID) }
        else orderItemsLoop id res.1 err1 rest

/-- `MySQLStore.CreateOrder` on a connection whose statements fail only for reasons of the
data (`Begin` succeeds).  The deferred closure rolls back when the function-scope `err` is
not `nil` and commits otherwise. -/
def CreateOrder (db : MySQLStore) (userID : String) (items : List CartItem) (amount : Int)
    (status paymentRef : String) (id : String) (now : Time) :
    MySQLStore × Except String Order :=
  match insertOrder db
      { id := id, user_id := userID, amount_cents := amount, status := status,
        payment_ref := paymentRef, created_at := now } with
  | .error e => (db, .error e)
  | .ok work =>
    let r := orderItemsLoop id work none items
    let after := match r.err with
      | some _ => db
      | none => r.work
    match r.returned with
    | some e => (after, .error e)
    | none =>
      (after, .ok { ID := id, UserID := userID, Items := items, Amount := amount,
                    Status := status, PaymentRef := paymentRef, CreatedAt := now })

/-- Statement `UPDATE orders SET status=? WHERE id=?`, with the count `RowsAffected`
reports: the rows the statement changed, so a row that already has the status is not
counted. -/
def updateStatus (db : MySQLStore) (orderID status : String) : MySQLStore × Nat :=
  ({ db with
      orders := db.orders.map (fun r =>
        if r.id = orderID then { r with status := status } else r) },
    (db.orders.filter (fun r => decide (r.id = orderID ∧ r.status ≠ status))).length)

/-- `MySQLStore.UpdateOrderStatus`: the statement runs outside a transaction; zero affected
rows are reported as `order not found`. -/
def UpdateOrderStatus (db : MySQLStore) (orderID status : String) :
    MySQLStore × Except String Unit :=
  let res := updateStatus db orderID status
  if res.2 = 0 then (res.1, .error "order not found") else (res.1, .ok ())

end MySQLStore

/-! ## Handlers (`handlers/products.go`, `handlers/reviews.go`, `handlers/checkout.go`,
`handlers/admin_orders.go`) -/

/-- Response `orderResp` of the checkout. -/
structure orderResp where
  OrderID : String
  Status : String
  Amount : Int
  PaymentRef : String
  PaymentURL : String
  RedirectURL : String
  Items : List CartItem
  CreatedAt : Time
deriving DecidableEq, Repr

/-- Body of a response written with `c.JSON`; `empty` for a response without body
(`c.Status`). -/
inductive Body where
  | error (msg : String)
  | product (p : Product)
  | review (r : Review)
  | order (o : orderResp)
  | products (ps : List Product)
  | message (msg : String)
  | empty
deriving DecidableEq, Repr

/-- A response written with `c.JSON`: status code and body. -/
structure Response where
  status : Nat
  body : Body
deriving DecidableEq, Repr

/-- Request `createProductReq`; the `json.Number` fields are strings. -/
structure createProductReq where
  Name : String
  Description : String
  Category : String
  Price : String
  PriceCents : String
  SKU : String
  Stock : Int
  Thumbnail : String
deriving DecidableEq, Repr

/-- Request `CreateReviewRequest`. -/
structure CreateReviewRequest where
  Rating : Int
  Comment : String
deriving DecidableEq, Repr

/-- Request `updateProductReq`: each field is given or not.  `PriceCents` is a
`json.Number`, the text of a number of the body. -/
structure updateProductReq where
  Name : Option String
  Description : Option String
  Category : Option String
  PriceCents : Option String
  SKU : Option String
  Stock : Option Int
  Thumbnail : Option String
deriving DecidableEq, Repr

/-- Request `checkoutReq`. -/
structure checkoutReq where
  PaymentMethod : String
deriving DecidableEq, Repr

/-- Record `payment.MidtransItem`. -/
structure MidtransItem where
  ID : String
  Price : Int
  Quantity : Int
  Name : String
deriving DecidableEq, Repr

/-- Record `payment.SnapResponse`. -/
structure SnapResponse where
  OrderID : String
  PaymentURL : String
  Token : String
  RedirectURL : String
deriving DecidableEq, Repr

/-- The payment gateway `h.pay`: whether it is a `*payment.MidtransGateway`, and what its
calls return.  `createSnapTransaction` takes the order identity, the amount, the e-mail
address and the items; `charge` takes the amount, the payment method and the `order_id` and
`email` of the metadata. -/
structure Gateway where
  isMidtrans : Bool
  createSnapTransaction : String → Int → String → List MidtransItem → Except String SnapResponse
  charge : Int → String → String → String → Except String String

/-- Gateway `payment.MockGateway`: `Charge` always succeeds with `pay_` and the order
identity. -/
def MockGateway : Gateway :=
  { isMidtrans := false,
    createSnapTransaction := fun _ _ _ _ => .error "not a Midtrans gateway",
    charge := fun _ _ orderID _ => .ok ("pay_" ++ orderID) }

namespace ProductsHandler

/-- Helper `parsePriceNumber`; `parseInt` stands for `strconv.ParseInt(_, 10, 64)`. -/
def parsePriceNumber (parseInt : String → Except String Int) (value : String) :
    Except String Int :=
  if value = "" then .error "empty" else parseInt value

/-- The price the handler `Create` works out: `price_cents` when it is given, else `price`,
else zero; a number that does not parse ends the request. -/
def requestPrice (parseInt : String → Except String Int) (req : createProductReq) :
    Except String Int :=
  if req.PriceCents ≠ "" then
    match parsePriceNumber parseInt req.PriceCents with
    | .error _ => .error "price_cents invalid"
    | .ok parsed => .ok parsed
  else if req.Price ≠ "" then
    match parsePriceNumber parseInt req.Price with
    | .error _ => .error "price invalid"
    | .ok parsed => .ok parsed
  else .ok 0

/-- `ProductsHandler.Create` over the in-memory engine.  `bind` is the result of
`c.ShouldBindJSON(&req)`, `generatedSKU` that of `generateSKU(req.Name)`, `created` and
`updated` are the two `time.Now()` of the handler, `id` and `now` the identity and time the
store draws. -/
def Create (s : InMemoryStore) (parseInt : String → Except String Int)
    (bind : Except String createProductReq) (generatedSKU : String)
    (created updated : Time) (id : String) (now : Time) : InMemoryStore × Response :=
  match bind with
  | .error e => (s, { status := 400, body := .error ("invalid JSON: " ++ e) })
  | .ok req =>
    if req.Name = "" ∨ req.Stock < 0 then
      (s, { status := 400, body := .error "name dan stock harus valid" })
    else
      match requestPrice parseInt req with
      | .error msg => (s, { status := 400, body := .error msg })
      | .ok priceCents =>
        if priceCents ≤ 0 then
          (s, { status := 400, body := .error "price atau price_cents harus lebih dari 0" })
        else
          let sku := if req.SKU = "" then generatedSKU else req.SKU
          let p : Product :=
            { ID := "", Name := req.Name, Description := req.Description,
              Category := req.Category, PriceCents := priceCents, SKU := sku,
              Stock := req.Stock, Thumbnail := req.Thumbnail, Images := "", Rating := 0,
              ReviewCount := 0, CreatedAt := created, UpdatedAt := updated }
          match s.CreateProduct p id now with
          | (s1, .error e) => (s1, { status := 500, body := .error e })
          | (s1, .ok res) => (s1, { status := 200, body := .product res })

/-- The closure `ProductsHandler.Update` passes to `UpdateProduct`: it writes the fields of
the request that are given, one after the other, into the product, and returns the error of
`parsePriceNumber` at once when `price_cents` does not parse; `handlerNow` is its
`time.Now()`. -/
def updatePatch (parseInt : String → Except String Int) (req : updateProductReq)
    (handlerNow : Time) (p : Product) : Product × Option String :=
  let p1 := match req.Name with
    | some v => { p with Name := v }
    | none => p
  let p2 := match req.Description with
    | some v => { p1 with Description := v }
    | none => p1
  let p3 := match req.Category with
    | some v => { p2 with Category := v }
    | none => p2
  let price : Except String Product := match req.PriceCents with
    | some v =>
      match parsePriceNumber parseInt v with
      | .error e => .error e
      | .ok parsed => .ok { p3 with PriceCents := parsed }
    | none => .ok p3
  match price with
  | .error e => (p3, some e)
  | .ok p4 =>
    let p5 := match req.SKU with
      | some v => { p4 with SKU := v }
      | none => p4
    let p6 := match req.Stock with
      | some v => { p5 with Stock := v }
      | none => p5
    let p7 := match req.Thumbnail with
      | some v => { p6 with Thumbnail := v }
      | none => p6
    ({ p7 with UpdatedAt := handlerNow }, none)

/-- `ProductsHandler.Update` over the in-memory engine. -/
def Update (s : InMemoryStore) (parseInt : String → Except String Int) (id : String)
    (bind : Except String updateProductReq) (handlerNow now : Time) :
    InMemoryStore × Response :=
  match bind with
  | .error e => (s, { status := 400, body := .error ("invalid payload: " ++ e) })
  | .ok req =>
    match s.UpdateProduct id (updatePatch parseInt req handlerNow) now with
    | (s1, .error e) => (s1, { status := 400, body := .error e })
    | (s1, .ok res) => (s1, { status := 200, body := .product res })

/-- Loop over the items of one order in the sales count of `AdminList`:
`sales[item.ProductID] += item.Quantity`. -/
def addSales (sales : GoMap Int) : List CartItem → GoMap Int
  | [] => sales
  | item :: rest =>
    addSales
      (sales.set item.ProductID (wrapInt64 ((sales.get item.ProductID).getD 0 + item.Quantity)))
      rest

/-- Loop over the orders in the sales count of `AdminList`; `lower` stands for
`strings.ToLower`.  An order whose status in small letters is not `paid`, `done` or
`completed` is passed over. -/
def countSales (lower : String → String) (sales : GoMap Int) : List Order → GoMap Int
  | [] => sales
  | o :: rest =>
    if lower o.Status ≠ "paid" ∧ lower o.Status ≠ "done" ∧ lower o.Status ≠ "completed" then
      countSales lower sales rest
    else countSales lower (addSales sales o.Items) rest

/-- Comparison of the `bestseller` sort of `AdminList`, on two products. -/
def lessBestseller (sales : GoMap Int) (a b : Product) : Bool :=
  if (sales.get a.ID).getD 0 = (sales.get b.ID).getD 0 then decide (a.CreatedAt > b.CreatedAt)
  else decide ((sales.get a.ID).getD 0 > (sales.get b.ID).getD 0)

/-- Comparison of the default sort of `AdminList`. -/
def lessNewest (a b : Product) : Bool :=
  decide (a.CreatedAt > b.CreatedAt)

/-- `ProductsHandler.AdminList` over the in-memory engine.  `sortParam` is the query
parameter `sort` after `strings.TrimSpace` and `strings.ToLower`; `lower` stands for
`strings.ToLower` and `sortStable` for the library function `sort.SliceStable`, given the
comparison on two products; `tp` and `tq` are the orders in which `ListProducts` and
`ListOrders` visit their maps. -/
def AdminList (s : InMemoryStore) (q sortParam : String) (lower : String → String)
    (sortStable : (Product → Product → Bool) → List Product → List Product)
    (tp : Traversal Product) (tq : Traversal Order) : Response :=
  match s.ListProducts q tp with
  | .error e => { status := 500, body := .error e }
  | .ok ps =>
    if sortParam = "bestseller" then
      match s.ListOrders tq with
      | .error e => { status := 500, body := .error e }
      | .ok orders =>
        { status := 200,
          body := .products (sortStable (lessBestseller (countSales lower [] orders)) ps) }
    else { status := 200, body := .products (sortStable lessNewest ps) }

end ProductsHandler

namespace CheckoutHandler

/-- Loop of `Checkout` over the lines of the cart, from the amount and the Midtrans items
gathered so far: a line whose product is unknown or whose stock is short ends the request;
otherwise `int64(it.Quantity) * p.PriceCents` is added to the amount, in `int64`. -/
def checkLines (s : InMemoryStore) :
    List CartItem → Int → List MidtransItem → Except Response (Int × List MidtransItem)
  | [], amount, midtransItems => .ok (amount, midtransItems)
  | it :: rest, amount, midtransItems =>
    match s.GetProduct it.ProductID with
    | .error _ =>
      .error { status := 400, body := .error ("Invalid product in cart: " ++ it.ProductID) }
    | .ok p =>
      if p.Stock < it.Quantity then
        .error { status := 400,
                 body := .error ("Stock tidak cukup untuk " ++ p.Name ++ " (tersedia: "
                   ++ toString p.Stock ++ ")") }
      else
        checkLines s rest (wrapInt64 (amount + wrapInt64 (it.Quantity * p.PriceCents)))
          (midtransItems
            ++ [{ ID := p.ID, Price := p.PriceCents, Quantity := it.Quantity, Name := p.Name }])

/-- The payment step of `Checkout`: with a Midtrans gateway a Snap transaction, and a direct
charge when that fails; with another gateway a direct charge.  The result is the payment URL
and the payment reference, or the response to a failed payment. -/
def pay (gw : Gateway) (orderID : String) (amount : Int) (email method : String)
    (midtransItems : List MidtransItem) : Except Response (String × String) :=
  if gw.isMidtrans then
    match gw.createSnapTransaction orderID amount email midtransItems with
    | .error _ =>
      match gw.charge amount method orderID email with
      | .error e => .error { status := 402, body := .error ("Payment gagal: " ++ e) }
      | .ok paymentRef => .ok ("", paymentRef)
    | .ok snapResp => .ok (snapResp.PaymentURL, snapResp.OrderID)
  else
    match gw.charge amount method orderID email with
    | .error _ => .error { status := 402, body := .error "Payment gagal" }
    | .ok paymentRef => .ok ("", paymentRef)

/-- `CheckoutHandler.Checkout` over the in-memory engine.  `bind` is the result of
`c.ShouldBindJSON(&req)`, `userID` and `email` come from the context, `id` and `now` are the
identity and time `CreateOrder` draws.  The confirmation e-mail, sent from a goroutine,
touches neither the store nor the response and is left out. -/
def Checkout (s : InMemoryStore) (gw : Gateway) (bind : Except String checkoutReq)
    (userID email : String) (id : String) (now : Time) : InMemoryStore × Response :=
  match bind with
  | .error _ => (s, { status := 400, body := .error "Payment method required" })
  | .ok req =>
    match s.GetCart userID with
    | .error _ => (s, { status := 400, body := .error "Keranjang kosong" })
    | .ok cart =>
      if cart.Items.length = 0 then (s, { status := 400, body := .error "Keranjang kosong" })
      else
        match checkLines s cart.Items 0 [] with
        | .error resp => (s, resp)
        | .ok (amount, midtransItems) =>
          match s.CreateOrder userID cart.Items amount "pending" "" id now with
          | (s1, .error e) =>
            (s1, { status := 500, body := .error ("Gagal membuat order: " ++ e) })
          | (s1, .ok o) =>
            match pay gw o.ID amount email req.PaymentMethod midtransItems with
            | .error resp => (s1, resp)
            | .ok (paymentURL, paymentRef) =>
              ((s1.UpdateOrderPaymentRef o.ID paymentRef).1.ClearCart userID,
               { status := 200,
                 body := .order
                   { OrderID := o.ID, Status := "pending", Amount := amount,
                     PaymentRef := paymentRef, PaymentURL := paymentURL,
                     RedirectURL := paymentURL, Items := o.Items, CreatedAt := o.CreatedAt } })

/-- The status `MidtransCallback` works out from the notification.  For `capture` with a
fraud status other than `accept` no branch assigns the variable, which keeps its zero value,
the empty string. -/
def callbackStatus (transactionStatus fraudStatus : String) : String :=
  if transactionStatus = "capture" then
    if fraudStatus = "accept" then "paid" else ""
  else if transactionStatus = "settlement" then "paid"
  else if transactionStatus = "pending" then "pending"
  else if transactionStatus = "deny" ∨ transactionStatus = "cancel"
      ∨ transactionStatus = "expire" then "failed"
  else "pending"

/-- `CheckoutHandler.MidtransCallback` over the in-memory engine.  `bind` is the result of
`c.ShouldBindJSON(&notification)` with the strings found under `order_id`,
`transaction_status` and `fraud_status` (empty when absent or not a string). -/
def MidtransCallback (s : InMemoryStore) (bind : Except String (String × String × String)) :
    InMemoryStore × Response :=
  match bind with
  | .error _ => (s, { status := 400, body := .error "Invalid notification" })
  | .ok (orderID, transactionStatus, fraudStatus) =>
    match s.UpdateOrderStatus orderID (callbackStatus transactionStatus fraudStatus) with
    | (s1, .error _) => (s1, { status := 500, body := .error "Failed to update order" })
    | (s1, .ok _) => (s1, { status := 200, body := .message "OK" })

end CheckoutHandler

namespace AdminOrdersHandler

/-- `AdminOrdersHandler.UpdateStatus` over the in-memory engine.  `orderID` is the path
parameter, `bind` the result of `c.ShouldBindJSON(&req)` with the field `status`, and
`normalise` stands for `strings.ToLower` after `strings.TrimSpace`. -/
def UpdateStatus (s : InMemoryStore) (normalise : String → String) (orderID : String)
    (bind : Except String String) : InMemoryStore × Response :=
  if orderID = "" then (s, { status := 400, body := .error "order id required" })
  else
    match bind with
    | .error _ => (s, { status := 400, body := .error "status required" })
    | .ok reqStatus =>
      if normalise reqStatus = "" then (s, { status := 400, body := .error "status required" })
      else if normalise reqStatus = "pending" ∨ normalise reqStatus = "paid"
          ∨ normalise reqStatus = "failed" ∨ normalise reqStatus = "done"
          ∨ normalise reqStatus = "completed" then
        match s.UpdateOrderStatus orderID
            (if normalise reqStatus = "completed" then "done" else normalise reqStatus) with
        | (s1, .error e) => (s1, { status := 400, body := .error e })
        | (s1, .ok _) => (s1, { status := 204, body := .empty })
      else (s, { status := 400, body := .error "invalid status" })

end AdminOrdersHandler

namespace ReviewsHandler

/-- The placeholder photo of `ReviewsHandler.Create`. -/
def userPhoto : String :=
  "https://images.unsplash.com/photo-1535713875002-d1d0cf377fde?auto=format&fit=crop&w=240&q=80"

/-- `ReviewsHandler.Create` over the in-memory engine.  `user` is the result of
`c.Get("user_id")`, `bind` that of `c.ShouldBindJSON(&req)` (which admits a rating from 1 to
5 and a comment that is not empty), `t` the order in which `ListOrdersByUser` visits the
orders, `id` and `now` the identity and time `CreateReview` draws.  The error result of
`GetUserReviewCount` is dropped. -/
def Create (s : InMemoryStore) (user : Option String)
    (bind : Except String CreateReviewRequest) (t : Traversal Order) (id : String)
    (now : Time) : InMemoryStore × Response :=
  match user with
  | none => (s, { status := 401, body := .error "unauthorized" })
  | some userID =>
    match bind with
    | .error e => (s, { status := 400, body := .error e })
    | .ok req =>
      match s.ListOrdersByUser userID t with
      | .error _ =>
        (s, { status := 403,
              body := .error "you must complete at least one order to leave a review" })
      | .ok orders =>
        if orders.length = 0 then
          (s, { status := 403,
                body := .error "you must complete at least one order to leave a review" })
        else
          match s.GetUserByID userID with
          | .error _ => (s, { status := 500, body := .error "failed to fetch user" })
          | .ok u =>
            if s.GetUserReviewCount userID > 0 then
              (s, { status := 403, body := .error "you have already submitted a review" })
            else
              match s.CreateReview userID u.Email userPhoto req.Rating req.Comment id now with
              | (s1, .error e) => (s1, { status := 500, body := .error e })
              | (s1, .ok review) => (s1, { status := 201, body := .review review })

end ReviewsHandler

/-! ## Properties stated in the words of the specification -/

/-- Two bytes are equal without regard to the case of the letters `A`-`Z` and `a`-`z`: they
are the same byte, or one is a capital letter and the other its small letter. -/
def SameUpToCase (a b : Nat) : Prop :=
  a = b ∨ (65 ≤ a ∧ a ≤ 90 ∧ b = a + 32) ∨ (65 ≤ b ∧ b ≤ 90 ∧ a = b + 32)

/-- The bytes `q` occur in `x` as a contiguous substring, compared without regard to
case. -/
def OccursFold (q x : List Nat) : Prop :=
  ∃ pre mid post, x = pre ++ mid ++ post ∧ List.Forall₂ SameUpToCase mid q

/-- The query is empty or occurs, without regard to case, in the name, the description, the
SKU or the category of the product. -/
def MatchesSpec (p : Product) (query : String) : Prop :=
  query = "" ∨ OccursFold (goBytes query) (goBytes p.Name)
    ∨ OccursFold (goBytes query) (goBytes p.Description)
    ∨ OccursFold (goBytes query) (goBytes p.SKU)
    ∨ OccursFold (goBytes query) (goBytes p.Category)

/-- A sequence of creation times is ordered newest first: no element is earlier than the
element after it. -/
def NewestFirst : List Time → Prop
  | [] => True
  | [_] => True
  | a :: b :: rest => b ≤ a ∧ NewestFirst (b :: rest)

/-- Whether a sequence of creation times is ordered newest first can be computed. -/
def NewestFirst.decidable : (times : List Time) → Decidable (NewestFirst times)
  | [] => inferInstanceAs (Decidable True)
  | [_] => inferInstanceAs (Decidable True)
  | a :: b :: rest =>
    have : Decidable (NewestFirst (b :: rest)) := NewestFirst.decidable (b :: rest)
    inferInstanceAs (Decidable (b ≤ a ∧ NewestFirst (b :: rest)))

instance (times : List Time) : Decidable (NewestFirst times) :=
  NewestFirst.decidable times

/-- The number of orders of a user. -/
def orderCount (s : InMemoryStore) (userID : String) : Nat :=
  (s.orders.filter (fun kv => decide (kv.2.UserID = userID))).length

/-- The review `ReviewsHandler.Create` has the store create for a user on record: under the
e-mail address of the user, with the placeholder photo. -/
def reviewOf (userID : String) (u : User) (req : CreateReviewRequest) (id : String)
    (now : Time) : Review :=
  { ID := id, UserID := userID, UserName := u.Email, UserPhoto := ReviewsHandler.userPhoto,
    Rating := req.Rating, Comment := req.Comment, CreatedAt := now }

/-- No user has more than one review. -/
def AtMostOneReview (s : InMemoryStore) : Prop :=
  ∀ userID : String, s.GetUserReviewCount userID ≤ 1

/-- The quantity of the product already in the lines of a cart: that of the first line that
names the product, zero when no line does. -/
def lineQuantity (lines : List CartItem) (productID : String) : Int :=
  match lines.find? (fun it => decide (it.ProductID = productID)) with
  | some it => it.Quantity
  | none => 0

/-- The call, when it is an `AddToCart`, adds a quantity that keeps the sum with the quantity
already in the cart within 64 bits. -/
def AddsWithinInt64 (s : InMemoryStore) : InMemoryStore.Op → Prop
  | .addToCart userID productID qty =>
    InInt64 (lineQuantity (s.cartLines userID) productID + qty)
  | _ => True

instance (s : InMemoryStore) (op : InMemoryStore.Op) : Decidable (AddsWithinInt64 s op) := by
  cases op <;> unfold AddsWithinInt64 <;> infer_instance

/-- Every `AddToCart` of the run, made in the state the calls before it have left, keeps its
sum within 64 bits. -/
def RunAddsWithinInt64 : InMemoryStore → List InMemoryStore.Op → Prop
  | _, [] => True
  | s, op :: rest => AddsWithinInt64 s op ∧ RunAddsWithinInt64 (s.step op) rest

/-- Whether a run keeps the sums of its `AddToCart` calls within 64 bits can be computed. -/
def RunAddsWithinInt64.decidable :
    (s : InMemoryStore) → (ops : List InMemoryStore.Op) → Decidable (RunAddsWithinInt64 s ops)
  | _, [] => inferInstanceAs (Decidable True)
  | s, op :: rest =>
    have : Decidable (RunAddsWithinInt64 (s.step op) rest) :=
      RunAddsWithinInt64.decidable (s.step op) rest
    inferInstanceAs (Decidable (AddsWithinInt64 s op ∧ RunAddsWithinInt64 (s.step op) rest))

instance (s : InMemoryStore) (ops : List InMemoryStore.Op) :
    Decidable (RunAddsWithinInt64 s ops) :=
  RunAddsWithinInt64.decidable s ops

/-- The operations on the catalogue and on the carts. -/
def InMemoryStore.Op.IsCatalogueOrCart : InMemoryStore.Op → Prop
  | .createProduct _ _ _ => True
  | .updateProduct _ _ _ => True
  | .deleteProduct _ => True
  | .getOrCreateCart _ => True
  | .addToCart _ _ _ => True
  | .removeFromCart _ _ _ => True
  | .clearCart _ => True
  | _ => False

instance (op : InMemoryStore.Op) : Decidable op.IsCatalogueOrCart := by
  cases op <;> unfold InMemoryStore.Op.IsCatalogueOrCart <;> infer_instance

/-- The order status is one of `pending`, `paid`, `failed` and `done`. -/
def AllowedStatus (status : String) : Prop :=
  status = "pending" ∨ status = "paid" ∨ status = "failed" ∨ status = "done"

instance (status : String) : Decidable (AllowedStatus status) := by
  unfold AllowedStatus; infer_instance

/-- Every stored order has an allowed status. -/
def StatusesAllowed (s : InMemoryStore) : Prop :=
  ∀ kv ∈ s.orders, AllowedStatus kv.2.Status

instance (s : InMemoryStore) : Decidable (StatusesAllowed s) := by
  unfold StatusesAllowed; infer_instance

/-- The order counts as a sale: its status, in small letters, is `paid`, `done` or
`completed`. -/
def CountsAsSale (lower : String → String) (o : Order) : Prop :=
  lower o.Status = "paid" ∨ lower o.Status = "done" ∨ lower o.Status = "completed"

instance (lower : String → String) (o : Order) : Decidable (CountsAsSale lower o) := by
  unfold CountsAsSale; infer_instance

/-- The quantity of a product in one order: the sum of the quantities of the items that name
it. -/
def quantityIn (productID : String) (o : Order) : Int :=
  ((o.Items.filter (fun it => decide (it.ProductID = productID))).map CartItem.Quantity).sum

/-- The sold quantity of a product: the sum of its quantities over the orders that count as
sales. -/
def soldQuantity (lower : String → String) (orders : List Order) (productID : String) : Int :=
  ((orders.filter (fun o => decide (CountsAsSale lower o))).map (quantityIn productID)).sum

/-- Product `a` may stand before product `b` in the ranking by the quantities `sold`: it has
sold more, or as much and was not created earlier. -/
def RanksBefore (sold : String → Int) (a b : Product) : Prop :=
  sold a.ID > sold b.ID ∨ (sold a.ID = sold b.ID ∧ a.CreatedAt ≥ b.CreatedAt)

/-- The function sorts by the comparison `less`: its result is a rearrangement of its
argument in which no element comes after one that `less` puts after it. -/
def SortsBy (sortStable : (Product → Product → Bool) → List Product → List Product)
    (less : Product → Product → Bool) : Prop :=
  ∀ ps : List Product,
    (sortStable less ps).Perm ps ∧ (sortStable less ps).Pairwise (fun a b => less b a = false)

/-- The payment of a checkout succeeds: with the Midtrans gateway the Snap transaction is
created or, failing that, the direct charge goes through; with another gateway the charge
goes through. -/
def PaymentSucceeds (gw : Gateway) (orderID : String) (amount : Int) (email method : String)
    (midtransItems : List MidtransItem) : Prop :=
  if gw.isMidtrans then
    (∃ snapResp, gw.createSnapTransaction orderID amount email midtransItems = .ok snapResp)
      ∨ ∃ paymentRef, gw.charge amount method orderID email = .ok paymentRef
  else ∃ paymentRef, gw.charge amount method orderID email = .ok paymentRef

/-- The Midtrans items of a list of cart lines: for each line whose product is on record,
the identity, price and name of the product with the quantity of the line. -/
def midtransItemsOf (s : InMemoryStore) (lines : List CartItem) : List MidtransItem :=
  lines.filterMap (fun it =>
    match s.products.get it.ProductID with
    | some p =>
      some { ID := p.ID, Price := p.PriceCents, Quantity := it.Quantity, Name := p.Name }
    | none => none)

/-- The exact amount of a list of cart lines: the sum over the lines of the quantity times
the current price of the product (nothing for a line without product). -/
def exactAmount (s : InMemoryStore) (lines : List CartItem) : Int :=
  (lines.map (fun it =>
    match s.products.get it.ProductID with
    | some p => it.Quantity * p.PriceCents
    | none => 0)).sum

/-! ## Concrete states -/

/-- A product record with the given identity, price and stock. -/
def sampleProduct (id : String) (price stock : Int) : Product :=
  { ID := id, Name := "kopi", Description := "", Category := "", PriceCents := price,
    SKU := "K-1", Stock := stock, Thumbnail := "", Images := "", Rating := 0, ReviewCount := 0,
    CreatedAt := 0, UpdatedAt := 0 }

/-- An in-memory store holding `p1` with stock 10 and `p2` with stock 50. -/
def twoProducts : InMemoryStore :=
  { products := [("p1", sampleProduct "p1" 100 10), ("p2", sampleProduct "p2" 200 50)],
    carts := [], orders := [], reviews := [] }

/-- The items `[(p1, 2), (p2, 100)]`. -/
def overItems : List CartItem :=
  [{ ProductID := "p1", Quantity := 2 }, { ProductID := "p2", Quantity := 100 }]

/-- A database holding `p1` with stock 10 and `p2` with stock 50, no orders. -/
def twoRows : MySQLStore :=
  { products :=
      [{ id := "p1", name := "kopi", description := "", category := "", price_cents := 100,
         sku := "K-1", stock := 10, thumbnail := "", created_at := 0, updated_at := 0 },
       { id := "p2", name := "teh", description := "", category := "", price_cents := 200,
         sku := "T-1", stock := 50, thumbnail := "", created_at := 0, updated_at := 0 }],
    orders := [], order_items := [] }

/-- An in-memory store holding `p1` with stock 5 and no cart. -/
def stockFive : InMemoryStore :=
  { products := [("p1", sampleProduct "p1" 100 5)], carts := [], orders := [], reviews := [] }

/-- An in-memory store holding `p1` with the stock 9223372036854775807, the largest Go
integer, and no cart. -/
def fullStock : InMemoryStore :=
  { products := [("p1", sampleProduct "p1" 100 9223372036854775807)], carts := [],
    orders := [], reviews := [] }

/-- An in-memory store in which the cart of `u1` has the lines `(p0, 1)`, `(p1, 5)` and
`(p2, 4)`. -/
def threeLines : InMemoryStore :=
  { products := [], orders := [], reviews := [],
    carts := [("u1", { UserID := "u1", Items :=
      [{ ProductID := "p0", Quantity := 1 }, { ProductID := "p1", Quantity := 5 },
       { ProductID := "p2", Quantity := 4 }] })] }

/-- The items `[(p1, 2), (p2, 30)]`, which the stock of `twoProducts` covers. -/
def fitItems : List CartItem :=
  [{ ProductID := "p1", Quantity := 2 }, { ProductID := "p2", Quantity := 30 }]

/-- The items `[(p1, 2), (p3, 1)]`; no product `p3` is on record. -/
def strayItems : List CartItem :=
  [{ ProductID := "p1", Quantity := 2 }, { ProductID := "p3", Quantity := 1 }]

/-- A run of calls that respects the stock invariant: a draft with stock 5, a patch that
sets the stock to 8, a cart line and an order. -/
def guardedOps : List InMemoryStore.Op :=
  [.createProduct (sampleProduct "" 100 5) "p1" 1,
   .updateProduct "p1" (fun q => ({ q with Stock := 8 }, none)) 2,
   .addToCart "u1" "p1" 2,
   .createOrder "u1" [{ ProductID := "p1", Quantity := 2 }] 200 "pending" "" "o1" 3]

/-- A database with the order `o1`, pending, and no other row. -/
def pendingRow : MySQLStore :=
  { products := [],
    orders := [{ id := "o1", user_id := "u1", amount_cents := 20200, status := "pending",
                 payment_ref := "", created_at := 7 }],
    order_items := [] }

/-- An order of user `u1` with the given identity and creation time. -/
def sampleOrder (id : String) (created : Time) : Order :=
  { ID := id, UserID := "u1", Items := [{ ProductID := "p1", Quantity := 2 }], Amount := 200,
    Status := "pending", PaymentRef := "", CreatedAt := created }

/-- An in-memory store after two products and two orders of `u1` were created, at the times
1 and 2; `u1` has a cart with one line. -/
def twoOrders : InMemoryStore :=
  { products := [("p1", { sampleProduct "p1" 100 10 with CreatedAt := 1, UpdatedAt := 1 }),
                 ("p2", { sampleProduct "p2" 200 50 with CreatedAt := 2, UpdatedAt := 2 })],
    carts := [("u1", { UserID := "u1", Items := [{ ProductID := "p2", Quantity := 1 }] })],
    orders := [("o1", sampleOrder "o1" 1), ("o2", sampleOrder "o2" 2)],
    reviews := [] }

/-- An in-memory store with one product, whose SKU is `abc-123`. -/
def skuStore : InMemoryStore :=
  { products := [("p1", { sampleProduct "p1" 100 5 with SKU := "abc-123" })],
    carts := [], orders := [], reviews := [] }

/-- A request for a product `kopi` with stock 5 and `price_cents` 100. -/
def goodRequest : createProductReq :=
  { Name := "kopi", Description := "", Category := "", Price := "", PriceCents := "100",
    SKU := "K-1", Stock := 5, Thumbnail := "" }

/-- A stand-in for `strconv.ParseInt` that reads `100` and `0` and refuses the rest. -/
def parseSome (value : String) : Except String Int :=
  if value = "100" then .ok 100 else if value = "0" then .ok 0 else .error "invalid syntax"

/-- The record of user `u1`. -/
def sampleUser : User :=
  { ID := "u1", FullName := "Budi", Phone := "", Email := "budi@example.com", Password := "",
    Role := "user", AuthProvider := "email", GoogleID := "", EmailVerified := true,
    CreatedAt := 0 }

/-- An in-memory store in which `u1` has one order and no review, and no user is on
record. -/
def orderWithoutUser : InMemoryStore :=
  { products := [], carts := [], orders := [("o1", sampleOrder "o1" 1)], reviews := [] }

/-- An in-memory store in which `u1` is on record and has one order and no review. -/
def orderWithUser : InMemoryStore :=
  { products := [], carts := [], orders := [("o1", sampleOrder "o1" 1)], reviews := [],
    users := [("u1", sampleUser)] }

/-- An in-memory store in which `u1` is on record and has neither order nor review. -/
def userWithoutOrder : InMemoryStore :=
  { products := [], carts := [], orders := [], reviews := [], users := [("u1", sampleUser)] }

/-- A request for a review with rating 5. -/
def goodReview : CreateReviewRequest :=
  { Rating := 5, Comment := "enak" }

/-- A store with pointers: the product `p1` with stock 5 at address 0; the cart of `u1` at
address 0 with the line `(p1, 2)` in the array at address 0; the order `o1` of `u1` at
address 0 with the item `(p1, 2)` in the array at address 1. -/
def pointerSample : PointerStore :=
  { heap :=
      { products := [sampleProduct "p1" 100 5],
        carts := [{ UserID := "u1", Items := { array := 0, len := 1 } }],
        orders := [{ ID := "o1", UserID := "u1", Items := { array := 1, len := 1 },
                     Amount := 200, Status := "pending", PaymentRef := "", CreatedAt := 1 }],
        arrays := [[{ ProductID := "p1", Quantity := 2 }],
                   [{ ProductID := "p1", Quantity := 2 }]] },
    products := [("p1", 0)], carts := [("u1", 0)], orders := [("o1", 0)] }

/-- The heap after `GetCart` for `u1` on `pointerSample` and after the caller has set the
quantity of the first line of the cart it was given to 99. -/
def heapAfterCaller : Heap :=
  (pointerSample.GetCart "u1").1.heap.setItem { array := 2, len := 1 } 0
    { ProductID := "p1", Quantity := 99 }

/-- An in-memory store with the product `p1` (price 100, stock 5) in which the cart of `u1`
has the line `(p1, 2)`. -/
def cartReady : InMemoryStore :=
  { products := [("p1", sampleProduct "p1" 100 5)],
    carts := [("u1", { UserID := "u1", Items := [{ ProductID := "p1", Quantity := 2 }] })],
    orders := [], reviews := [] }

/-- A checkout request paying by QRIS. -/
def qrisRequest : checkoutReq :=
  { PaymentMethod := "qris" }

/-- The store after `u1` has checked out the cart of `cartReady` through the mock gateway;
the order is `o1`. -/
def checkedOut : InMemoryStore :=
  (CheckoutHandler.Checkout cartReady MockGateway (.ok qrisRequest) "u1" "budi@example.com"
    "o1" 5).1

/-- A request that renames the product to `teh` and gives the price `1.5`, which is not an
integer. -/
def renameBadPrice : updateProductReq :=
  { Name := some "teh", Description := none, Category := none, PriceCents := some "1.5",
    SKU := none, Stock := none, Thumbnail := none }

/-- Calls on the catalogue and the carts: a price edit of `p1`, the deletion of `p2`, a new
product, and a line added to and removed from a cart. -/
def catalogueOps : List InMemoryStore.Op :=
  [.updateProduct "p1" (fun q => ({ q with PriceCents := 999 }, none)) 9,
   .deleteProduct "p2",
   .createProduct (sampleProduct "" 300 7) "p3" 10,
   .addToCart "u1" "p1" 1,
   .removeFromCart "u1" "p2" 1,
   .clearCart "u1"]

/-- A gateway that is not the Midtrans gateway and refuses every charge. -/
def refusingGateway : Gateway :=
  { isMidtrans := false,
    createSnapTransaction := fun _ _ _ _ => .error "not a Midtrans gateway",
    charge := fun _ _ _ _ => .error "declined" }

/-- An in-memory store with the product `p1` in which the cart of `u1` has a line for `p3`,
a product that is not on record. -/
def strayCart : InMemoryStore :=
  { products := [("p1", sampleProduct "p1" 100 5)],
    carts := [("u1", { UserID := "u1", Items := [{ ProductID := "p3", Quantity := 1 }] })],
    orders := [], reviews := [] }

/-- An in-memory store with the product `p1` at the price 4611686018427387904 (two to the
power 62), stock 5, in which the cart of `u1` has the line `(p1, 2)`. -/
def dearStore : InMemoryStore :=
  { products := [("p1", sampleProduct "p1" 4611686018427387904 5)],
    carts := [("u1", { UserID := "u1", Items := [{ ProductID := "p1", Quantity := 2 }] })],
    orders := [], reviews := [] }

/-- A stable sort by insertion: each element, from the last to the first, is put before the
first element of the sorted rest that the comparison does not put before it. -/
def stableInsertionSort (less : Product → Product → Bool) (ps : List Product) : List Product :=
  ps.insertionSort (fun a b => less b a = false)

/-- A stand-in for `strings.ToLower` that knows the words `DONE` and `Completed`. -/
def lowerSome (value : String) : String :=
  if value = "DONE" then "done" else if value = "Completed" then "completed" else value

/-- An order with the given identity, status and items. -/
def saleOrder (id status : String) (items : List CartItem) : Order :=
  { ID := id, UserID := "u1", Items := items, Amount := 0, Status := status, PaymentRef := "",
    CreatedAt := 0 }

/-- An in-memory store with the products `p1`, `p2` and `p3`, created at the times 1, 2 and
3, and four orders: one of `p1` paid, three of `p2` `DONE`, nine of `p3` pending, two of `p1`
`Completed`. -/
def salesStore : InMemoryStore :=
  { products := [("p1", { sampleProduct "p1" 100 10 with CreatedAt := 1 }),
                 ("p2", { sampleProduct "p2" 200 10 with CreatedAt := 2 }),
                 ("p3", { sampleProduct "p3" 300 10 with CreatedAt := 3 })],
    carts := [],
    orders := [("o1", saleOrder "o1" "paid" [{ ProductID := "p1", Quantity := 1 }]),
               ("o2", saleOrder "o2" "DONE" [{ ProductID := "p2", Quantity := 3 }]),
               ("o3", saleOrder "o3" "pending" [{ ProductID := "p3", Quantity := 9 }]),
               ("o4", saleOrder "o4" "Completed" [{ ProductID := "p1", Quantity := 2 }])],
    reviews := [] }

/-- An in-memory store with the products `p1` and `p2`, created at the times 1 and 2, and
three paid orders: two of `p1` in the quantity 4611686018427387904 (two to the power 62)
each, and one of `p2` in the quantity 1. -/
def bigSales : InMemoryStore :=
  { products := [("p1", { sampleProduct "p1" 100 10 with CreatedAt := 1 }),
                 ("p2", { sampleProduct "p2" 200 10 with CreatedAt := 2 })],
    carts := [],
    orders :=
      [("o1", saleOrder "o1" "paid" [{ ProductID := "p1", Quantity := 4611686018427387904 }]),
       ("o2", saleOrder "o2" "paid" [{ ProductID := "p1", Quantity := 4611686018427387904 }]),
       ("o3", saleOrder "o3" "paid" [{ ProductID := "p2", Quantity := 1 }])],
    reviews := [] }

/-! ## Facts about Go maps -/

namespace GoMap

variable {V : Type}

theorem get_set (m : GoMap V) (k k2 : String) (v : V) :
    (m.set k v).get k2 = if k = k2 then some v else m.get k2 := by
  induction m with
  | nil => simp [set, get]
  | cons hd tl ih =>
    obtain ⟨k1, v1⟩ := hd
    by_cases h1 : k1 = k
    · subst h1
      by_cases h2 : k1 = k2 <;> simp [set, get, h2]
    · by_cases h2 : k1 = k2
      · subst h2
        have h3 : ¬ k = k1 := fun h => h1 h.symm
        simp [set, get, h1, h3]
      · simp [set, get, h1, h2, ih]

theorem get_set_self (m : GoMap V) (k : String) (v : V) : (m.set k v).get k = some v := by
  simp [get_set]

theorem get_set_of_ne (m : GoMap V) {k k2 : String} (v : V) (h : k ≠ k2) :
    (m.set k v).get k2 = m.get k2 := by
  simp [get_set, h]

theorem mem_set {m : GoMap V} {k : String} {v : V} {kv : String × V}
    (h : kv ∈ m.set k v) : kv ∈ m ∨ kv = (k, v) := by
  induction m with
  | nil => simpa [set] using h
  | cons hd tl ih =>
    obtain ⟨k1, v1⟩ := hd
    by_cases h1 : k1 = k
    · simp only [set, h1, if_true, List.mem_cons] at h
      rcases h with h | h
      · exact Or.inr h
      · exact Or.inl (List.mem_cons_of_mem _ h)
    · simp only [set, h1, if_false, List.mem_cons] at h
      rcases h with h | h
      · exact Or.inl (h ▸ List.mem_cons_self _ _)
      · rcases ih h with h2 | h2
        · exact Or.inl (List.mem_cons_of_mem _ h2)
        · exact Or.inr h2

theorem mem_of_get {m : GoMap V} {k : String} {v : V} (h : m.get k = some v) : (k, v) ∈ m := by
  induction m with
  | nil => simp [get] at h
  | cons hd tl ih =>
    obtain ⟨k1, v1⟩ := hd
    by_cases h1 : k1 = k
    · simp only [get, h1, if_true, Option.some.injEq] at h
      subst h1; subst h
      exact List.mem_cons_self _ _
    · simp only [get, h1, if_false] at h
      exact List.mem_cons_of_mem _ (ih h)

theorem mem_delete {m : GoMap V} {k : String} {kv : String × V} (h : kv ∈ m.delete k) :
    kv ∈ m :=
  (List.mem_filter.mp h).1

theorem get_delete (m : GoMap V) (k k2 : String) :
    (m.delete k).get k2 = if k = k2 then none else m.get k2 := by
  induction m with
  | nil => simp [delete, get]
  | cons hd tl ih =>
    obtain ⟨k1, v1⟩ := hd
    simp only [delete] at ih
    by_cases h1 : k1 = k
    · subst h1
      by_cases h2 : k1 = k2
      · simpa [delete, List.filter_cons, get, h2] using ih
      · simpa [delete, List.filter_cons, get, h2] using ih
    · by_cases h2 : k1 = k2
      · subst h2
        have h3 : ¬ k = k1 := fun h => h1 h.symm
        simp [delete, List.filter_cons, get, h1, h3]
      · simpa [delete, List.filter_cons, get, h1, h2] using ih

theorem set_of_get_none {m : GoMap V} {k : String} (v : V) (h : m.get k = none) :
    m.set k v = m ++ [(k, v)] := by
  induction m with
  | nil => simp [set]
  | cons hd tl ih =>
    obtain ⟨k1, v1⟩ := hd
    by_cases h1 : k1 = k
    · simp [get, h1] at h
    · simp only [get, h1, if_false] at h
      simp [set, h1, ih h]

end GoMap

/-! ## Facts about 64-bit integers -/

theorem wrapInt64_inInt64 (x : Int) : InInt64 (wrapInt64 x) := by
  unfold InInt64 wrapInt64
  omega

theorem wrapInt64_of_inInt64 {x : Int} (h : InInt64 x) : wrapInt64 x = x := by
  unfold InInt64 at h
  unfold wrapInt64
  omega

/-! ## Stock of the in-memory engine -/

namespace InMemoryStore

theorem AddToCart_products (s : InMemoryStore) (userID productID : String) (qty : Int) :
    (s.AddToCart userID productID qty).1.products = s.products := by
  unfold AddToCart
  split_ifs <;> (try rfl)
  all_goals (cases hc : s.carts.get userID <;> simp only [] <;> split <;> (try split_ifs) <;> rfl)

theorem RemoveFromCart_products (s : InMemoryStore) (userID productID : String) (qty : Int) :
    (s.RemoveFromCart userID productID qty).1.products = s.products := by
  unfold RemoveFromCart
  split_ifs <;> (try rfl)
  split <;> (try rfl)
  split <;> rfl

theorem GetOrCreateCart_products (s : InMemoryStore) (userID : String) :
    (s.GetOrCreateCart userID).1.products = s.products := by
  unfold GetOrCreateCart
  split <;> rfl

theorem UpdateOrderStatus_products (s : InMemoryStore) (orderID status : String) :
    (s.UpdateOrderStatus orderID status).1.products = s.products := by
  unfold UpdateOrderStatus
  split <;> rfl

theorem UpdateOrderPaymentRef_products (s : InMemoryStore) (orderID paymentRef : String) :
    (s.UpdateOrderPaymentRef orderID paymentRef).1.products = s.products := by
  unfold UpdateOrderPaymentRef
  split <;> rfl

theorem CreateReview_products (s : InMemoryStore) (userID userName userPhoto : String)
    (rating : Int) (comment id : String) (now : Time) :
    (s.CreateReview userID userName userPhoto rating comment id now).1.products
      = s.products := by
  unfold CreateReview
  split_ifs <;> rfl

/-- The stock loop keeps every stock non-negative and within 64 bits when no item has a
negative quantity: what it writes is then a difference between zero and the stock there
was. -/
theorem decrementStock_nonneg (items : List CartItem) :
    ∀ products : GoMap Product, (∀ kv ∈ products, 0 ≤ kv.2.Stock ∧ InInt64 kv.2.Stock) →
      (∀ it ∈ items, 0 ≤ it.Quantity) →
      ∀ kv ∈ decrementStock products items, 0 ≤ kv.2.Stock ∧ InInt64 kv.2.Stock := by
  induction items with
  | nil => intro products h _; simpa [decrementStock] using h
  | cons it rest ih =>
    intro products h hq
    have hrest : ∀ x ∈ rest, 0 ≤ x.Quantity := fun x hx => hq x (List.mem_cons_of_mem _ hx)
    have hit : 0 ≤ it.Quantity := hq it (List.mem_cons_self _ _)
    unfold decrementStock
    cases hg : products.get it.ProductID with
    | none => exact ih products h hrest
    | some p =>
      simp only []
      by_cases hge : p.Stock ≥ it.Quantity
      · rw [if_pos hge]
        apply ih _ _ hrest
        intro kv hkv
        rcases GoMap.mem_set hkv with h1 | h1
        · exact h kv h1
        · subst h1
          have hp : 0 ≤ p.Stock ∧ InInt64 p.Stock := h _ (GoMap.mem_of_get hg)
          show 0 ≤ wrapInt64 (p.Stock - it.Quantity) ∧ InInt64 (wrapInt64 (p.Stock - it.Quantity))
          have hin : InInt64 (p.Stock - it.Quantity) := by
            have h2 := hp.2
            unfold InInt64 at h2 ⊢
            have h3 := hp.1
            omega
          rw [wrapInt64_of_inInt64 hin]
          exact ⟨by omega, hin⟩
      · rw [if_neg hge]
        exact ih products h hrest

theorem step_stockNonneg (s : InMemoryStore) (op : Op)
    (hs : ∀ kv ∈ s.products, 0 ≤ kv.2.Stock ∧ InInt64 kv.2.Stock)
    (hop : op.KeepsStockNonneg) :
    ∀ kv ∈ (step s op).products, 0 ≤ kv.2.Stock ∧ InInt64 kv.2.Stock := by
  cases op with
  | createProduct p id now =>
    intro kv hkv
    rcases GoMap.mem_set hkv with h1 | h1
    · exact hs kv h1
    · subst h1; exact hop
  | updateProduct id update now =>
    simp only [step, UpdateProduct]
    cases hg : s.products.get id with
    | none => exact hs
    | some p =>
      have hp := hs _ (GoMap.mem_of_get hg)
      have hu := hop p hp.1 hp.2
      simp only []
      rcases hup : update p with ⟨p1, _ | err⟩
      · rw [hup] at hu
        intro kv hkv
        rcases GoMap.mem_set hkv with h1 | h1
        · exact hs kv h1
        · subst h1; exact hu
      · rw [hup] at hu
        intro kv hkv
        rcases GoMap.mem_set hkv with h1 | h1
        · exact hs kv h1
        · subst h1; exact hu
  | deleteProduct id =>
    simp only [step, DeleteProduct]
    cases hg : s.products.get id with
    | none => exact hs
    | some p => exact fun kv hkv => hs kv (GoMap.mem_delete hkv)
  | getOrCreateCart userID =>
    simp only [step, GetOrCreateCart_products]; exact hs
  | addToCart userID productID qty =>
    simp only [step, AddToCart_products]; exact hs
  | removeFromCart userID productID qty =>
    simp only [step, RemoveFromCart_products]; exact hs
  | clearCart userID => exact hs
  | createOrder userID items amount status paymentRef id now =>
    exact decrementStock_nonneg items _ hs hop
  | updateOrderStatus orderID status =>
    simp only [step, UpdateOrderStatus_products]; exact hs
  | updateOrderPaymentRef orderID paymentRef =>
    simp only [step, UpdateOrderPaymentRef_products]; exact hs
  | createReview userID userName userPhoto rating comment id now =>
    simp only [step, CreateReview_products]; exact hs

theorem run_stockNonneg (ops : List Op) :
    ∀ s : InMemoryStore, (∀ kv ∈ s.products, 0 ≤ kv.2.Stock ∧ InInt64 kv.2.Stock) →
      (∀ op ∈ ops, op.KeepsStockNonneg) →
      ∀ kv ∈ (run s ops).products, 0 ≤ kv.2.Stock ∧ InInt64 kv.2.Stock := by
  induction ops with
  | nil => intro s hs _; exact hs
  | cons op rest ih =>
    intro s hs hops
    exact ih (step s op) (step_stockNonneg s op hs (hops op (List.mem_cons_self _ _)))
      (fun o ho => hops o (List.mem_cons_of_mem _ ho))

/-- C1, at the failing input: on the store that holds `p1` with stock 10 and `p2` with stock
50, `CreateOrder` for the items `[(p1, 2), (p2, 100)]` returns the order and no error, lowers
the stock of `p1` to 8, leaves the stock of `p2` at 50 and stores the order. -/
theorem CreateOrder_short_stock_goes_through :
    (twoProducts.CreateOrder "u1" overItems 20200 "pending" "" "o1" 7).2
        = .ok { ID := "o1", UserID := "u1", Items := overItems, Amount := 20200,
                Status := "pending", PaymentRef := "", CreatedAt := 7 }
      ∧ ((twoProducts.CreateOrder "u1" overItems 20200 "pending" "" "o1" 7).1.products.get
            "p1").map Product.Stock = some 8
      ∧ ((twoProducts.CreateOrder "u1" overItems 20200 "pending" "" "o1" 7).1.products.get
            "p2").map Product.Stock = some 50
      ∧ (twoProducts.CreateOrder "u1" overItems 20200 "pending" "" "o1" 7).1.orders
          = [("o1", { ID := "o1", UserID := "u1", Items := overItems, Amount := 20200,
                      Status := "pending", PaymentRef := "", CreatedAt := 7 })] :=
  ⟨rfl, by decide, by decide, by decide⟩

/-- C3, refuted as stated: one `CreateProduct` call with a draft of stock `-1` on the empty
store leaves a stored product with negative stock; so does, after a draft of stock 5, an
`UpdateProduct` whose patch sets the stock to `-1`; and after a draft with the stock
9223372036854775807, the largest there is, an order of the quantity `-1` leaves the stock
-9223372036854775808. -/
theorem negative_stock_is_reachable :
    Reachable (run NewInMemoryStore [.createProduct (sampleProduct "" 100 (-1)) "p1" 7])
      ∧ ¬ StockNonneg
          (run NewInMemoryStore [.createProduct (sampleProduct "" 100 (-1)) "p1" 7])
      ∧ ((run NewInMemoryStore
            [.createProduct (sampleProduct "" 100 5) "p1" 7,
             .updateProduct "p1" (fun q => ({ q with Stock := -1 }, none))
               8]).products.get "p1").map Product.Stock
          = some (-1)
      ∧ ((run NewInMemoryStore
            [.createProduct (sampleProduct "" 100 9223372036854775807) "p1" 7,
             .createOrder "u1" [{ ProductID := "p1", Quantity := -1 }] 0 "pending" "" "o1"
               8]).products.get "p1").map Product.Stock
          = some (-9223372036854775808) :=
  ⟨⟨_, rfl⟩, by decide, by decide, by decide⟩

/-- C3, amended: in every state reached from the empty store by calls in which each created
draft has a stock that is not negative, each patch keeps such a stock from becoming negative
and no order has an item of negative quantity, every stored product has stock at least
zero. -/
theorem stock_nonneg_of_guarded_ops (ops : List Op)
    (h : ∀ op ∈ ops, op.KeepsStockNonneg) : StockNonneg (run NewInMemoryStore ops) :=
  fun kv hkv =>
    (run_stockNonneg ops NewInMemoryStore (by intro kv hkv; cases hkv) h kv hkv).1

/-- C4, refuted as stated: with the stock 9223372036854775807 and an item of quantity `-1`
the stock is at least the quantity, and the difference `CreateOrder` writes is
-9223372036854775808. -/
theorem CreateOrder_negative_quantity_overflows :
    StockNonneg fullStock
      ∧ ((fullStock.CreateOrder "u1" [{ ProductID := "p1", Quantity := -1 }] 0 "pending" ""
            "o1" 7).1.products.get "p1").map Product.Stock
          = some (-9223372036854775808)
      ∧ ¬ StockNonneg
          (fullStock.CreateOrder "u1" [{ ProductID := "p1", Quantity := -1 }] 0 "pending" ""
            "o1" 7).1 :=
  ⟨by decide, by decide, by decide⟩

/-- C4, amended: when every stock is at least zero (and a Go integer) and no item has a
negative quantity, `CreateOrder` leaves every stock at least zero, whether the items repeat
a product or name one that is not on record. -/
theorem CreateOrder_preserves_stock_nonneg (s : InMemoryStore) (userID : String)
    (items : List CartItem) (amount : Int) (status paymentRef id : String) (now : Time)
    (h : StockNonneg s) (hr : StocksInInt64 s) (hq : ∀ it ∈ items, 0 ≤ it.Quantity) :
    StockNonneg (s.CreateOrder userID items amount status paymentRef id now).1 :=
  fun kv hkv =>
    (decrementStock_nonneg items s.products (fun kv2 h2 => ⟨h kv2 h2, hr kv2 h2⟩) hq kv hkv).1

/-- The run `guardedOps` respects the stock invariant, and the state it reaches has no
negative stock. -/
theorem stock_nonneg_of_guarded_ops_witness :
    (∀ op ∈ guardedOps, op.KeepsStockNonneg)
      ∧ StockNonneg (run NewInMemoryStore guardedOps) :=
  have h : ∀ op ∈ guardedOps, op.KeepsStockNonneg := by
    intro op hop
    simp only [guardedOps, List.mem_cons, List.mem_singleton, List.not_mem_nil, or_false] at hop
    rcases hop with rfl | rfl | rfl | rfl
    · exact ⟨by decide, by decide⟩
    · intro q _ _
      show (0 : Int) ≤ 8 ∧ InInt64 8
      exact ⟨by decide, by decide⟩
    · trivial
    · intro it hit
      simp only [List.mem_singleton] at hit
      subst hit
      decide
  ⟨h, stock_nonneg_of_guarded_ops guardedOps h⟩

/-- On `twoProducts`, whose stocks are 10 and 50, the order for `overItems`, of the
quantities 2 and 100, leaves no negative stock. -/
theorem CreateOrder_preserves_stock_nonneg_witness :
    StockNonneg twoProducts ∧ StocksInInt64 twoProducts
      ∧ (∀ it ∈ overItems, 0 ≤ it.Quantity)
      ∧ StockNonneg (twoProducts.CreateOrder "u1" overItems 20200 "pending" "" "o1" 7).1 :=
  ⟨by decide, by decide, by decide,
   CreateOrder_preserves_stock_nonneg twoProducts "u1" overItems 20200 "pending" "" "o1" 7
     (by decide) (by decide) (by decide)⟩

/-- The stock loop leaves alone every product that no item names. -/
theorem decrementStock_get_of_not_mem (items : List CartItem) :
    ∀ (products : GoMap Product) (k : String), k ∉ items.map CartItem.ProductID →
      (decrementStock products items).get k = products.get k := by
  induction items with
  | nil => intro products k _; rfl
  | cons it rest ih =>
    intro products k hk
    simp only [List.map_cons, List.mem_cons, not_or] at hk
    unfold decrementStock
    cases hg : products.get it.ProductID with
    | none => exact ih products k hk.2
    | some p =>
      simp only []
      split_ifs with hq
      · rw [ih _ k hk.2]
        exact GoMap.get_set_of_ne _ _ (fun h => hk.1 h.symm)
      · exact ih products k hk.2

/-- With pairwise distinct products, each on record with enough stock, the stock loop
writes for each named product the stock less the quantity of its item, in 64 bits. -/
theorem decrementStock_get_of_mem (items : List CartItem) :
    ∀ products : GoMap Product, (items.map CartItem.ProductID).Nodup →
      (∀ it ∈ items, ∃ p, products.get it.ProductID = some p ∧ it.Quantity ≤ p.Stock) →
      ∀ it ∈ items, ∀ p, products.get it.ProductID = some p →
        (decrementStock products items).get it.ProductID
          = some { p with Stock := wrapInt64 (p.Stock - it.Quantity) } := by
  induction items with
  | nil => intro products _ _ it hit; cases hit
  | cons hd tl ih =>
    intro products hnd hall it hit p hp
    simp only [List.map_cons, List.nodup_cons] at hnd
    obtain ⟨p0, hp0, hq0⟩ := hall hd (List.mem_cons_self _ _)
    unfold decrementStock
    simp only [hp0, ge_iff_le, hq0, if_true]
    rcases List.mem_cons.mp hit with rfl | hmem
    · rw [decrementStock_get_of_not_mem tl _ _ hnd.1, GoMap.get_set_self]
      rw [hp0] at hp
      cases hp
      rfl
    · have hne : hd.ProductID ≠ it.ProductID := by
        intro h
        exact hnd.1 (h ▸ List.mem_map_of_mem _ hmem)
      apply ih _ hnd.2 _ it hmem p
      · rw [GoMap.get_set_of_ne _ _ hne]; exact hp
      · intro it2 hit2
        have hne2 : hd.ProductID ≠ it2.ProductID := by
          intro h
          exact hnd.1 (h ▸ List.mem_map_of_mem _ hit2)
        rw [GoMap.get_set_of_ne _ _ hne2]
        exact hall it2 (List.mem_cons_of_mem _ hit2)

/-- C5, refuted as stated: on the store whose product `p1` has the stock
9223372036854775807, the item `(p1, -1)` names a product on record with enough stock, and
`CreateOrder` leaves the stock -9223372036854775808, which is not the stock less the
quantity. -/
theorem CreateOrder_stock_wraps :
    fullStock.products.get "p1" = some (sampleProduct "p1" 100 9223372036854775807)
      ∧ (-1 : Int) ≤ 9223372036854775807
      ∧ (fullStock.CreateOrder "u1" [{ ProductID := "p1", Quantity := -1 }] 0 "pending" ""
            "o1" 7).1.products.get "p1"
          = some (sampleProduct "p1" 100 (-9223372036854775808))
      ∧ (9223372036854775807 : Int) - (-1) ≠ -9223372036854775808 :=
  ⟨rfl, by decide, rfl, by decide⟩

/-- C5, amended: when the items name pairwise distinct products, each on record with a stock
of at least the quantity asked, `CreateOrder` returns the order made of its arguments, writes
for each named product the stock less the quantity of its item, reduced to 64 bits, which is
the stock less the quantity whenever that difference is within 64 bits, changes no other
product, and binds that order, and nothing else, in the orders: with the identity drawn being
fresh, the order is added to the orders there were.  Carts and reviews are unchanged. -/
theorem CreateOrder_sufficient_stock (s : InMemoryStore) (userID : String)
    (items : List CartItem) (amount : Int) (status paymentRef id : String) (now : Time)
    (hdistinct : (items.map CartItem.ProductID).Nodup)
    (hstock : ∀ it ∈ items, ∃ p, s.products.get it.ProductID = some p ∧ it.Quantity ≤ p.Stock) :
    (s.CreateOrder userID items amount status paymentRef id now).2
        = .ok { ID := id, UserID := userID, Items := items, Amount := amount,
                Status := status, PaymentRef := paymentRef, CreatedAt := now }
      ∧ (∀ it ∈ items, ∀ p, s.products.get it.ProductID = some p →
          (s.CreateOrder userID items amount status paymentRef id now).1.products.get
              it.ProductID = some { p with Stock := wrapInt64 (p.Stock - it.Quantity) })
      ∧ (∀ it ∈ items, ∀ p, s.products.get it.ProductID = some p →
          InInt64 (p.Stock - it.Quantity) →
          (s.CreateOrder userID items amount status paymentRef id now).1.products.get
              it.ProductID = some { p with Stock := p.Stock - it.Quantity })
      ∧ (∀ k, k ∉ items.map CartItem.ProductID →
          (s.CreateOrder userID items amount status paymentRef id now).1.products.get k
            = s.products.get k)
      ∧ (s.CreateOrder userID items amount status paymentRef id now).1.orders
          = s.orders.set id { ID := id, UserID := userID, Items := items, Amount := amount,
                              Status := status, PaymentRef := paymentRef, CreatedAt := now }
      ∧ (s.orders.get id = none →
          (s.CreateOrder userID items amount status paymentRef id now).1.orders
            = s.orders ++ [(id, { ID := id, UserID := userID, Items := items,
                                  Amount := amount, Status := status,
                                  PaymentRef := paymentRef, CreatedAt := now })])
      ∧ (s.CreateOrder userID items amount status paymentRef id now).1.carts = s.carts
      ∧ (s.CreateOrder userID items amount status paymentRef id now).1.reviews = s.reviews := by
  refine ⟨rfl, ?_, ?_, ?_, rfl, ?_, rfl, rfl⟩
  · exact decrementStock_get_of_mem items s.products hdistinct hstock
  · intro it hit p hp hin
    have h := decrementStock_get_of_mem items s.products hdistinct hstock it hit p hp
    rw [wrapInt64_of_inInt64 hin] at h
    exact h
  · exact fun k hk => decrementStock_get_of_not_mem items s.products k hk
  · exact fun hfresh => GoMap.set_of_get_none _ hfresh

/-- On `twoProducts` the items `fitItems` are covered by the stock, and the order for them
lowers the stock of `p2` from 50 to 20. -/
theorem CreateOrder_sufficient_stock_witness :
    (fitItems.map CartItem.ProductID).Nodup
      ∧ (∀ it ∈ fitItems, ∃ p,
          twoProducts.products.get it.ProductID = some p ∧ it.Quantity ≤ p.Stock)
      ∧ ((twoProducts.CreateOrder "u1" fitItems 6200 "pending" "" "o1" 7).1.products.get
            "p2").map Product.Stock = some 20 :=
  have h1 : (fitItems.map CartItem.ProductID).Nodup := by decide
  have h2 : ∀ it ∈ fitItems, ∃ p,
      twoProducts.products.get it.ProductID = some p ∧ it.Quantity ≤ p.Stock := by
    intro it hit
    simp only [fitItems, List.mem_cons, List.mem_singleton, List.not_mem_nil, or_false] at hit
    rcases hit with rfl | rfl
    · exact ⟨sampleProduct "p1" 100 10, by decide, by decide⟩
    · exact ⟨sampleProduct "p2" 200 50, by decide, by decide⟩
  ⟨h1, h2, by
    rw [(CreateOrder_sufficient_stock twoProducts "u1" fitItems 6200 "pending" "" "o1" 7
      h1 h2).2.2.1 { ProductID := "p2", Quantity := 30 } (by decide)
      (sampleProduct "p2" 200 50) (by decide) (by decide)]
    decide⟩

end InMemoryStore

namespace MySQLStore

theorem insertOrderItem_error {db : MySQLStore} {row : OrderItemRow} {e : String}
    (h : insertOrderItem db row = .error e) : e = "duplicate entry for key PRIMARY" := by
  unfold insertOrderItem at h
  split_ifs at h
  cases h
  rfl

theorem insertOrderItem_orders {db work : MySQLStore} {row : OrderItemRow}
    (h : insertOrderItem db row = .ok work) : work.orders = db.orders := by
  unfold insertOrderItem at h
  split_ifs at h
  cases h
  rfl

/-- The loop over the items writes nothing to table `orders`. -/
theorem orderItemsLoop_orders (id : String) (items : List CartItem) :
    ∀ (work : MySQLStore) (err : Option String),
      (orderItemsLoop id work err items).work.orders = work.orders := by
  induction items with
  | nil => intro work err; rfl
  | cons it rest ih =>
    intro work err
    unfold orderItemsLoop
    cases hs : selectPrice work it.ProductID with
    | none => rfl
    | some priceCents =>
      simp only []
      cases hi : insertOrderItem work
          { order_id := id, product_id := it.ProductID, quantity := it.Quantity,
            price_cents := priceCents } with
      | error e => rfl
      | ok work1 =>
        simp only []
        split_ifs
        · show work1.orders = work.orders
          exact insertOrderItem_orders hi
        · rw [ih]
          show work1.orders = work.orders
          exact insertOrderItem_orders hi

/-- The function-scope `err` is `nil` at every `return` of the loop but the one that follows
a refused `INSERT INTO order_items`. -/
theorem orderItemsLoop_err (id : String) (items : List CartItem) :
    ∀ work : MySQLStore,
      (orderItemsLoop id work none items).err = none
        ∨ (orderItemsLoop id work none items).returned
            = some "duplicate entry for key PRIMARY" := by
  induction items with
  | nil => intro work; exact Or.inl rfl
  | cons it rest ih =>
    intro work
    unfold orderItemsLoop
    cases hs : selectPrice work it.ProductID with
    | none => exact Or.inl rfl
    | some priceCents =>
      simp only []
      cases hi : insertOrderItem work
          { order_id := id, product_id := it.ProductID, quantity := it.Quantity,
            price_cents := priceCents } with
      | error e =>
        right
        rw [insertOrderItem_error hi]
      | ok work1 =>
        simp only []
        split_ifs
        · exact Or.inl rfl
        · exact ih _

/-- Every failure of `CreateOrder` other than a refused `INSERT` is committed: the call
returns the error and the order row is in table `orders` afterwards. -/
theorem CreateOrder_error_is_committed (db : MySQLStore) (userID : String)
    (items : List CartItem) (amount : Int) (status paymentRef id : String) (now : Time)
    (e : String) (he : (db.CreateOrder userID items amount status paymentRef id now).2 = .error e)
    (hne : e ≠ "duplicate entry for key PRIMARY") :
    (db.CreateOrder userID items amount status paymentRef id now).1.orders
      = db.orders ++ [{ id := id, user_id := userID, amount_cents := amount, status := status,
                        payment_ref := paymentRef, created_at := now }] := by
  unfold CreateOrder at he ⊢
  cases hi : insertOrder db
      { id := id, user_id := userID, amount_cents := amount, status := status,
        payment_ref := paymentRef, created_at := now } with
  | error e1 =>
    rw [hi] at he
    simp only [Except.error.injEq] at he
    unfold insertOrder at hi
    split_ifs at hi
    cases hi
    exact absurd he.symm hne
  | ok work =>
    rw [hi] at he
    simp only [] at he ⊢
    have hw : work.orders
        = db.orders ++ [OrderRow.mk id userID amount status paymentRef now] := by
      unfold insertOrder at hi
      split_ifs at hi
      cases hi
      rfl
    cases hret : (orderItemsLoop id work none items).returned with
    | none => rw [hret] at he; cases he
    | some e2 =>
      rw [hret] at he
      simp only [Except.error.injEq] at he
      subst he
      rcases orderItemsLoop_err id items work with h0 | h0
      · simp only [h0]
        rw [orderItemsLoop_orders, hw]
      · rw [hret] at h0
        simp only [Option.some.injEq] at h0
        exact absurd h0 hne

/-- C2, at the failing input: on the database that holds `p1` with stock 10 and `p2` with
stock 50, `CreateOrder` for the items `[(p1, 2), (p2, 100)]` returns the error of the stock
check, and the transaction is committed: the order row, both `order_items` rows and the
decrement of `p1` are in the database afterwards.  The same happens when the price lookup
fails on the second item. -/
theorem CreateOrder_failure_is_committed :
    (twoRows.CreateOrder "u1" overItems 20200 "pending" "" "o1" 7).2
        = .error "insufficient stock for product: p2"
      ∧ (twoRows.CreateOrder "u1" overItems 20200 "pending" "" "o1" 7).1
        = { products :=
              [{ id := "p1", name := "kopi", description := "", category := "",
                 price_cents := 100, sku := "K-1", stock := 8, thumbnail := "",
                 created_at := 0, updated_at := 0 },
               { id := "p2", name := "teh", description := "", category := "",
                 price_cents := 200, sku := "T-1", stock := 50, thumbnail := "",
                 created_at := 0, updated_at := 0 }],
            orders :=
              [{ id := "o1", user_id := "u1", amount_cents := 20200, status := "pending",
                 payment_ref := "", created_at := 7 }],
            order_items :=
              [{ order_id := "o1", product_id := "p1", quantity := 2, price_cents := 100 },
               { order_id := "o1", product_id := "p2", quantity := 100, price_cents := 200 }] }
      ∧ (twoRows.CreateOrder "u1" overItems 20200 "pending" "" "o1" 7).1 ≠ twoRows
      ∧ (twoRows.CreateOrder "u1" strayItems 300 "pending" "" "o1" 7).2
        = .error "sql: no rows in result set"
      ∧ (twoRows.CreateOrder "u1" strayItems 300 "pending" "" "o1" 7).1 ≠ twoRows :=
  ⟨rfl, by decide, by decide, rfl, by decide⟩

end MySQLStore

/-! ## Carts of the in-memory engine -/

namespace InMemoryStore

theorem currentQty_eq_lineQuantity (items : List CartItem) (productID : String) :
    currentQty items productID = lineQuantity items productID := by
  induction items with
  | nil => rfl
  | cons it rest ih =>
    unfold lineQuantity at ih ⊢
    by_cases h : it.ProductID = productID
    · simp [currentQty, h, List.find?_cons]
    · simp only [currentQty, h, if_false, List.find?_cons, decide_False]
      exact ih

theorem currentQty_cartLines (s : InMemoryStore) (userID productID : String) :
    currentQty (match s.carts.get userID with
        | some c => c
        | none => { UserID := userID, Items := [] }).Items productID
      = lineQuantity (cartLines s userID) productID := by
  rw [currentQty_eq_lineQuantity]
  unfold cartLines
  cases s.carts.get userID <;> rfl

theorem addOrUpdate_found (items : List CartItem) (productID : String) (qty : Int) :
    (addOrUpdate items productID qty).2 = true ↔ productID ∈ items.map CartItem.ProductID := by
  induction items with
  | nil => simp [addOrUpdate]
  | cons it rest ih =>
    by_cases h : it.ProductID = productID
    · simp [addOrUpdate, h]
    · have h2 : ¬ productID = it.ProductID := fun e => h e.symm
      simp [addOrUpdate, h, h2, ih]

theorem addOrUpdate_ids (items : List CartItem) (productID : String) (qty : Int) :
    (addOrUpdate items productID qty).1.map CartItem.ProductID
      = items.map CartItem.ProductID := by
  induction items with
  | nil => simp [addOrUpdate]
  | cons it rest ih =>
    by_cases h : it.ProductID = productID
    · simp [addOrUpdate, h]
    · simp [addOrUpdate, h, ih]

theorem addOrUpdate_of_not_mem (items : List CartItem) (productID : String) (qty : Int)
    (h : productID ∉ items.map CartItem.ProductID) :
    (addOrUpdate items productID qty).1 = items := by
  induction items with
  | nil => simp [addOrUpdate]
  | cons it rest ih =>
    simp only [List.map_cons, List.mem_cons, not_or] at h
    have h1 : ¬ it.ProductID = productID := fun e => h.1 e.symm
    simp [addOrUpdate, h1, ih h.2]

theorem addOrUpdate_split (pre post : List CartItem) (productID : String) (n qty : Int)
    (hpre : productID ∉ pre.map CartItem.ProductID) :
    addOrUpdate (pre ++ { ProductID := productID, Quantity := n } :: post) productID qty
      = (pre ++ { ProductID := productID, Quantity := wrapInt64 (n + qty) } :: post, true) := by
  induction pre with
  | nil => simp [addOrUpdate]
  | cons hd tl ih =>
    simp only [List.map_cons, List.mem_cons, not_or] at hpre
    have h1 : ¬ hd.ProductID = productID := fun e => hpre.1 e.symm
    simp only [List.cons_append, addOrUpdate, h1, if_false, List.append_eq]
    rw [ih hpre.2]

theorem addOrUpdate_pos (items : List CartItem) (productID : String) (qty : Int)
    (hq : 0 < qty) (hpos : ∀ it ∈ items, 0 < it.Quantity)
    (hin : InInt64 (currentQty items productID + qty)) :
    ∀ it ∈ (addOrUpdate items productID qty).1, 0 < it.Quantity := by
  induction items with
  | nil => simp [addOrUpdate]
  | cons hd tl ih =>
    have hhd : 0 < hd.Quantity := hpos hd (List.mem_cons_self _ _)
    have htl : ∀ it ∈ tl, 0 < it.Quantity := fun it h => hpos it (List.mem_cons_of_mem _ h)
    by_cases h : hd.ProductID = productID
    · simp only [currentQty, h, if_true] at hin
      simp only [addOrUpdate, h, if_true]
      intro it hit
      rcases List.mem_cons.mp hit with rfl | h2
      · show 0 < wrapInt64 (hd.Quantity + qty)
        rw [wrapInt64_of_inInt64 hin]
        omega
      · exact htl it h2
    · simp only [currentQty, h, if_false] at hin
      simp only [addOrUpdate, h, if_false]
      intro it hit
      rcases List.mem_cons.mp hit with rfl | h2
      · exact hhd
      · exact ih htl hin it h2

/-- The lines `AddToCart` writes back, the merged lines, or the old lines with the new line
at the end when no line named the product, name no product twice when the old lines name
none twice. -/
theorem newLines_nodup (items : List CartItem) (productID : String) (qty : Int)
    (hc : (items.map CartItem.ProductID).Nodup) :
    ((if (addOrUpdate items productID qty).2 then (addOrUpdate items productID qty).1
      else (addOrUpdate items productID qty).1
        ++ [{ ProductID := productID, Quantity := qty }]).map CartItem.ProductID).Nodup := by
  by_cases hf : (addOrUpdate items productID qty).2 = true
  · simp only [hf, if_true]
    rw [addOrUpdate_ids]
    exact hc
  · have hnm : productID ∉ items.map CartItem.ProductID :=
      fun h => hf ((addOrUpdate_found _ _ _).mpr h)
    rw [if_neg hf, addOrUpdate_of_not_mem _ _ _ hnm]
    rw [List.map_append, List.nodup_append]
    refine ⟨hc, List.nodup_singleton _, ?_⟩
    intro a ha hb
    simp only [List.map_cons, List.map_nil, List.mem_singleton] at hb
    exact hnm (hb ▸ ha)

/-- The lines `AddToCart` writes back have positive quantities when the old lines have, the
quantity added is positive and its sum with the quantity there was is within 64 bits. -/
theorem newLines_pos (items : List CartItem) (productID : String) (qty : Int) (hq : 0 < qty)
    (hpos : ∀ it ∈ items, 0 < it.Quantity)
    (hin : InInt64 (currentQty items productID + qty)) :
    ∀ it ∈ (if (addOrUpdate items productID qty).2 then (addOrUpdate items productID qty).1
        else (addOrUpdate items productID qty).1
          ++ [{ ProductID := productID, Quantity := qty }]), 0 < it.Quantity := by
  by_cases hf : (addOrUpdate items productID qty).2 = true
  · simp only [hf, if_true]
    exact addOrUpdate_pos _ _ _ hq hpos hin
  · have hnm : productID ∉ items.map CartItem.ProductID :=
      fun h => hf ((addOrUpdate_found _ _ _).mpr h)
    rw [if_neg hf, addOrUpdate_of_not_mem _ _ _ hnm]
    intro it hit
    simp only [List.mem_append, List.mem_singleton] at hit
    rcases hit with h | rfl
    · exact hpos it h
    · exact hq

theorem forall_carts_set {P : Cart → Prop} {m : GoMap Cart} (hm : ∀ kv ∈ m, P kv.2) {c : Cart}
    (hc : P c) (userID : String) : ∀ kv ∈ m.set userID c, P kv.2 := by
  intro kv hkv
  rcases GoMap.mem_set hkv with h | h
  · exact hm kv h
  · subst h; exact hc

/-- A property of carts that holds of the empty cart and that the lines a successful
`AddToCart` writes back keep, holds of every cart after `AddToCart` when it held of every
cart before. -/
theorem AddToCart_carts_forall (s : InMemoryStore) (userID productID : String) (qty : Int)
    (P : Cart → Prop) (hs : ∀ kv ∈ s.carts, P kv.2)
    (hempty : P { UserID := userID, Items := [] })
    (hnew : ∀ c : Cart, P c → c.Items = cartLines s userID → 0 < qty →
      P { c with Items :=
        if (addOrUpdate c.Items productID qty).2 then (addOrUpdate c.Items productID qty).1
        else (addOrUpdate c.Items productID qty).1
          ++ [{ ProductID := productID, Quantity := qty }] }) :
    ∀ kv ∈ (s.AddToCart userID productID qty).1.carts, P kv.2 := by
  unfold AddToCart
  by_cases hq : qty ≤ 0
  · simpa only [hq, if_true] using hs
  · simp only [hq, if_false]
    have hq2 : 0 < qty := by omega
    cases hc : s.carts.get userID with
    | none =>
      simp only []
      have hl : ({ UserID := userID, Items := [] } : Cart).Items = cartLines s userID := by
        unfold cartLines
        rw [hc]
      have h1 : ∀ kv ∈ s.carts.set userID { UserID := userID, Items := [] }, P kv.2 :=
        forall_carts_set hs hempty userID
      cases hp : s.products.get productID with
      | none => exact h1
      | some p =>
        simp only []
        by_cases hlt : p.Stock < wrapInt64 (currentQty ([] : List CartItem) productID + qty)
        · rw [if_pos hlt]; exact h1
        · rw [if_neg hlt]
          exact forall_carts_set h1 (hnew _ hempty hl hq2) userID
    | some c =>
      simp only []
      have hcw : P c := hs _ (GoMap.mem_of_get hc)
      have hl : c.Items = cartLines s userID := by
        unfold cartLines
        rw [hc]
      cases hp : s.products.get productID with
      | none => exact hs
      | some p =>
        simp only []
        by_cases hlt : p.Stock < wrapInt64 (currentQty c.Items productID + qty)
        · rw [if_pos hlt]; exact hs
        · rw [if_neg hlt]
          exact forall_carts_set hs (hnew c hcw hl hq2) userID

theorem cartWF_empty (userID : String) : CartWF { UserID := userID, Items := [] } :=
  ⟨List.nodup_nil, fun _ h => by cases h⟩

theorem AddToCart_cartsWF (s : InMemoryStore) (userID productID : String) (qty : Int)
    (hs : CartsWF s) (hin : InInt64 (lineQuantity (cartLines s userID) productID + qty)) :
    CartsWF (s.AddToCart userID productID qty).1 := by
  apply AddToCart_carts_forall s userID productID qty CartWF hs (cartWF_empty userID)
  intro c hc hl hq
  rw [← hl, ← currentQty_eq_lineQuantity] at hin
  exact ⟨newLines_nodup c.Items productID qty hc.1, newLines_pos c.Items productID qty hq hc.2 hin⟩

theorem AddToCart_nodup (s : InMemoryStore) (userID productID : String) (qty : Int)
    (hs : ∀ kv ∈ s.carts, (kv.2.Items.map CartItem.ProductID).Nodup) :
    ∀ kv ∈ (s.AddToCart userID productID qty).1.carts,
      (kv.2.Items.map CartItem.ProductID).Nodup := by
  apply AddToCart_carts_forall s userID productID qty
    (fun c => (c.Items.map CartItem.ProductID).Nodup) hs List.nodup_nil
  intro c hc _ _
  exact newLines_nodup c.Items productID qty hc

theorem removeLine_wf (items : List CartItem) (productID : String) (qty : Int) :
    ∀ r, removeLine items productID qty = some r → ∀ it ∈ r,
      it.ProductID ∈ items.map CartItem.ProductID
        ∧ ((∀ x ∈ items, 0 < x.Quantity) → 0 < it.Quantity) := by
  induction items with
  | nil => intro r h; simp [removeLine] at h
  | cons hd tl ih =>
    intro r h it hit
    by_cases hp : hd.ProductID = productID
    · subst hp
      by_cases hle : hd.Quantity ≤ qty
      · simp only [removeLine, hle, if_true, Option.some.injEq] at h
        subst h
        exact ⟨List.mem_map_of_mem _ (List.mem_cons_of_mem _ hit),
          fun hpos => hpos it (List.mem_cons_of_mem _ hit)⟩
      · simp only [removeLine, hle, if_true, if_false, Option.some.injEq] at h
        subst h
        rcases List.mem_cons.mp hit with rfl | h2
        · exact ⟨by simp, fun hpos => by
            have := hpos hd (List.mem_cons_self _ _)
            show 0 < hd.Quantity - qty
            omega⟩
        · exact ⟨List.mem_map_of_mem _ (List.mem_cons_of_mem _ h2),
            fun hpos => hpos it (List.mem_cons_of_mem _ h2)⟩
    · simp only [removeLine, hp, if_false] at h
      cases hr1 : removeLine tl productID qty with
      | none => rw [hr1] at h; cases h
      | some r1 =>
        rw [hr1] at h
        simp only [Option.some.injEq] at h
        subst h
        rcases List.mem_cons.mp hit with rfl | h2
        · exact ⟨by simp, fun hpos => hpos _ (List.mem_cons_self _ _)⟩
        · obtain ⟨ha, hb⟩ := ih r1 hr1 it h2
          exact ⟨by simp only [List.map_cons, List.mem_cons]; exact Or.inr ha,
            fun hpos => hb (fun x hx => hpos x (List.mem_cons_of_mem _ hx))⟩

theorem removeLine_sublist (items : List CartItem) (productID : String) (qty : Int) :
    ∀ r, removeLine items productID qty = some r →
      (r.map CartItem.ProductID).Sublist (items.map CartItem.ProductID) := by
  induction items with
  | nil => intro r h; simp [removeLine] at h
  | cons hd tl ih =>
    intro r h
    by_cases hp : hd.ProductID = productID
    · subst hp
      by_cases hle : hd.Quantity ≤ qty
      · simp only [removeLine, hle, if_true, Option.some.injEq] at h
        subst h
        exact List.sublist_cons_self _ _
      · simp only [removeLine, hle, if_true, if_false, Option.some.injEq] at h
        subst h
        simp
    · simp only [removeLine, hp, if_false] at h
      cases hr1 : removeLine tl productID qty with
      | none => rw [hr1] at h; cases h
      | some r1 =>
        rw [hr1] at h
        simp only [Option.some.injEq] at h
        subst h
        exact (ih r1 hr1).cons₂ _

theorem RemoveFromCart_cartsWF (s : InMemoryStore) (userID productID : String) (qty : Int)
    (hs : CartsWF s) : CartsWF (s.RemoveFromCart userID productID qty).1 := by
  unfold RemoveFromCart
  by_cases hq : qty ≤ 0
  · simpa only [hq, if_true] using hs
  · simp only [hq, if_false]
    cases hc : s.carts.get userID with
    | none => exact hs
    | some c =>
      simp only []
      have hcw : CartWF c := hs _ (GoMap.mem_of_get hc)
      cases hr : removeLine c.Items productID qty with
      | none => exact hs
      | some r =>
        refine forall_carts_set hs ?_ userID
        exact ⟨(removeLine_sublist _ _ _ r hr).nodup hcw.1,
          fun it hit => (removeLine_wf _ _ _ r hr it hit).2 hcw.2⟩

theorem RemoveFromCart_nodup (s : InMemoryStore) (userID productID : String) (qty : Int)
    (hs : ∀ kv ∈ s.carts, (kv.2.Items.map CartItem.ProductID).Nodup) :
    ∀ kv ∈ (s.RemoveFromCart userID productID qty).1.carts,
      (kv.2.Items.map CartItem.ProductID).Nodup := by
  unfold RemoveFromCart
  by_cases hq : qty ≤ 0
  · simpa only [hq, if_true] using hs
  · simp only [hq, if_false]
    cases hc : s.carts.get userID with
    | none => exact hs
    | some c =>
      simp only []
      have hcw := hs _ (GoMap.mem_of_get hc)
      cases hr : removeLine c.Items productID qty with
      | none => exact hs
      | some r =>
        exact forall_carts_set (P := fun c => (c.Items.map CartItem.ProductID).Nodup) hs
          ((removeLine_sublist _ _ _ r hr).nodup hcw) userID

theorem UpdateProduct_carts (s : InMemoryStore) (id : String)
    (update : Product → Product × Option String) (now : Time) :
    (s.UpdateProduct id update now).1.carts = s.carts := by
  unfold UpdateProduct
  cases s.products.get id with
  | none => rfl
  | some p =>
    simp only []
    rcases update p with ⟨p1, _ | err⟩ <;> rfl

theorem DeleteProduct_carts (s : InMemoryStore) (id : String) :
    (s.DeleteProduct id).1.carts = s.carts := by
  unfold DeleteProduct
  split <;> rfl

theorem UpdateOrderStatus_carts (s : InMemoryStore) (orderID status : String) :
    (s.UpdateOrderStatus orderID status).1.carts = s.carts := by
  unfold UpdateOrderStatus
  split <;> rfl

theorem UpdateOrderPaymentRef_carts (s : InMemoryStore) (orderID paymentRef : String) :
    (s.UpdateOrderPaymentRef orderID paymentRef).1.carts = s.carts := by
  unfold UpdateOrderPaymentRef
  split <;> rfl

theorem CreateReview_carts (s : InMemoryStore) (userID userName userPhoto : String)
    (rating : Int) (comment id : String) (now : Time) :
    (s.CreateReview userID userName userPhoto rating comment id now).1.carts = s.carts := by
  unfold CreateReview
  split_ifs <;> rfl

theorem step_cartsWF (s : InMemoryStore) (op : Op) (hs : CartsWF s)
    (hop : AddsWithinInt64 s op) : CartsWF (step s op) := by
  cases op with
  | createProduct p id now => exact hs
  | updateProduct id update now =>
    simp only [step, CartsWF, UpdateProduct_carts]; exact hs
  | deleteProduct id =>
    simp only [step, CartsWF, DeleteProduct_carts]; exact hs
  | getOrCreateCart userID =>
    simp only [step, GetOrCreateCart]
    cases hc : s.carts.get userID with
    | none => exact forall_carts_set hs (cartWF_empty userID) userID
    | some c => exact hs
  | addToCart userID productID qty => exact AddToCart_cartsWF s userID productID qty hs hop
  | removeFromCart userID productID qty =>
    exact RemoveFromCart_cartsWF s userID productID qty hs
  | clearCart userID => exact fun kv hkv => hs kv (GoMap.mem_delete hkv)
  | createOrder userID items amount status paymentRef id now => exact hs
  | updateOrderStatus orderID status =>
    simp only [step, CartsWF, UpdateOrderStatus_carts]; exact hs
  | updateOrderPaymentRef orderID paymentRef =>
    simp only [step, CartsWF, UpdateOrderPaymentRef_carts]; exact hs
  | createReview userID userName userPhoto rating comment id now =>
    simp only [step, CartsWF, CreateReview_carts]; exact hs

theorem run_cartsWF (ops : List Op) :
    ∀ s : InMemoryStore, CartsWF s → RunAddsWithinInt64 s ops → CartsWF (run s ops) := by
  induction ops with
  | nil => intro s hs _; exact hs
  | cons op rest ih =>
    intro s hs hops
    exact ih (step s op) (step_cartsWF s op hs hops.1) hops.2

theorem step_nodup (s : InMemoryStore) (op : Op)
    (hs : ∀ kv ∈ s.carts, (kv.2.Items.map CartItem.ProductID).Nodup) :
    ∀ kv ∈ (step s op).carts, (kv.2.Items.map CartItem.ProductID).Nodup := by
  cases op with
  | createProduct p id now => exact hs
  | updateProduct id update now =>
    simp only [step, UpdateProduct_carts]; exact hs
  | deleteProduct id =>
    simp only [step, DeleteProduct_carts]; exact hs
  | getOrCreateCart userID =>
    simp only [step, GetOrCreateCart]
    cases hc : s.carts.get userID with
    | none =>
      exact forall_carts_set (P := fun c => (c.Items.map CartItem.ProductID).Nodup) hs
        (show (({ UserID := userID, Items := [] } : Cart).Items.map CartItem.ProductID).Nodup
          from List.nodup_nil) userID
    | some c => exact hs
  | addToCart userID productID qty => exact AddToCart_nodup s userID productID qty hs
  | removeFromCart userID productID qty => exact RemoveFromCart_nodup s userID productID qty hs
  | clearCart userID => exact fun kv hkv => hs kv (GoMap.mem_delete hkv)
  | createOrder userID items amount status paymentRef id now => exact hs
  | updateOrderStatus orderID status =>
    simp only [step, UpdateOrderStatus_carts]; exact hs
  | updateOrderPaymentRef orderID paymentRef =>
    simp only [step, UpdateOrderPaymentRef_carts]; exact hs
  | createReview userID userName userPhoto rating comment id now =>
    simp only [step, CreateReview_carts]; exact hs

theorem run_nodup (ops : List Op) :
    ∀ s : InMemoryStore, (∀ kv ∈ s.carts, (kv.2.Items.map CartItem.ProductID).Nodup) →
      ∀ kv ∈ (run s ops).carts, (kv.2.Items.map CartItem.ProductID).Nodup := by
  induction ops with
  | nil => intro s hs; exact hs
  | cons op rest ih => intro s hs; exact ih (step s op) (step_nodup s op hs)

theorem filter_length_ids (items : List CartItem) (productID : String) :
    (items.filter (fun it => decide (it.ProductID = productID))).length
      = ((items.map CartItem.ProductID).filter (fun k => decide (k = productID))).length := by
  induction items with
  | nil => rfl
  | cons it rest ih =>
    by_cases h : it.ProductID = productID
    · simp [List.filter_cons, h, ih]
    · simp [List.filter_cons, h, ih]

theorem filter_length_pos_of_mem (items : List CartItem) (productID : String)
    (h : productID ∈ items.map CartItem.ProductID) :
    0 < (items.filter (fun it => decide (it.ProductID = productID))).length := by
  obtain ⟨it, hit, hp⟩ := List.mem_map.mp h
  exact List.length_pos_of_mem (List.mem_filter.mpr ⟨hit, decide_eq_true hp⟩)

theorem filter_eq_nil_of_not_mem (items : List CartItem) (productID : String)
    (h : productID ∉ items.map CartItem.ProductID) :
    items.filter (fun it => decide (it.ProductID = productID)) = [] := by
  rw [List.filter_eq_nil_iff]
  intro it hit hp
  exact h (List.mem_map.mpr ⟨it, hit, of_decide_eq_true hp⟩)

theorem AddToCart_lines (s : InMemoryStore) (userID productID : String) (qty : Int)
    (h : (s.AddToCart userID productID qty).2 = .ok ()) :
    cartLines (s.AddToCart userID productID qty).1 userID
      = if (addOrUpdate (cartLines s userID) productID qty).2 then
          (addOrUpdate (cartLines s userID) productID qty).1
        else (addOrUpdate (cartLines s userID) productID qty).1
          ++ [{ ProductID := productID, Quantity := qty }] := by
  unfold AddToCart at h ⊢
  by_cases hq : qty ≤ 0
  · rw [if_pos hq] at h; cases h
  · rw [if_neg hq] at h ⊢
    cases hc : s.carts.get userID with
    | none =>
      simp only [hc] at h ⊢
      cases hp : s.products.get productID with
      | none => simp only [hp] at h; cases h
      | some p =>
        simp only [hp] at h ⊢
        by_cases hlt : p.Stock < wrapInt64 (currentQty ([] : List CartItem) productID + qty)
        · rw [if_pos hlt] at h; cases h
        · rw [if_neg hlt]
          simp only [cartLines, GoMap.get_set_self, hc]
    | some c =>
      simp only [hc] at h ⊢
      cases hp : s.products.get productID with
      | none => simp only [hp] at h; cases h
      | some p =>
        simp only [hp] at h ⊢
        by_cases hlt : p.Stock < wrapInt64 (currentQty c.Items productID + qty)
        · rw [if_pos hlt] at h; cases h
        · rw [if_neg hlt]
          simp only [cartLines, GoMap.get_set_self, hc]

theorem AddToCart_carts_other (s : InMemoryStore) (userID productID : String) (qty : Int)
    (u2 : String) (hne : u2 ≠ userID) :
    (s.AddToCart userID productID qty).1.carts.get u2 = s.carts.get u2 := by
  have hne2 : userID ≠ u2 := fun e => hne e.symm
  unfold AddToCart
  by_cases hq : qty ≤ 0
  · rw [if_pos hq]
  · rw [if_neg hq]
    cases hc : s.carts.get userID with
    | none =>
      simp only []
      cases hp : s.products.get productID with
      | none => exact GoMap.get_set_of_ne _ _ hne2
      | some p =>
        simp only []
        by_cases hlt : p.Stock < wrapInt64 (currentQty ([] : List CartItem) productID + qty)
        · rw [if_pos hlt]; exact GoMap.get_set_of_ne _ _ hne2
        · rw [if_neg hlt]
          show ((s.carts.set userID _).set userID _).get u2 = _
          rw [GoMap.get_set_of_ne _ _ hne2, GoMap.get_set_of_ne _ _ hne2]
    | some c =>
      simp only []
      cases hp : s.products.get productID with
      | none => rfl
      | some p =>
        simp only []
        by_cases hlt : p.Stock < wrapInt64 (currentQty c.Items productID + qty)
        · rw [if_pos hlt]
        · rw [if_neg hlt]; exact GoMap.get_set_of_ne _ _ hne2

theorem AddToCart_orders_reviews (s : InMemoryStore) (userID productID : String) (qty : Int) :
    (s.AddToCart userID productID qty).1.orders = s.orders
      ∧ (s.AddToCart userID productID qty).1.reviews = s.reviews := by
  unfold AddToCart
  split_ifs <;> (try exact ⟨rfl, rfl⟩)
  all_goals
    (cases hc : s.carts.get userID <;> simp only [] <;> split <;> (try split_ifs) <;>
      exact ⟨rfl, rfl⟩)

theorem AddToCart_users (s : InMemoryStore) (userID productID : String) (qty : Int) :
    (s.AddToCart userID productID qty).1.users = s.users := by
  unfold AddToCart
  split_ifs <;> (try rfl)
  all_goals (cases hc : s.carts.get userID <;> simp only [] <;> split <;> (try split_ifs) <;> rfl)

theorem removeLine_split (pre post : List CartItem) (productID : String) (n qty : Int)
    (hpre : productID ∉ pre.map CartItem.ProductID) :
    removeLine (pre ++ { ProductID := productID, Quantity := n } :: post) productID qty
      = some (if n ≤ qty then pre ++ post
              else pre ++ { ProductID := productID, Quantity := n - qty } :: post) := by
  induction pre with
  | nil =>
    by_cases hle : n ≤ qty <;> simp [removeLine, hle]
  | cons hd tl ih =>
    simp only [List.map_cons, List.mem_cons, not_or] at hpre
    have h1 : ¬ hd.ProductID = productID := fun e => hpre.1 e.symm
    simp only [List.cons_append, removeLine, h1, if_false, List.append_eq]
    rw [ih hpre.2]
    by_cases hle : n ≤ qty <;> simp [hle]

theorem removeLine_eq_none_iff (items : List CartItem) (productID : String) (qty : Int) :
    removeLine items productID qty = none ↔ productID ∉ items.map CartItem.ProductID := by
  induction items with
  | nil => simp [removeLine]
  | cons hd tl ih =>
    by_cases hp : hd.ProductID = productID
    · by_cases hle : hd.Quantity ≤ qty <;> simp [removeLine, hp, hle]
    · have hp2 : ¬ productID = hd.ProductID := fun e => hp e.symm
      simp only [removeLine, hp, if_false, List.map_cons, List.mem_cons, hp2, false_or]
      rw [← ih]
      cases removeLine tl productID qty <;> simp

/-- C9: when the cart of the user has a line for the product, of quantity `n`, after the
lines `pre` that do not name the product and before the lines `post`, `RemoveFromCart` with a
positive quantity succeeds; afterwards the cart has the lines `pre ++ post` when `n ≤ qty`,
and otherwise the same lines with the quantity `n - qty` on the line of the product. -/
theorem RemoveFromCart_line (s : InMemoryStore) (userID productID : String) (qty n : Int)
    (c : Cart) (pre post : List CartItem)
    (hc : s.carts.get userID = some c)
    (hitems : c.Items = pre ++ { ProductID := productID, Quantity := n } :: post)
    (hpre : productID ∉ pre.map CartItem.ProductID) (hq : 0 < qty) :
    (s.RemoveFromCart userID productID qty).2 = .ok ()
      ∧ cartLines (s.RemoveFromCart userID productID qty).1 userID
          = (if n ≤ qty then pre ++ post
             else pre ++ { ProductID := productID, Quantity := n - qty } :: post) := by
  have hq2 : ¬ qty ≤ 0 := by omega
  have hrl := removeLine_split pre post productID n qty hpre
  rw [← hitems] at hrl
  have hres : s.RemoveFromCart userID productID qty
      = ({ s with carts := s.carts.set userID { c with Items :=
            if n ≤ qty then pre ++ post
            else pre ++ { ProductID := productID, Quantity := n - qty } :: post } },
         .ok ()) := by
    unfold RemoveFromCart
    simp only [hq2, if_false, hc, hrl]
  rw [hres]
  exact ⟨rfl, by simp only [cartLines, GoMap.get_set_self]⟩

/-- On the cart `(p0, 1)`, `(p1, 5)`, `(p2, 4)`: removing 5 of `p1` deletes its line, and
removing 2 of `p1` leaves it with quantity 3; the lines of `p0` and `p2` stay. -/
theorem RemoveFromCart_line_witness :
    (threeLines.carts.get "u1" = some { UserID := "u1", Items :=
        [{ ProductID := "p0", Quantity := 1 }] ++ { ProductID := "p1", Quantity := 5 }
          :: [{ ProductID := "p2", Quantity := 4 }] })
      ∧ "p1" ∉ [({ ProductID := "p0", Quantity := 1 } : CartItem)].map CartItem.ProductID
      ∧ ((threeLines.RemoveFromCart "u1" "p1" 5).2 = .ok ()
          ∧ cartLines (threeLines.RemoveFromCart "u1" "p1" 5).1 "u1"
            = [{ ProductID := "p0", Quantity := 1 }, { ProductID := "p2", Quantity := 4 }])
      ∧ ((threeLines.RemoveFromCart "u1" "p1" 2).2 = .ok ()
          ∧ cartLines (threeLines.RemoveFromCart "u1" "p1" 2).1 "u1"
            = [{ ProductID := "p0", Quantity := 1 }, { ProductID := "p1", Quantity := 3 },
               { ProductID := "p2", Quantity := 4 }]) :=
  ⟨rfl, by decide,
   RemoveFromCart_line threeLines "u1" "p1" 5 5 _ [{ ProductID := "p0", Quantity := 1 }]
     [{ ProductID := "p2", Quantity := 4 }] rfl rfl (by decide) (by decide),
   RemoveFromCart_line threeLines "u1" "p1" 2 5 _ [{ ProductID := "p0", Quantity := 1 }]
     [{ ProductID := "p2", Quantity := 4 }] rfl rfl (by decide) (by decide)⟩

/-- C10: `RemoveFromCart` returns an error exactly when the quantity is not positive or the
cart of the user has no line for the product (a user without a cart has no line), and a call
that returns an error leaves the state as it was. -/
theorem RemoveFromCart_error_iff (s : InMemoryStore) (userID productID : String) (qty : Int) :
    ((∃ msg, (s.RemoveFromCart userID productID qty).2 = .error msg) ↔
        qty ≤ 0 ∨ productID ∉ (cartLines s userID).map CartItem.ProductID)
      ∧ ((∃ msg, (s.RemoveFromCart userID productID qty).2 = .error msg) →
          (s.RemoveFromCart userID productID qty).1 = s) := by
  unfold RemoveFromCart cartLines
  by_cases hq : qty ≤ 0
  · simp only [hq, if_true, true_or, iff_true, implies_true, and_true]
    exact ⟨_, rfl⟩
  · simp only [hq, if_false, false_or]
    cases hc : s.carts.get userID with
    | none =>
      simp only [List.map_nil, List.not_mem_nil, not_false_eq_true, iff_true, implies_true,
        and_true]
      exact ⟨_, rfl⟩
    | some c =>
      simp only []
      cases hr : removeLine c.Items productID qty with
      | none =>
        simp only [implies_true, and_true]
        exact ⟨fun _ => (removeLine_eq_none_iff _ _ _).mp hr, fun _ => ⟨_, rfl⟩⟩
      | some r =>
        simp only []
        have hm : ¬ productID ∉ c.Items.map CartItem.ProductID := by
          intro h
          rw [(removeLine_eq_none_iff _ _ qty).mpr h] at hr
          cases hr
        constructor
        · constructor
          · rintro ⟨msg, h⟩; cases h
          · intro h; exact absurd h hm
        · rintro ⟨msg, h⟩; cases h

end InMemoryStore

/-! ## Keys of Go maps -/

namespace GoMap

variable {V : Type}

theorem keys_set (m : GoMap V) (k : String) (v : V) :
    (m.set k v).map Prod.fst
      = if k ∈ m.map Prod.fst then m.map Prod.fst else m.map Prod.fst ++ [k] := by
  induction m with
  | nil => simp [set]
  | cons hd tl ih =>
    obtain ⟨k1, v1⟩ := hd
    by_cases h1 : k1 = k
    · subst h1; simp [set]
    · have h2 : ¬ k = k1 := fun e => h1 e.symm
      simp only [set, h1, if_false, List.map_cons, ih, List.mem_cons, h2, false_or]
      split_ifs <;> simp

/-- A write keeps the keys of a map distinct. -/
theorem nodup_keys_set (m : GoMap V) (k : String) (v : V) (h : (m.map Prod.fst).Nodup) :
    ((m.set k v).map Prod.fst).Nodup := by
  rw [keys_set]
  split_ifs with hk
  · exact h
  · rw [List.nodup_append]
    refine ⟨h, List.nodup_singleton _, ?_⟩
    intro a ha hb
    simp only [List.mem_singleton] at hb
    exact hk (hb ▸ ha)

/-- A `delete` keeps the keys of a map distinct. -/
theorem nodup_keys_delete (m : GoMap V) (k : String) (h : (m.map Prod.fst).Nodup) :
    ((m.delete k).map Prod.fst).Nodup :=
  (List.Sublist.map Prod.fst (List.filter_sublist m)).nodup h

end GoMap

/-! ## Order status and payment reference -/

namespace GoMap

variable {V : Type}

theorem set_set (m : GoMap V) (k : String) (v w : V) : (m.set k v).set k w = m.set k w := by
  induction m with
  | nil => simp [set]
  | cons hd tl ih =>
    obtain ⟨k1, v1⟩ := hd
    by_cases h1 : k1 = k
    · subst h1; simp [set]
    · simp [set, h1, ih]

theorem delete_delete (m : GoMap V) (k : String) : (m.delete k).delete k = m.delete k := by
  simp [delete, List.filter_filter]

end GoMap

namespace MySQLStore

/-- C11, at the failing input: on the database that holds the pending order `o1`, a first
`UpdateOrderStatus("o1", "paid")` succeeds and leaves the status `paid`; a second call with
the same status changes no row and returns `order not found`, though the order is there. -/
theorem UpdateOrderStatus_same_status_fails :
    (pendingRow.UpdateOrderStatus "o1" "paid").2 = .ok ()
      ∧ (pendingRow.UpdateOrderStatus "o1" "paid").1.orders.map OrderRow.status = ["paid"]
      ∧ ((pendingRow.UpdateOrderStatus "o1" "paid").1.UpdateOrderStatus "o1" "paid").2
          = .error "order not found"
      ∧ ((pendingRow.UpdateOrderStatus "o1" "paid").1.UpdateOrderStatus "o1" "paid").1.orders
          = [{ id := "o1", user_id := "u1", amount_cents := 20200, status := "paid",
               payment_ref := "", created_at := 7 }] :=
  ⟨rfl, by decide, rfl, by decide⟩

end MySQLStore

namespace InMemoryStore

/-- C12: `UpdateOrderStatus` succeeds exactly when the order exists; a second call with the
same arguments returns what the first returned and leaves the state the first left; when the
order exists both calls succeed and the order has the status afterwards, all its other
fields being as before.  So it is for the status `paid` on the order `o1` of `twoOrders`. -/
theorem UpdateOrderStatus_idempotent (s : InMemoryStore) (orderID status : String) :
    ((s.UpdateOrderStatus orderID status).2 = .ok () ↔ ∃ o, s.orders.get orderID = some o)
      ∧ (s.UpdateOrderStatus orderID status).1.UpdateOrderStatus orderID status
          = s.UpdateOrderStatus orderID status
      ∧ (∀ o, s.orders.get orderID = some o →
          (s.UpdateOrderStatus orderID status).2 = .ok ()
            ∧ ((s.UpdateOrderStatus orderID status).1.UpdateOrderStatus orderID status).2
                = .ok ()
            ∧ ((s.UpdateOrderStatus orderID status).1.UpdateOrderStatus orderID
                status).1.orders.get orderID = some { o with Status := status })
      ∧ ((twoOrders.UpdateOrderStatus "o1" "paid").1.UpdateOrderStatus "o1" "paid").2 = .ok ()
      ∧ (((twoOrders.UpdateOrderStatus "o1" "paid").1.UpdateOrderStatus "o1"
            "paid").1.orders.get "o1").map Order.Status = some "paid" := by
  have hex : ∀ o, s.orders.get orderID = some o →
      s.UpdateOrderStatus orderID status
        = ({ s with orders := s.orders.set orderID { o with Status := status } }, .ok ()) := by
    intro o ho
    unfold UpdateOrderStatus
    rw [ho]
  have htwice : (s.UpdateOrderStatus orderID status).1.UpdateOrderStatus orderID status
      = s.UpdateOrderStatus orderID status := by
    cases ho : s.orders.get orderID with
    | none =>
      have h1 : s.UpdateOrderStatus orderID status = (s, .error "order not found") := by
        unfold UpdateOrderStatus
        rw [ho]
      rw [h1]
      exact h1
    | some o =>
      rw [hex o ho]
      unfold UpdateOrderStatus
      simp only [GoMap.get_set_self, GoMap.set_set]
  refine ⟨?_, htwice, ?_, rfl, by decide⟩
  · constructor
    · intro h
      cases ho : s.orders.get orderID with
      | none =>
        unfold UpdateOrderStatus at h
        rw [ho] at h
        cases h
      | some o => exact ⟨o, rfl⟩
    · rintro ⟨o, ho⟩
      rw [hex o ho]
  · intro o ho
    rw [htwice, hex o ho]
    exact ⟨rfl, rfl, GoMap.get_set_self _ _ _⟩

/-- C13: on an order that exists, `UpdateOrderStatus` and `UpdateOrderPaymentRef` succeed
and change one field of that order, the status and the payment reference: products, carts,
reviews and users are as before, every other order is as before, and the named order keeps
all its other fields. -/
theorem order_updates_change_one_field (s : InMemoryStore) (orderID status paymentRef : String)
    (o : Order) (ho : s.orders.get orderID = some o) :
    ((s.UpdateOrderStatus orderID status).2 = .ok ()
        ∧ (s.UpdateOrderStatus orderID status).1.products = s.products
        ∧ (s.UpdateOrderStatus orderID status).1.carts = s.carts
        ∧ (s.UpdateOrderStatus orderID status).1.reviews = s.reviews
        ∧ (s.UpdateOrderStatus orderID status).1.users = s.users
        ∧ (∀ k, k ≠ orderID →
            (s.UpdateOrderStatus orderID status).1.orders.get k = s.orders.get k)
        ∧ (s.UpdateOrderStatus orderID status).1.orders.get orderID
            = some { ID := o.ID, UserID := o.UserID, Items := o.Items, Amount := o.Amount,
                     Status := status, PaymentRef := o.PaymentRef, CreatedAt := o.CreatedAt })
      ∧ ((s.UpdateOrderPaymentRef orderID paymentRef).2 = .ok ()
        ∧ (s.UpdateOrderPaymentRef orderID paymentRef).1.products = s.products
        ∧ (s.UpdateOrderPaymentRef orderID paymentRef).1.carts = s.carts
        ∧ (s.UpdateOrderPaymentRef orderID paymentRef).1.reviews = s.reviews
        ∧ (s.UpdateOrderPaymentRef orderID paymentRef).1.users = s.users
        ∧ (∀ k, k ≠ orderID →
            (s.UpdateOrderPaymentRef orderID paymentRef).1.orders.get k = s.orders.get k)
        ∧ (s.UpdateOrderPaymentRef orderID paymentRef).1.orders.get orderID
            = some { ID := o.ID, UserID := o.UserID, Items := o.Items, Amount := o.Amount,
                     Status := o.Status, PaymentRef := paymentRef,
                     CreatedAt := o.CreatedAt }) := by
  have h1 : s.UpdateOrderStatus orderID status
      = ({ s with orders := s.orders.set orderID { o with Status := status } }, .ok ()) := by
    unfold UpdateOrderStatus
    rw [ho]
  have h2 : s.UpdateOrderPaymentRef orderID paymentRef
      = ({ s with orders := s.orders.set orderID { o with PaymentRef := paymentRef } },
         .ok ()) := by
    unfold UpdateOrderPaymentRef
    rw [ho]
  rw [h1, h2]
  refine ⟨⟨rfl, rfl, rfl, rfl, rfl, ?_, GoMap.get_set_self _ _ _⟩,
    ⟨rfl, rfl, rfl, rfl, rfl, ?_, GoMap.get_set_self _ _ _⟩⟩
  · intro k hk
    exact GoMap.get_set_of_ne _ _ (fun e => hk e.symm)
  · intro k hk
    exact GoMap.get_set_of_ne _ _ (fun e => hk e.symm)

/-- On `twoOrders`, the order `o1` exists: setting its status to `paid` succeeds and leaves
the order `o2` as it was. -/
theorem order_updates_change_one_field_witness :
    twoOrders.orders.get "o1" = some (sampleOrder "o1" 1)
      ∧ (twoOrders.UpdateOrderStatus "o1" "paid").2 = .ok ()
      ∧ (twoOrders.UpdateOrderStatus "o1" "paid").1.orders.get "o2" = twoOrders.orders.get "o2" :=
  ⟨rfl,
   (order_updates_change_one_field twoOrders "o1" "paid" "ref-1" (sampleOrder "o1" 1) rfl).1.1,
   (order_updates_change_one_field twoOrders "o1" "paid" "ref-1" (sampleOrder "o1" 1)
      rfl).1.2.2.2.2.2.1 "o2" (by decide)⟩

/-- C19: `ClearCart` has no error result; after it `GetCart` returns the empty cart of the
user; a second `ClearCart` changes nothing more; the carts of the other users, the products,
the orders, the reviews and the users are unchanged. -/
theorem ClearCart_idempotent (s : InMemoryStore) (userID : String) :
    (s.ClearCart userID).GetCart userID = .ok { UserID := userID, Items := [] }
      ∧ (s.ClearCart userID).ClearCart userID = s.ClearCart userID
      ∧ (∀ u2, u2 ≠ userID → (s.ClearCart userID).carts.get u2 = s.carts.get u2)
      ∧ (s.ClearCart userID).products = s.products
      ∧ (s.ClearCart userID).orders = s.orders
      ∧ (s.ClearCart userID).reviews = s.reviews
      ∧ (s.ClearCart userID).users = s.users := by
  refine ⟨?_, ?_, ?_, rfl, rfl, rfl, rfl⟩
  · unfold GetCart ClearCart
    simp only [GoMap.get_delete, if_true]
  · unfold ClearCart
    simp only [GoMap.delete_delete]
  · intro u2 hu
    have hne : ¬ userID = u2 := fun e => hu e.symm
    unfold ClearCart
    simp only [GoMap.get_delete, hne, if_false]

end InMemoryStore

/-! ## Search -/

theorem containsLoop_iff (sub : List Nat) (hsub : sub ≠ []) (s : List Nat) :
    containsLoop sub s = true ↔ sub <:+: s := by
  induction s with
  | nil =>
    simp only [containsLoop, List.infix_nil]
    constructor
    · intro h; cases h
    · intro h; exact absurd h hsub
  | cons b rest ih =>
    unfold containsLoop
    rw [List.infix_cons_iff]
    by_cases hlen : sub.length ≤ (b :: rest).length
    · rw [if_pos hlen]
      by_cases htake : (b :: rest).take sub.length = sub
      · rw [if_pos htake]
        exact ⟨fun _ => Or.inl (List.prefix_iff_eq_take.mpr htake.symm), fun _ => rfl⟩
      · rw [if_neg htake, ih]
        constructor
        · exact fun h => Or.inr h
        · rintro (h | h)
          · exact absurd (List.prefix_iff_eq_take.mp h).symm htake
          · exact h
    · rw [if_neg hlen]
      constructor
      · intro h; cases h
      · rintro (h | h)
        · exact absurd h.length_le hlen
        · exact absurd (Nat.le_succ_of_le h.length_le) hlen

theorem contains_iff (s sub : List Nat) : contains s sub = true ↔ sub <:+: s := by
  unfold contains
  by_cases h : sub.length = 0
  · rw [if_pos h]
    have h0 : sub = [] := List.length_eq_zero.mp h
    subst h0
    exact ⟨fun _ => List.nil_infix, fun _ => rfl⟩
  · rw [if_neg h]
    exact containsLoop_iff sub (fun e => h (by rw [e]; rfl)) s

theorem lowerByte_eq_iff (a b : Nat) : lowerByte a = lowerByte b ↔ SameUpToCase a b := by
  unfold lowerByte SameUpToCase
  split_ifs <;> omega

theorem toLower_eq_iff (x y : List Nat) :
    toLower x = toLower y ↔ List.Forall₂ SameUpToCase x y := by
  unfold toLower
  induction x generalizing y with
  | nil =>
    cases y with
    | nil => simp
    | cons b t => simp
  | cons a t ih =>
    cases y with
    | nil => simp
    | cons b u =>
      simp only [List.map_cons, List.cons.injEq, List.forall₂_cons, lowerByte_eq_iff, ih]

theorem contains_toLower_iff (x q : List Nat) :
    contains (toLower x) (toLower q) = true ↔ OccursFold q x := by
  rw [contains_iff]
  unfold OccursFold
  constructor
  · rintro ⟨pre1, post1, h⟩
    have h2 : List.map lowerByte x = (pre1 ++ toLower q) ++ post1 := h.symm
    obtain ⟨l1, post, hx, hl1, _⟩ := List.map_eq_append_iff.mp h2
    obtain ⟨pre, mid, hl, _, hmid⟩ := List.map_eq_append_iff.mp hl1
    refine ⟨pre, mid, post, by rw [hx, hl], ?_⟩
    exact (toLower_eq_iff mid q).mp hmid
  · rintro ⟨pre, mid, post, hx, hmid⟩
    refine ⟨toLower pre, toLower post, ?_⟩
    rw [hx, ← (toLower_eq_iff mid q).mpr hmid]
    simp [toLower]

theorem containsFold_iff (s substr : String) :
    containsFold s substr = true ↔ OccursFold (goBytes substr) (goBytes s) :=
  contains_toLower_iff _ _

namespace InMemoryStore

theorem matchesQuery_iff (p : Product) (query : String) :
    matchesQuery p query = true ↔ MatchesSpec p query := by
  unfold matchesQuery MatchesSpec
  simp only [Bool.or_eq_true, decide_eq_true_eq, containsFold_iff, or_assoc]

/-- C14: whatever the order of the visits, `ListProducts` returns the stored products that
meet the condition of the loop, each once; and a product meets that condition exactly when
the query is empty or occurs, compared without regard to the case of the letters `A`-`Z` and
`a`-`z`, as a contiguous substring of its name, description, SKU or category.  The query
`ABC` finds the product whose SKU is `abc-123`. -/
theorem ListProducts_matches (s : InMemoryStore) (query : String) (t : Traversal Product) :
    (∃ res, s.ListProducts query t = .ok res
        ∧ res.Perm ((s.products.map Prod.snd).filter (fun p => matchesQuery p query)))
      ∧ (∀ p, matchesQuery p query = true ↔ MatchesSpec p query)
      ∧ skuStore.ListProducts "ABC" (Traversal.stored Product)
          = .ok [{ sampleProduct "p1" 100 5 with SKU := "abc-123" }] := by
  refine ⟨⟨_, rfl, ?_⟩, fun p => matchesQuery_iff p query, rfl⟩
  have h1 : ((t.visit s.products).filter (fun kv => matchesQuery kv.2 query)).Perm
      (s.products.filter (fun kv => matchesQuery kv.2 query)) :=
    (t.perm s.products).filter _
  have h2 := h1.map Prod.snd
  rw [List.filter_map]
  exact h2

end InMemoryStore

/-! ## Listings, product creation and the review gate -/

namespace InMemoryStore

/-- C15, at the failing input: on the store that holds two products and two orders created
at the times 1 and 2, with `range` visiting the older binding first, `ListOrders`,
`ListOrdersByUser` and `ListProducts` return the older element first: the results are in the
order of the visits, not newest first. -/
theorem listings_follow_the_visits :
    twoOrders.ListOrders (Traversal.stored Order)
        = .ok [sampleOrder "o1" 1, sampleOrder "o2" 2]
      ∧ twoOrders.ListOrdersByUser "u1" (Traversal.stored Order)
        = .ok [sampleOrder "o1" 1, sampleOrder "o2" 2]
      ∧ ¬ NewestFirst ([sampleOrder "o1" 1, sampleOrder "o2" 2].map Order.CreatedAt)
      ∧ twoOrders.ListProducts "" (Traversal.stored Product)
        = .ok [{ sampleProduct "p1" 100 10 with CreatedAt := 1, UpdatedAt := 1 },
               { sampleProduct "p2" 200 50 with CreatedAt := 2, UpdatedAt := 2 }]
      ∧ ¬ NewestFirst
          ([({ sampleProduct "p1" 100 10 with CreatedAt := 1, UpdatedAt := 1 } : Product),
            { sampleProduct "p2" 200 50 with CreatedAt := 2, UpdatedAt := 2 }].map
              Product.CreatedAt) :=
  ⟨rfl, rfl, by decide, rfl, by decide⟩

/-- C16, refuted as stated: the store operation `CreateProduct` succeeds on a draft with
stock `-1` and on a draft with price `0`, and stores both. -/
theorem CreateProduct_takes_any_draft :
    (NewInMemoryStore.CreateProduct (sampleProduct "" 100 (-1)) "p1" 7).2
        = .ok { sampleProduct "" 100 (-1) with ID := "p1", CreatedAt := 7, UpdatedAt := 7 }
      ∧ ((NewInMemoryStore.CreateProduct (sampleProduct "" 100 (-1)) "p1" 7).1.products.get
            "p1").map Product.Stock = some (-1)
      ∧ (NewInMemoryStore.CreateProduct (sampleProduct "" 0 5) "p2" 7).2
        = .ok { sampleProduct "" 0 5 with ID := "p2", CreatedAt := 7, UpdatedAt := 7 }
      ∧ ((NewInMemoryStore.CreateProduct (sampleProduct "" 0 5) "p2" 7).1.products.get
            "p2").map Product.PriceCents = some 0 :=
  ⟨rfl, by decide, rfl, by decide⟩

end InMemoryStore

namespace ProductsHandler

/-- C16, amended: the store operation `CreateProduct` succeeds on every draft and stores it
under the identity drawn, with equal creation and update times; the handler
`ProductsHandler.Create` answers 400 and stores nothing when the stock asked is negative or
the price asked is not a number above zero, and for a request with a name, a stock of at
least zero and a price above zero it answers 200 with the product the store has stored, which
has that stock and price, the identity drawn and equal creation and update times. -/
theorem CreateProduct_checked_by_handler (s : InMemoryStore) (p : Product)
    (parseInt : String → Except String Int) (req : createProductReq) (generatedSKU : String)
    (created updated : Time) (id : String) (now : Time) :
    ((s.CreateProduct p id now).2
          = .ok { p with ID := id, CreatedAt := now, UpdatedAt := now }
        ∧ (s.CreateProduct p id now).1.products
          = s.products.set id { p with ID := id, CreatedAt := now, UpdatedAt := now })
      ∧ (req.Stock < 0 ∨ (∀ price, requestPrice parseInt req = .ok price → price ≤ 0) →
          (Create s parseInt (.ok req) generatedSKU created updated id now).2.status = 400
            ∧ (Create s parseInt (.ok req) generatedSKU created updated id now).1 = s)
      ∧ (∀ price, req.Name ≠ "" → 0 ≤ req.Stock → requestPrice parseInt req = .ok price →
          0 < price →
          ∃ stored : Product,
            Create s parseInt (.ok req) generatedSKU created updated id now
                = ({ s with products := s.products.set id stored },
                   { status := 200, body := .product stored })
              ∧ stored.ID = id ∧ stored.CreatedAt = now ∧ stored.UpdatedAt = now
              ∧ stored.Stock = req.Stock ∧ stored.PriceCents = price
              ∧ stored.Name = req.Name) := by
  refine ⟨⟨rfl, rfl⟩, ?_, ?_⟩
  · intro h
    unfold Create
    simp only []
    by_cases h1 : req.Name = "" ∨ req.Stock < 0
    · rw [if_pos h1]; exact ⟨rfl, rfl⟩
    · rw [if_neg h1]
      cases hp : requestPrice parseInt req with
      | error msg => exact ⟨rfl, rfl⟩
      | ok price =>
        simp only []
        have hle : price ≤ 0 := by
          rcases h with h | h
          · exact absurd (Or.inr h) h1
          · exact h price hp
        rw [if_pos hle]
        exact ⟨rfl, rfl⟩
  · intro price hname hstock hprice hpos
    have h1 : ¬ (req.Name = "" ∨ req.Stock < 0) := by
      rintro (h | h)
      · exact hname h
      · omega
    have h2 : ¬ price ≤ 0 := by omega
    unfold Create
    simp only [h1, if_false, hprice, h2]
    exact ⟨_, rfl, rfl, rfl, rfl, rfl, rfl, rfl⟩

/-- The request `goodRequest` has a name, stock 5 and price 100: the handler answers 200
and the stored product has stock 5. -/
theorem CreateProduct_checked_by_handler_witness :
    goodRequest.Name ≠ "" ∧ 0 ≤ goodRequest.Stock
      ∧ requestPrice parseSome goodRequest = .ok 100
      ∧ ∃ stored : Product,
          Create NewInMemoryStore parseSome (.ok goodRequest) "K-9" 1 2 "p1" 7
              = ({ NewInMemoryStore with products := NewInMemoryStore.products.set "p1" stored },
                 { status := 200, body := .product stored })
            ∧ stored.ID = "p1" ∧ stored.CreatedAt = 7 ∧ stored.UpdatedAt = 7
            ∧ stored.Stock = goodRequest.Stock ∧ stored.PriceCents = 100
            ∧ stored.Name = goodRequest.Name :=
  ⟨by decide, by decide, rfl,
   (CreateProduct_checked_by_handler NewInMemoryStore (sampleProduct "" 100 5) parseSome
      goodRequest "K-9" 1 2 "p1" 7).2.2 100 (by decide) (by decide) rfl (by decide)⟩

end ProductsHandler

namespace GoMap

variable {V : Type}

theorem filter_set_length_le (m : GoMap V) (k : String) (v : V) (P : String × V → Bool) :
    ((m.set k v).filter P).length ≤ (m.filter P).length + (if P (k, v) then 1 else 0) := by
  induction m with
  | nil =>
    by_cases hp : P (k, v) = true <;> simp [set, List.filter_cons, hp]
  | cons hd tl ih =>
    obtain ⟨k1, v1⟩ := hd
    by_cases h1 : k1 = k
    · subst h1
      by_cases hp : P (k1, v) = true <;> by_cases hp1 : P (k1, v1) = true <;>
        simp [set, List.filter_cons, hp, hp1]
    · by_cases hp : P (k, v) = true <;> by_cases hp1 : P (k1, v1) = true <;>
        simp [set, h1, List.filter_cons, hp, hp1] at ih ⊢ <;> omega

theorem filter_set_length_le_succ (m : GoMap V) (k : String) (v : V)
    (P : String × V → Bool) : ((m.set k v).filter P).length ≤ (m.filter P).length + 1 := by
  have h := filter_set_length_le m k v P
  split_ifs at h <;> omega

theorem filter_set_length_le_of_not (m : GoMap V) (k : String) (v : V)
    (P : String × V → Bool) (hp : P (k, v) = false) :
    ((m.set k v).filter P).length ≤ (m.filter P).length := by
  have h := filter_set_length_le m k v P
  rw [hp] at h
  simpa using h

end GoMap

namespace ReviewsHandler

theorem orders_length (s : InMemoryStore) (userID : String) (t : Traversal Order) :
    ((((t.visit s.orders).filter (fun kv => decide (kv.2.UserID = userID))).map
        Prod.snd).length) = orderCount s userID := by
  rw [List.length_map]
  exact ((t.perm s.orders).filter _).length_eq

/-- C20, refuted as stated: a user with one order and no review, of whom the store has no
record, gets the answer 500 and no review is inserted. -/
theorem Create_without_user_record :
    Create orderWithoutUser (some "u1") (.ok goodReview) (Traversal.stored Order) "r1" 9
        = (orderWithoutUser, { status := 500, body := .error "failed to fetch user" })
      ∧ orderCount orderWithoutUser "u1" = 1
      ∧ orderWithoutUser.GetUserReviewCount "u1" = 0 :=
  ⟨rfl, by decide, by decide⟩

/-- C20, amended: for a request with a rating from 1 to 5, `ReviewsHandler.Create` answers
403 and inserts nothing when the user has no order; when the user has an order and is on
record it answers 403 and inserts nothing if the user has a review already, and otherwise
answers 201 and inserts one review, of that user; when the user has an order and is not on
record it answers 500 and inserts nothing.  Hence a call keeps every user at no more than
one review. -/
theorem Create_review_gate (s : InMemoryStore) (userID : String) (req : CreateReviewRequest)
    (t : Traversal Order) (id : String) (now : Time)
    (hvalid : 1 ≤ req.Rating ∧ req.Rating ≤ 5) :
    (orderCount s userID = 0 →
        Create s (some userID) (.ok req) t id now
          = (s, { status := 403,
                  body := .error "you must complete at least one order to leave a review" }))
      ∧ (0 < orderCount s userID → s.users.get userID = none →
          Create s (some userID) (.ok req) t id now
            = (s, { status := 500, body := .error "failed to fetch user" }))
      ∧ (∀ u, 0 < orderCount s userID → s.users.get userID = some u →
          0 < s.GetUserReviewCount userID →
          Create s (some userID) (.ok req) t id now
            = (s, { status := 403, body := .error "you have already submitted a review" }))
      ∧ (∀ u, 0 < orderCount s userID → s.users.get userID = some u →
          s.GetUserReviewCount userID = 0 →
          Create s (some userID) (.ok req) t id now
              = ({ s with reviews := s.reviews.set id (reviewOf userID u req id now) },
                 { status := 201, body := .review (reviewOf userID u req id now) })
            ∧ (s.reviews.get id = none →
                (Create s (some userID) (.ok req) t id now).1.reviews
                  = s.reviews ++ [(id, reviewOf userID u req id now)]))
      ∧ (AtMostOneReview s →
          AtMostOneReview (Create s (some userID) (.ok req) t id now).1) := by
  have hlen := orders_length s userID t
  have hrate : ¬ (req.Rating < 1 ∨ req.Rating > 5) := by omega
  have h0 : orderCount s userID = 0 →
      Create s (some userID) (.ok req) t id now
        = (s, { status := 403,
                body := .error "you must complete at least one order to leave a review" }) := by
    intro h
    unfold Create InMemoryStore.ListOrdersByUser
    simp only [hlen, h, if_true]
  have h1 : 0 < orderCount s userID → s.users.get userID = none →
      Create s (some userID) (.ok req) t id now
        = (s, { status := 500, body := .error "failed to fetch user" }) := by
    intro h hu
    have hne : ¬ orderCount s userID = 0 := by omega
    unfold Create InMemoryStore.ListOrdersByUser InMemoryStore.GetUserByID
    simp only [hlen, hne, if_false, hu]
  have h2 : ∀ u, 0 < orderCount s userID → s.users.get userID = some u →
      0 < s.GetUserReviewCount userID →
      Create s (some userID) (.ok req) t id now
        = (s, { status := 403, body := .error "you have already submitted a review" }) := by
    intro u h hu hc
    have hne : ¬ orderCount s userID = 0 := by omega
    unfold Create InMemoryStore.ListOrdersByUser InMemoryStore.GetUserByID
    simp only [hlen, hne, if_false, hu, gt_iff_lt, hc, if_true]
  have h3 : ∀ u, 0 < orderCount s userID → s.users.get userID = some u →
      s.GetUserReviewCount userID = 0 →
      Create s (some userID) (.ok req) t id now
        = ({ s with reviews := s.reviews.set id (reviewOf userID u req id now) },
           { status := 201, body := .review (reviewOf userID u req id now) }) := by
    intro u h hu hc
    have hne : ¬ orderCount s userID = 0 := by omega
    have hc2 : ¬ 0 < s.GetUserReviewCount userID := by omega
    unfold Create InMemoryStore.ListOrdersByUser InMemoryStore.GetUserByID
      InMemoryStore.CreateReview
    simp only [hlen, hne, if_false, hu, gt_iff_lt, hc2, hrate]
    rfl
  refine ⟨h0, h1, h2, ?_, ?_⟩
  · intro u h hu hc
    refine ⟨h3 u h hu hc, ?_⟩
    intro hfresh
    rw [h3 u h hu hc]
    exact GoMap.set_of_get_none _ hfresh
  · intro hs
    by_cases ho : orderCount s userID = 0
    · rw [h0 ho]; exact hs
    · have hpos : 0 < orderCount s userID := by omega
      cases hu : s.users.get userID with
      | none => rw [h1 hpos hu]; exact hs
      | some u =>
        by_cases hc : 0 < s.GetUserReviewCount userID
        · rw [h2 u hpos hu hc]; exact hs
        · have hc0 : s.GetUserReviewCount userID = 0 := by
            have : 0 ≤ s.GetUserReviewCount userID := by
              unfold InMemoryStore.GetUserReviewCount
              exact Int.natCast_nonneg _
            omega
          rw [h3 u hpos hu hc0]
          intro u2
          have hs2 := hs u2
          unfold InMemoryStore.GetUserReviewCount at hs2 hc0
          show ((((s.reviews.set id (reviewOf userID u req id now)).filter
            (fun kv => decide (kv.2.UserID = u2))).length : Nat) : Int) ≤ 1
          by_cases he : userID = u2
          · subst he
            have hle := GoMap.filter_set_length_le_succ s.reviews id
              (reviewOf userID u req id now) (fun kv => decide (kv.2.UserID = userID))
            omega
          · have hle := GoMap.filter_set_length_le_of_not s.reviews id
              (reviewOf userID u req id now) (fun kv => decide (kv.2.UserID = u2))
              (decide_eq_false he)
            omega

/-- A user on record without an order is answered 403; a user on record with one order is
answered 201 the first time and 403 the second time. -/
theorem Create_review_gate_witness :
    (1 ≤ goodReview.Rating ∧ goodReview.Rating ≤ 5)
      ∧ Create userWithoutOrder (some "u1") (.ok goodReview) (Traversal.stored Order) "r1" 9
          = (userWithoutOrder,
             { status := 403,
               body := .error "you must complete at least one order to leave a review" })
      ∧ (Create orderWithUser (some "u1") (.ok goodReview) (Traversal.stored Order) "r1"
            9).2.status = 201
      ∧ (Create
            (Create orderWithUser (some "u1") (.ok goodReview) (Traversal.stored Order) "r1"
              9).1
            (some "u1") (.ok goodReview) (Traversal.stored Order) "r2" 10).2.status = 403 :=
  ⟨by decide,
   (Create_review_gate userWithoutOrder "u1" goodReview (Traversal.stored Order) "r1" 9
      (by decide)).1 (by decide),
   by
    rw [((Create_review_gate orderWithUser "u1" goodReview (Traversal.stored Order) "r1" 9
      (by decide)).2.2.2.1 sampleUser (by decide) (by decide) (by decide)).1],
   by
    rw [(Create_review_gate
      (Create orderWithUser (some "u1") (.ok goodReview) (Traversal.stored Order) "r1" 9).1
      "u1" goodReview (Traversal.stored Order) "r2" 10 (by decide)).2.2.1 sampleUser
      (by decide) (by decide) (by decide)]⟩

end ReviewsHandler

/-! ## Pointers handed to the caller -/

namespace PointerStore

/-- The lines read for a user depend on the map, on the cart object of the user and on the
backing array of its slice only. -/
theorem cartLines_congr (m m2 : PointerStore) (userID : String) (hc : m2.carts = m.carts)
    (h : ∀ c, m.carts.get userID = some c →
      m2.heap.carts[c]? = m.heap.carts[c]?
        ∧ ∀ obj, m.heap.carts[c]? = some obj →
            m2.heap.arrays[obj.Items.array]? = m.heap.arrays[obj.Items.array]?) :
    m2.cartLines userID = m.cartLines userID := by
  unfold cartLines
  rw [hc]
  cases hg : m.carts.get userID with
  | none => rfl
  | some c =>
    obtain ⟨h1, h2⟩ := h c hg
    simp only [Heap.cart, h1]
    cases ho : m.heap.carts[c]? with
    | none => rfl
    | some obj =>
      simp only [Option.map_some', Heap.items, h2 obj ho]

/-- The pointer `GetCart` returns leads to a cart with the user and the stored lines. -/
theorem GetCart_content (m : PointerStore) (userID : String) :
    (m.GetCart userID).1.heap.cart (m.GetCart userID).2
      = some { UserID := userID, Items := m.cartLines userID } := by
  simp only [GetCart, Heap.cart, Heap.items, List.getElem?_concat_length, Option.map_some',
    Option.getD_some, List.take_length]

/-- C17: `GetCart` never returns an error and returns a cart with the user and the stored
lines of the user, in their order, none for a user without a cart; it changes no map and no
object that was allocated, so that the lines stored for every user are as before; and after
anything the caller does through the pointer it was given, to the cart object or to the
elements of its slice, a second `GetCart` returns a cart equal to what the first
returned. -/
theorem GetCart_snapshot (m : PointerStore) (userID : String) (hm : m.CartsAllocated) :
    (∀ s : InMemoryStore,
        s.GetCart userID = .ok { UserID := userID, Items := s.cartLines userID })
      ∧ (m.GetCart userID).1.heap.cart (m.GetCart userID).2
          = some { UserID := userID, Items := m.cartLines userID }
      ∧ ((m.GetCart userID).1.products = m.products
          ∧ (m.GetCart userID).1.carts = m.carts
          ∧ (m.GetCart userID).1.orders = m.orders
          ∧ (m.GetCart userID).1.heap.products = m.heap.products
          ∧ (m.GetCart userID).1.heap.orders = m.heap.orders
          ∧ (∀ i, i < m.heap.carts.length →
              (m.GetCart userID).1.heap.carts[i]? = m.heap.carts[i]?)
          ∧ (∀ j, j < m.heap.arrays.length →
              (m.GetCart userID).1.heap.arrays[j]? = m.heap.arrays[j]?)
          ∧ ∀ u, (m.GetCart userID).1.cartLines u = m.cartLines u)
      ∧ ∀ after : Heap,
          Heap.ChangedThroughCart (m.GetCart userID).1.heap after (m.GetCart userID).2 →
          (GetCart { (m.GetCart userID).1 with heap := after } userID).1.heap.cart
              (GetCart { (m.GetCart userID).1 with heap := after } userID).2
            = some { UserID := userID, Items := m.cartLines userID } := by
  have hcarts : ∀ i, i < m.heap.carts.length →
      (m.GetCart userID).1.heap.carts[i]? = m.heap.carts[i]? := by
    intro i hi
    simp only [GetCart]
    exact List.getElem?_append_left hi
  have harrays : ∀ j, j < m.heap.arrays.length →
      (m.GetCart userID).1.heap.arrays[j]? = m.heap.arrays[j]? := by
    intro j hj
    simp only [GetCart]
    exact List.getElem?_append_left hj
  have halloc : ∀ u c, m.carts.get u = some c →
      ∃ obj, m.heap.carts[c]? = some obj ∧ obj.Items.array < m.heap.arrays.length :=
    fun u c hc => hm (u, c) (GoMap.mem_of_get hc)
  have hclt : ∀ {c : Nat} {obj : CartObject}, m.heap.carts[c]? = some obj →
      c < m.heap.carts.length := by
    intro c obj h
    by_contra hge
    rw [List.getElem?_eq_none (by omega)] at h
    cases h
  refine ⟨?_, GetCart_content m userID, ⟨rfl, rfl, rfl, rfl, rfl, hcarts, harrays, ?_⟩, ?_⟩
  · intro s
    unfold InMemoryStore.GetCart InMemoryStore.cartLines
    cases s.carts.get userID <;> rfl
  · intro u
    refine cartLines_congr m (m.GetCart userID).1 u rfl ?_
    intro c hc
    obtain ⟨obj, hobj, ha⟩ := halloc u c hc
    refine ⟨hcarts c (hclt hobj), ?_⟩
    intro obj2 h2
    rw [hobj] at h2
    cases h2
    exact harrays _ ha
  · intro after hch
    rw [GetCart_content]
    congr 2
    refine cartLines_congr m { (m.GetCart userID).1 with heap := after } userID rfl ?_
    intro c hc
    obtain ⟨hp, hord, hcs, has⟩ := hch
    obtain ⟨obj, hobj, ha⟩ := halloc userID c hc
    have hc1 : c < m.heap.carts.length := hclt hobj
    have hnew : (m.GetCart userID).1.heap.carts[(m.GetCart userID).2]?
        = some { UserID := userID,
                 Items := { array := m.heap.arrays.length,
                            len := (m.cartLines userID).length } } := by
      simp only [GetCart, List.getElem?_concat_length]
    have hlen1 : (m.GetCart userID).1.heap.carts.length = m.heap.carts.length + 1 := by
      simp [GetCart]
    have hlen2 : (m.GetCart userID).1.heap.arrays.length = m.heap.arrays.length + 1 := by
      simp [GetCart]
    have hne : c ≠ (m.GetCart userID).2 := by
      show c ≠ m.heap.carts.length
      omega
    refine ⟨?_, ?_⟩
    · show after.carts[c]? = m.heap.carts[c]?
      rw [hcs c hne (by omega), hcarts c hc1]
    · intro obj2 h2
      rw [hobj] at h2
      cases h2
      show after.arrays[obj.Items.array]? = m.heap.arrays[obj.Items.array]?
      rw [has obj.Items.array ?_ (by omega), harrays _ ha]
      intro obj3 h3
      rw [hnew] at h3
      cases h3
      show obj.Items.array ≠ m.heap.arrays.length
      omega

/-- A write to an element of the slice of the cart at `c` is among the changes a caller
that holds `c` can make. -/
theorem changedThroughCart_setItem (h : Heap) (c : Nat) (obj : CartObject)
    (hobj : h.carts[c]? = some obj) (i : Nat) (v : CartItem) :
    Heap.ChangedThroughCart h (h.setItem obj.Items i v) c := by
  unfold Heap.setItem
  by_cases hi : i < obj.Items.len
  · rw [if_pos hi]
    refine ⟨rfl, rfl, fun _ _ _ => rfl, ?_⟩
    intro j hj _
    have hne : obj.Items.array ≠ j := fun e => hj obj hobj e.symm
    exact List.getElem?_set_ne hne
  · rw [if_neg hi]
    exact ⟨rfl, rfl, fun _ _ _ => rfl, fun _ _ _ => rfl⟩

/-- On `pointerSample` the cart of `u1` is allocated; after the caller has overwritten the
line of the cart it was given, a second `GetCart` returns the stored line `(p1, 2)`. -/
theorem GetCart_snapshot_witness :
    pointerSample.CartsAllocated
      ∧ (GetCart { (pointerSample.GetCart "u1").1 with heap := heapAfterCaller } "u1").1.heap.cart
            (GetCart { (pointerSample.GetCart "u1").1 with heap := heapAfterCaller } "u1").2
          = some { UserID := "u1", Items := [{ ProductID := "p1", Quantity := 2 }] } :=
  have h : pointerSample.CartsAllocated := by
    intro kv hkv
    have hkv2 : kv = ("u1", 0) := by simpa [pointerSample] using hkv
    subst hkv2
    exact ⟨{ UserID := "u1", Items := { array := 0, len := 1 } }, rfl, by decide⟩
  ⟨h, (GetCart_snapshot pointerSample "u1" h).2.2.2 heapAfterCaller
    (changedThroughCart_setItem (pointerSample.GetCart "u1").1.heap 1
      { UserID := "u1", Items := { array := 2, len := 1 } } rfl 0
      { ProductID := "p1", Quantity := 99 })⟩

/-- C18, at the failing inputs, on `pointerSample`.  `GetProduct` returns the address the
map holds: after the caller has set the stock to 0 through it, `GetProduct` leads to the
product with stock 0.  `GetOrCreateCart` returns the address the map holds: after the caller
has set the quantity of the first line to 99 through it, the stored lines of `u1` have the
quantity 99.  `ListOrders` and `ListOrdersByUser` return a new order object whose slice has
the backing array of the stored order: after the caller has set the quantity of the first
item to 99 through it, the stored order has the quantity 99.  `CreateProduct` and
`UpdateProduct` return the address they leave in the map. -/
theorem returned_pointers_alias_the_store :
    (pointerSample.GetProduct "p1" = .ok 0
        ∧ pointerSample.heap.products[0]? = some (sampleProduct "p1" 100 5)
        ∧ GetProduct { pointerSample with
            heap := pointerSample.heap.setProduct 0 (sampleProduct "p1" 100 0) } "p1" = .ok 0
        ∧ (pointerSample.heap.setProduct 0 (sampleProduct "p1" 100 0)).products[0]?
            = some (sampleProduct "p1" 100 0))
      ∧ ((pointerSample.GetOrCreateCart "u1").2 = 0
        ∧ pointerSample.cartLines "u1" = [{ ProductID := "p1", Quantity := 2 }]
        ∧ cartLines { (pointerSample.GetOrCreateCart "u1").1 with
            heap := (pointerSample.GetOrCreateCart "u1").1.heap.setItem
              { array := 0, len := 1 } 0 { ProductID := "p1", Quantity := 99 } } "u1"
            = [{ ProductID := "p1", Quantity := 99 }])
      ∧ ((pointerSample.ListOrders (Traversal.stored Nat)).2 = [1]
        ∧ (pointerSample.ListOrdersByUser "u1" (Traversal.stored Nat)).2 = [1]
        ∧ ((pointerSample.ListOrders (Traversal.stored Nat)).1.heap.orders[1]?).map
            OrderObject.Items = some { array := 1, len := 1 }
        ∧ (pointerSample.heap.order 0).map Order.Items
            = some [{ ProductID := "p1", Quantity := 2 }]
        ∧ (((pointerSample.ListOrders (Traversal.stored Nat)).1.heap.setItem
              { array := 1, len := 1 } 0 { ProductID := "p1", Quantity := 99 }).order 0).map
            Order.Items = some [{ ProductID := "p1", Quantity := 99 }])
      ∧ ((pointerSample.CreateProduct 0 "p9" 7).2 = .ok 0
        ∧ (pointerSample.CreateProduct 0 "p9" 7).1.products.get "p9" = some 0
        ∧ (pointerSample.UpdateProduct "p1" (fun v => (v, none)) 7).2 = .ok 0
        ∧ (pointerSample.UpdateProduct "p1" (fun v => (v, none)) 7).1.products.get "p1"
            = some 0) :=
  ⟨⟨rfl, by decide, rfl, by decide⟩, ⟨by decide, by decide, by decide⟩,
   ⟨by decide, by decide, by decide, by decide, by decide⟩, ⟨rfl, by decide, rfl, by decide⟩⟩

end PointerStore
/-! ## Reviews -/

namespace InMemoryStore

/-- C21: `CreateReview` returns an error exactly when the rating is below 1 or above 5, and
then leaves the store as it was; for a rating from 1 to 5 it returns the review with the
given user, name, photo, rating and comment (and the identity and time drawn) and writes it
under its identity, as one more binding of the review map when the identity is fresh, all
other maps being unchanged. -/
theorem CreateReview_contract (s : InMemoryStore) (userID userName userPhoto : String)
    (rating : Int) (comment id : String) (now : Time) :
    ((∃ e, (s.CreateReview userID userName userPhoto rating comment id now).2 = .error e)
        ↔ (rating < 1 ∨ rating > 5))
      ∧ ((rating < 1 ∨ rating > 5) →
          (s.CreateReview userID userName userPhoto rating comment id now).1 = s)
      ∧ ((1 ≤ rating ∧ rating ≤ 5) →
          (s.CreateReview userID userName userPhoto rating comment id now).2
              = .ok { ID := id, UserID := userID, UserName := userName, UserPhoto := userPhoto,
                      Rating := rating, Comment := comment, CreatedAt := now }
            ∧ (s.CreateReview userID userName userPhoto rating comment id now).1
              = { s with
                  reviews := s.reviews.set id
                    { ID := id, UserID := userID, UserName := userName,
                      UserPhoto := userPhoto, Rating := rating, Comment := comment,
                      CreatedAt := now } }
            ∧ (s.reviews.get id = none →
                (s.CreateReview userID userName userPhoto rating comment id now).1.reviews
                  = s.reviews ++
                    [(id,
                      { ID := id, UserID := userID, UserName := userName,
                        UserPhoto := userPhoto, Rating := rating, Comment := comment,
                        CreatedAt := now })])) := by
  unfold CreateReview
  by_cases h : rating < 1 ∨ rating > 5
  · rw [if_pos h]
    refine ⟨⟨fun _ => h, fun _ => ⟨_, rfl⟩⟩, fun _ => rfl, ?_⟩
    intro h2; omega
  · rw [if_neg h]
    refine ⟨⟨?_, fun h2 => absurd h2 h⟩, fun h2 => absurd h2 h, ?_⟩
    · rintro ⟨e, he⟩; cases he
    · intro _
      exact ⟨rfl, rfl, fun hfresh => GoMap.set_of_get_none _ hfresh⟩

end InMemoryStore

/-! ## Orders as snapshots -/

namespace InMemoryStore

theorem UpdateProduct_orders (s : InMemoryStore) (id : String)
    (update : Product → Product × Option String) (now : Time) :
    (s.UpdateProduct id update now).1.orders = s.orders := by
  unfold UpdateProduct
  cases s.products.get id with
  | none => rfl
  | some p =>
    simp only []
    rcases hu : update p with ⟨p1, _ | e⟩ <;> rfl

theorem DeleteProduct_orders (s : InMemoryStore) (id : String) :
    (s.DeleteProduct id).1.orders = s.orders := by
  unfold DeleteProduct
  cases s.products.get id <;> rfl

theorem GetOrCreateCart_orders (s : InMemoryStore) (userID : String) :
    (s.GetOrCreateCart userID).1.orders = s.orders := by
  unfold GetOrCreateCart
  cases s.carts.get userID <;> rfl

theorem RemoveFromCart_orders (s : InMemoryStore) (userID productID : String) (qty : Int) :
    (s.RemoveFromCart userID productID qty).1.orders = s.orders := by
  unfold RemoveFromCart
  by_cases hq : qty ≤ 0
  · rw [if_pos hq]
  · rw [if_neg hq]
    cases s.carts.get userID with
    | none => rfl
    | some c =>
      simp only []
      cases removeLine c.Items productID qty <;> rfl

theorem step_orders (s : InMemoryStore) (op : Op) (h : op.IsCatalogueOrCart) :
    (step s op).orders = s.orders := by
  cases op with
  | createProduct p id now => rfl
  | updateProduct id update now => exact UpdateProduct_orders s id update now
  | deleteProduct id => exact DeleteProduct_orders s id
  | getOrCreateCart userID => exact GetOrCreateCart_orders s userID
  | addToCart userID productID qty => exact (AddToCart_orders_reviews s userID productID qty).1
  | removeFromCart userID productID qty => exact RemoveFromCart_orders s userID productID qty
  | clearCart userID => rfl
  | createOrder userID items amount status paymentRef id now => exact False.elim h
  | updateOrderStatus orderID status => exact False.elim h
  | updateOrderPaymentRef orderID paymentRef => exact False.elim h
  | createReview userID userName userPhoto rating comment id now => exact False.elim h

theorem run_orders (ops : List Op) :
    ∀ s : InMemoryStore, (∀ op ∈ ops, op.IsCatalogueOrCart) → (run s ops).orders = s.orders := by
  induction ops with
  | nil => intro s _; rfl
  | cons op rest ih =>
    intro s h
    have h1 := ih (step s op) (fun o ho => h o (List.mem_cons_of_mem _ ho))
    have h2 := step_orders s op (h op (List.mem_cons_self _ _))
    show (run (step s op) rest).orders = s.orders
    rw [h1, h2]

/-- C23: a sequence of calls of `CreateProduct`, `UpdateProduct` (with any patch),
`DeleteProduct` and the cart operations leaves the order map as it was, so every stored order
keeps its items and its amount; in particular an order keeps, after such calls, the items and
the amount `CreateOrder` was given. -/
theorem orders_are_snapshots (s : InMemoryStore) (ops : List Op)
    (h : ∀ op ∈ ops, op.IsCatalogueOrCart) :
    (run s ops).orders = s.orders
      ∧ (∀ (orderID : String) (o : Order), s.orders.get orderID = some o →
          ∃ o2, (run s ops).orders.get orderID = some o2
            ∧ o2.Items = o.Items ∧ o2.Amount = o.Amount)
      ∧ (∀ (userID : String) (items : List CartItem) (amount : Int)
          (status paymentRef id : String) (now : Time),
          ∃ o2, (run (s.CreateOrder userID items amount status paymentRef id now).1
                  ops).orders.get id = some o2
            ∧ o2.Items = items ∧ o2.Amount = amount) := by
  refine ⟨run_orders ops s h, ?_, ?_⟩
  · intro orderID o ho
    exact ⟨o, by rw [run_orders ops s h]; exact ho, rfl, rfl⟩
  · intro userID items amount status paymentRef id now
    refine ⟨{ ID := id, UserID := userID, Items := items, Amount := amount, Status := status,
              PaymentRef := paymentRef, CreatedAt := now }, ?_, rfl, rfl⟩
    rw [run_orders ops _ h]
    exact GoMap.get_set_self _ _ _

/-- On the store with the orders `o1` and `o2`: after a price edit of `p1`, the deletion of
`p2`, a new product and three cart operations, the order `o1` has the items and the amount it
had. -/
theorem orders_are_snapshots_witness :
    (∀ op ∈ catalogueOps, op.IsCatalogueOrCart)
      ∧ (run twoOrders catalogueOps).products.get "p1"
          = some { sampleProduct "p1" 999 10 with CreatedAt := 1, UpdatedAt := 9 }
      ∧ (run twoOrders catalogueOps).orders = twoOrders.orders
      ∧ (run twoOrders catalogueOps).orders.get "o1" = some (sampleOrder "o1" 1) :=
  have h : ∀ op ∈ catalogueOps, op.IsCatalogueOrCart := by decide
  ⟨h, rfl, (orders_are_snapshots twoOrders catalogueOps h).1, rfl⟩

/-! ## Failed calls that leave a trace -/

/-- C27: on the store with `p1` named `kopi`, `UpdateProduct` with the patch of the handler
for a request that renames the product to `teh` and gives the price `1.5` returns the error
the patch has from `parsePriceNumber`, and the stored product is named `teh` afterwards; the
handler answers with 400. -/
theorem UpdateProduct_keeps_failed_patch :
    ProductsHandler.parsePriceNumber parseSome "1.5" = .error "invalid syntax"
      ∧ (ProductsHandler.updatePatch parseSome renameBadPrice 9 (sampleProduct "p1" 100 10)).2
        = some "invalid syntax"
      ∧ (twoProducts.UpdateProduct "p1"
          (ProductsHandler.updatePatch parseSome renameBadPrice 9) 9).2
        = .error "invalid syntax"
      ∧ twoProducts.products.get "p1" = some (sampleProduct "p1" 100 10)
      ∧ (twoProducts.UpdateProduct "p1"
          (ProductsHandler.updatePatch parseSome renameBadPrice 9) 9).1.products.get "p1"
        = some { sampleProduct "p1" 100 10 with Name := "teh" }
      ∧ (twoProducts.UpdateProduct "p1"
          (ProductsHandler.updatePatch parseSome renameBadPrice 9) 9).1 ≠ twoProducts
      ∧ (ProductsHandler.Update twoProducts parseSome "p1" (.ok renameBadPrice) 9 9).2.status
        = 400 :=
  ⟨rfl, rfl, rfl, rfl, rfl, by decide, rfl⟩

/-- C29: on a store in which `u1` has no cart, `AddToCart` for the unknown product `p9`
returns an error and leaves an empty cart for `u1`; `RemoveFromCart` for `u1` then answers
that the item is not in the cart, whereas before the failed call it answers that there is no
cart. -/
theorem failed_AddToCart_creates_cart :
    (stockFive.AddToCart "u1" "p9" 1).2 = .error "product not found"
      ∧ stockFive.carts = []
      ∧ (stockFive.AddToCart "u1" "p9" 1).1.carts = [("u1", { UserID := "u1", Items := [] })]
      ∧ (stockFive.RemoveFromCart "u1" "p9" 1).2 = .error "cart not found"
      ∧ ((stockFive.AddToCart "u1" "p9" 1).1.RemoveFromCart "u1" "p9" 1).2
          = .error "item not in cart" :=
  ⟨rfl, rfl, rfl, rfl, rfl⟩

end InMemoryStore

/-! ## Order status written by the payment callback -/

namespace AdminOrdersHandler

theorem UpdateOrderStatus_statusesAllowed (s : InMemoryStore) (orderID status : String)
    (hs : StatusesAllowed s) (h : AllowedStatus status) :
    StatusesAllowed (s.UpdateOrderStatus orderID status).1 := by
  unfold InMemoryStore.UpdateOrderStatus
  cases s.orders.get orderID with
  | none => exact hs
  | some o =>
    intro kv hkv
    rcases GoMap.mem_set hkv with hm | he
    · exact hs kv hm
    · rw [he]
      exact h

theorem UpdateStatus_statusesAllowed (s : InMemoryStore) (normalise : String → String)
    (orderID : String) (bind : Except String String) (hs : StatusesAllowed s) :
    StatusesAllowed (UpdateStatus s normalise orderID bind).1 := by
  unfold UpdateStatus
  by_cases hid : orderID = ""
  · rw [if_pos hid]
    exact hs
  · rw [if_neg hid]
    cases bind with
    | error e => exact hs
    | ok reqStatus =>
      simp only []
      by_cases hempty : normalise reqStatus = ""
      · rw [if_pos hempty]
        exact hs
      · rw [if_neg hempty]
        by_cases hok : normalise reqStatus = "pending" ∨ normalise reqStatus = "paid"
            ∨ normalise reqStatus = "failed" ∨ normalise reqStatus = "done"
            ∨ normalise reqStatus = "completed"
        · rw [if_pos hok]
          have hallowed : AllowedStatus
              (if normalise reqStatus = "completed" then "done" else normalise reqStatus) := by
            unfold AllowedStatus
            by_cases hc : normalise reqStatus = "completed"
            · rw [if_pos hc]
              exact Or.inr (Or.inr (Or.inr rfl))
            · rw [if_neg hc]
              rcases hok with h | h | h | h | h
              · exact Or.inl h
              · exact Or.inr (Or.inl h)
              · exact Or.inr (Or.inr (Or.inl h))
              · exact Or.inr (Or.inr (Or.inr h))
              · exact absurd h hc
          have h2 := UpdateOrderStatus_statusesAllowed s orderID _ hs hallowed
          rcases hu : s.UpdateOrderStatus orderID
              (if normalise reqStatus = "completed" then "done" else normalise reqStatus)
            with ⟨s1, _ | _⟩
          · rw [hu] at h2
            exact h2
          · rw [hu] at h2
            exact h2
        · rw [if_neg hok]
          exact hs

end AdminOrdersHandler

namespace CheckoutHandler

/-- C25: after the checkout of `u1` the order `o1` is pending; the notification of a
`capture` with the fraud status `challenge` for `o1` is answered with 200 and leaves the
order with the empty status, which is not an allowed one. -/
theorem MidtransCallback_writes_empty_status :
    checkedOut.orders.get "o1"
        = some { ID := "o1", UserID := "u1", Items := [{ ProductID := "p1", Quantity := 2 }],
                 Amount := 200, Status := "pending", PaymentRef := "pay_o1", CreatedAt := 5 }
      ∧ StatusesAllowed checkedOut
      ∧ (MidtransCallback checkedOut (.ok ("o1", "capture", "challenge"))).2
          = { status := 200, body := .message "OK" }
      ∧ (MidtransCallback checkedOut (.ok ("o1", "capture", "challenge"))).1.orders.get "o1"
          = some { ID := "o1", UserID := "u1",
                   Items := [{ ProductID := "p1", Quantity := 2 }],
                   Amount := 200, Status := "", PaymentRef := "pay_o1", CreatedAt := 5 }
      ∧ ¬ StatusesAllowed (MidtransCallback checkedOut (.ok ("o1", "capture", "challenge"))).1 :=
  ⟨rfl, by decide, rfl, rfl, by decide⟩

end CheckoutHandler

/-! ## The listing of the reviews -/

theorem newestFirst_of_pairwise :
    ∀ times : List Time, times.Pairwise (fun a b => b ≤ a) → NewestFirst times
  | [], _ => trivial
  | [_], _ => trivial
  | a :: b :: rest, h => by
    have h1 := List.pairwise_cons.mp h
    exact ⟨h1.1 b (List.mem_cons_self _ _), newestFirst_of_pairwise (b :: rest) h1.2⟩

namespace InMemoryStore

theorem exchangePass_perm (l : List Review) :
    ∀ x : Review, ((exchangePass x l).1 :: (exchangePass x l).2).Perm (x :: l) := by
  induction l with
  | nil => intro x; exact List.Perm.refl _
  | cons y rest ih =>
    intro x
    unfold exchangePass
    by_cases h : x.CreatedAt < y.CreatedAt
    · rw [if_pos h]
      exact (List.Perm.swap x _ _).trans ((ih y).cons x)
    · rw [if_neg h]
      exact (List.Perm.swap y _ _).trans (((ih x).cons y).trans (List.Perm.swap x y rest))

theorem exchangePass_newest (l : List Review) :
    ∀ x : Review, ∀ z ∈ x :: l, z.CreatedAt ≤ (exchangePass x l).1.CreatedAt := by
  induction l with
  | nil =>
    intro x z hz
    simp only [List.mem_singleton] at hz
    subst hz
    exact le_refl _
  | cons y rest ih =>
    intro x z hz
    unfold exchangePass
    by_cases h : x.CreatedAt < y.CreatedAt
    · rw [if_pos h]
      show z.CreatedAt ≤ (exchangePass y rest).1.CreatedAt
      rcases List.mem_cons.mp hz with hx | hz2
      · subst hx
        exact le_trans (le_of_lt h) (ih y y (List.mem_cons_self _ _))
      · exact ih y z hz2
    · rw [if_neg h]
      show z.CreatedAt ≤ (exchangePass x rest).1.CreatedAt
      rcases List.mem_cons.mp hz with hx | hz2
      · subst hx
        exact ih z z (List.mem_cons_self _ _)
      · rcases List.mem_cons.mp hz2 with hy | hz3
        · subst hy
          exact le_trans (not_lt.mp h) (ih x x (List.mem_cons_self _ _))
        · exact ih x z (List.mem_cons_of_mem _ hz3)

theorem exchangePass_length (l : List Review) :
    ∀ x : Review, (exchangePass x l).2.length = l.length := by
  induction l with
  | nil => intro x; rfl
  | cons y rest ih =>
    intro x
    unfold exchangePass
    by_cases h : x.CreatedAt < y.CreatedAt
    · rw [if_pos h]; simp only [List.length_cons, ih y]
    · rw [if_neg h]; simp only [List.length_cons, ih x]

theorem exchangePasses_perm (n : Nat) : ∀ l : List Review, (exchangePasses n l).Perm l := by
  induction n with
  | zero => intro l; exact List.Perm.refl _
  | succ n ih =>
    intro l
    cases l with
    | nil => exact List.Perm.refl _
    | cons x rest =>
      show ((exchangePass x rest).1 :: exchangePasses n (exchangePass x rest).2).Perm (x :: rest)
      exact ((ih _).cons _).trans (exchangePass_perm rest x)

theorem exchangePasses_sorted (n : Nat) :
    ∀ l : List Review, l.length ≤ n + 1 →
      (exchangePasses n l).Pairwise (fun a b => b.CreatedAt ≤ a.CreatedAt) := by
  induction n with
  | zero =>
    intro l hl
    show l.Pairwise _
    match l, hl with
    | [], _ => exact List.Pairwise.nil
    | [x], _ => exact List.pairwise_singleton _ _
    | _ :: _ :: _, hl => simp only [List.length_cons] at hl; omega
  | succ n ih =>
    intro l hl
    cases l with
    | nil => exact List.Pairwise.nil
    | cons x rest =>
      show ((exchangePass x rest).1 :: exchangePasses n (exchangePass x rest).2).Pairwise _
      refine List.pairwise_cons.mpr ⟨?_, ?_⟩
      · intro b hb
        have hb2 : b ∈ (exchangePass x rest).2 := (exchangePasses_perm n _).mem_iff.mp hb
        have hb3 : b ∈ x :: rest :=
          (exchangePass_perm rest x).mem_iff.mp (List.mem_cons_of_mem _ hb2)
        exact exchangePass_newest rest x b hb3
      · apply ih
        rw [exchangePass_length]
        simp only [List.length_cons] at hl
        omega

theorem exchangeSort_perm (l : List Review) : (exchangeSort l).Perm l :=
  exchangePasses_perm _ l

theorem exchangeSort_sorted (l : List Review) :
    (exchangeSort l).Pairwise (fun a b => b.CreatedAt ≤ a.CreatedAt) := by
  apply exchangePasses_sorted
  omega

/-- C22: `ListReviews` returns a list in which no review is created before the review after
it; the list has `min(limit, n)` elements when `limit > 0` and `n` elements otherwise, `n`
being the number of stored reviews; together with a list of omitted reviews it is a
rearrangement of the stored reviews, so that it returns stored reviews only and none more
often than it is stored (none twice when the stored reviews differ from one another), and no
omitted review is created after a returned one. -/
theorem ListReviews_newest_first (s : InMemoryStore) (limit : Int) (t : Traversal Review) :
    ∃ res, s.ListReviews limit t = .ok res
      ∧ NewestFirst (res.map Review.CreatedAt)
      ∧ (res.length : Int)
          = (if limit > 0 then min limit (s.reviews.length : Int) else (s.reviews.length : Int))
      ∧ (∃ omitted, (res ++ omitted).Perm (s.reviews.map Prod.snd)
          ∧ ∀ r ∈ res, ∀ o ∈ omitted, o.CreatedAt ≤ r.CreatedAt)
      ∧ ((s.reviews.map Prod.snd).Nodup → res.Nodup) := by
  obtain ⟨sorted, hdef⟩ : ∃ x, x = exchangeSort ((t.visit s.reviews).map Prod.snd) := ⟨_, rfl⟩
  have hperm : sorted.Perm (s.reviews.map Prod.snd) := by
    rw [hdef]
    exact (exchangeSort_perm _).trans ((t.perm s.reviews).map Prod.snd)
  have hsorted : sorted.Pairwise (fun a b => b.CreatedAt ≤ a.CreatedAt) := by
    rw [hdef]
    exact exchangeSort_sorted _
  have hlen : sorted.length = s.reviews.length := by
    rw [hperm.length_eq, List.length_map]
  have hres : s.ListReviews limit t
      = if limit > 0 ∧ (sorted.length : Int) > limit then .ok (sorted.take limit.toNat)
        else .ok sorted := by
    unfold ListReviews
    rw [← hdef]
  by_cases hcut : limit > 0 ∧ (sorted.length : Int) > limit
  · rw [if_pos hcut] at hres
    refine ⟨sorted.take limit.toNat, hres, ?_, ?_, ?_, ?_⟩
    · apply newestFirst_of_pairwise
      exact List.pairwise_map.mpr (hsorted.sublist (List.take_sublist _ _))
    · rw [if_pos hcut.1, List.length_take, ← hlen]
      omega
    · refine ⟨sorted.drop limit.toNat, ?_, ?_⟩
      · rw [List.take_append_drop]
        exact hperm
      · have h2 := hsorted
        rw [← List.take_append_drop limit.toNat sorted] at h2
        exact (List.pairwise_append.mp h2).2.2
    · intro hnd
      exact (hperm.nodup_iff.mpr hnd).sublist (List.take_sublist _ _)
  · rw [if_neg hcut] at hres
    refine ⟨sorted, hres, ?_, ?_, ?_, ?_⟩
    · apply newestFirst_of_pairwise
      exact List.pairwise_map.mpr hsorted
    · rw [← hlen]
      by_cases hl : limit > 0
      · rw [if_pos hl]
        have : ¬ (sorted.length : Int) > limit := fun h => hcut ⟨hl, h⟩
        omega
      · rw [if_neg hl]
    · refine ⟨[], ?_, ?_⟩
      · rw [List.append_nil]
        exact hperm
      · intro r _ o ho
        cases ho
    · intro hnd
      exact hperm.nodup_iff.mpr hnd

end InMemoryStore

/-! ## The checkout -/

namespace CheckoutHandler

theorem GetCart_eq (s : InMemoryStore) (userID : String) :
    s.GetCart userID = .ok { UserID := userID, Items := s.cartLines userID } := by
  unfold InMemoryStore.GetCart InMemoryStore.cartLines
  cases s.carts.get userID <;> rfl

theorem checkLines_error_status (s : InMemoryStore) (lines : List CartItem) :
    ∀ (amount : Int) (midtransItems : List MidtransItem) (resp : Response),
      checkLines s lines amount midtransItems = .error resp →
        ∃ msg, resp = { status := 400, body := .error msg } := by
  induction lines with
  | nil => intro amount midtransItems resp h; cases h
  | cons it rest ih =>
    intro amount midtransItems resp h
    unfold checkLines at h
    cases hp : s.GetProduct it.ProductID with
    | error e =>
      rw [hp] at h
      simp only [Except.error.injEq] at h
      exact ⟨_, h.symm⟩
    | ok p =>
      rw [hp] at h
      simp only [] at h
      by_cases hs : p.Stock < it.Quantity
      · rw [if_pos hs] at h
        simp only [Except.error.injEq] at h
        exact ⟨_, h.symm⟩
      · rw [if_neg hs] at h
        exact ih _ _ resp h

theorem checkLines_ok (s : InMemoryStore) (lines : List CartItem) :
    ∀ (amount : Int) (midtransItems : List MidtransItem) (r : Int × List MidtransItem),
      checkLines s lines amount midtransItems = .ok r →
        (∀ it ∈ lines, ∃ p, s.products.get it.ProductID = some p ∧ it.Quantity ≤ p.Stock)
          ∧ wrapInt64 r.1 = wrapInt64 (amount + exactAmount s lines)
          ∧ (InInt64 amount → InInt64 r.1) := by
  induction lines with
  | nil =>
    intro amount midtransItems r h
    unfold checkLines at h
    simp only [Except.ok.injEq] at h
    subst h
    refine ⟨fun it hit => (by cases hit), ?_, fun h => h⟩
    simp [exactAmount]
  | cons it rest ih =>
    intro amount midtransItems r h
    unfold checkLines at h
    unfold InMemoryStore.GetProduct at h
    cases hp : s.products.get it.ProductID with
    | none =>
      rw [hp] at h
      cases h
    | some p =>
      rw [hp] at h
      simp only [] at h
      by_cases hs : p.Stock < it.Quantity
      · rw [if_pos hs] at h
        cases h
      · rw [if_neg hs] at h
        obtain ⟨h1, h2, h3⟩ := ih _ _ r h
        refine ⟨?_, ?_, fun _ => h3 (wrapInt64_inInt64 _)⟩
        · intro it2 hit2
          rcases List.mem_cons.mp hit2 with he | hm
          · subst he
            exact ⟨p, hp, not_lt.mp hs⟩
          · exact h1 it2 hm
        · rw [h2]
          have he : exactAmount s (it :: rest)
              = it.Quantity * p.PriceCents + exactAmount s rest := by
            simp only [exactAmount, List.map_cons, List.sum_cons, hp]
          rw [he]
          unfold wrapInt64
          omega

theorem pay_error_status (gw : Gateway) (orderID : String) (amount : Int)
    (email method : String) (midtransItems : List MidtransItem) (resp : Response)
    (h : pay gw orderID amount email method midtransItems = .error resp) :
    ∃ msg, resp = { status := 402, body := .error msg } := by
  unfold pay at h
  by_cases hm : gw.isMidtrans = true
  · rw [if_pos hm] at h
    cases hsnap : gw.createSnapTransaction orderID amount email midtransItems with
    | error e =>
      rw [hsnap] at h
      simp only [] at h
      cases hc : gw.charge amount method orderID email with
      | error e2 =>
        rw [hc] at h
        simp only [Except.error.injEq] at h
        exact ⟨_, h.symm⟩
      | ok paymentRef =>
        rw [hc] at h
        cases h
    | ok snapResp =>
      rw [hsnap] at h
      cases h
  · rw [if_neg hm] at h
    cases hc : gw.charge amount method orderID email with
    | error e2 =>
      rw [hc] at h
      simp only [Except.error.injEq] at h
      exact ⟨_, h.symm⟩
    | ok paymentRef =>
      rw [hc] at h
      cases h

/-- The runs of `Checkout`: a request rejected before the order is created leaves the store
as it was and is answered with 400; otherwise the loop over the lines of the cart has
succeeded and the order is created, and either the payment fails, with the answer 402 and the
store as `CreateOrder` left it, or the payment reference is written, the cart is cleared and
the answer is 200 with the amount of the loop. -/
theorem Checkout_cases (s : InMemoryStore) (gw : Gateway) (bind : Except String checkoutReq)
    (userID email id : String) (now : Time) :
    ((Checkout s gw bind userID email id now).1 = s
        ∧ ∃ msg, (Checkout s gw bind userID email id now).2
            = { status := 400, body := .error msg })
      ∨ ∃ amount midtransItems,
          checkLines s (s.cartLines userID) 0 [] = .ok (amount, midtransItems)
          ∧ (((Checkout s gw bind userID email id now).1
                = (s.CreateOrder userID (s.cartLines userID) amount "pending" "" id now).1
              ∧ ∃ msg, (Checkout s gw bind userID email id now).2
                  = { status := 402, body := .error msg })
            ∨ ∃ paymentURL paymentRef,
                (Checkout s gw bind userID email id now).1
                  = ((s.CreateOrder userID (s.cartLines userID) amount "pending" "" id now).1
                      |>.UpdateOrderPaymentRef id paymentRef).1.ClearCart userID
                ∧ (Checkout s gw bind userID email id now).2
                  = { status := 200,
                      body := .order
                        { OrderID := id, Status := "pending", Amount := amount,
                          PaymentRef := paymentRef, PaymentURL := paymentURL,
                          RedirectURL := paymentURL, Items := s.cartLines userID,
                          CreatedAt := now } }) := by
  unfold Checkout
  cases bind with
  | error e => exact Or.inl ⟨rfl, _, rfl⟩
  | ok req =>
    simp only [GetCart_eq]
    by_cases hlen : (s.cartLines userID).length = 0
    · rw [if_pos hlen]
      exact Or.inl ⟨rfl, _, rfl⟩
    · rw [if_neg hlen]
      cases hcl : checkLines s (s.cartLines userID) 0 [] with
      | error resp =>
        exact Or.inl ⟨rfl, checkLines_error_status s _ _ _ resp hcl⟩
      | ok r =>
        obtain ⟨amount, midtransItems⟩ := r
        refine Or.inr ⟨amount, midtransItems, rfl, ?_⟩
        simp only [InMemoryStore.CreateOrder]
        cases hp : pay gw id amount email req.PaymentMethod midtransItems with
        | error resp =>
          exact Or.inl ⟨rfl, pay_error_status gw _ _ _ _ _ resp hp⟩
        | ok r2 =>
          obtain ⟨paymentURL, paymentRef⟩ := r2
          exact Or.inr ⟨paymentURL, paymentRef, rfl, rfl⟩

end CheckoutHandler

namespace CheckoutHandler

theorem cartLines_ClearCart (s : InMemoryStore) (userID : String) :
    (s.ClearCart userID).cartLines userID = [] := by
  unfold InMemoryStore.cartLines InMemoryStore.ClearCart
  simp only [GoMap.get_delete, if_true]

theorem order_after_payment (s : InMemoryStore) (userID : String) (items : List CartItem)
    (amount : Int) (id paymentRef : String) (now : Time) :
    (((s.CreateOrder userID items amount "pending" "" id now).1.UpdateOrderPaymentRef id
        paymentRef).1.ClearCart userID).orders.get id
      = some { ID := id, UserID := userID, Items := items, Amount := amount,
               Status := "pending", PaymentRef := paymentRef, CreatedAt := now } := by
  unfold InMemoryStore.UpdateOrderPaymentRef InMemoryStore.CreateOrder InMemoryStore.ClearCart
  simp only [GoMap.get_set_self]

theorem amount_of_checkLines (s : InMemoryStore) (lines : List CartItem) (amount : Int)
    (midtransItems : List MidtransItem)
    (h : checkLines s lines 0 [] = .ok (amount, midtransItems)) :
    amount = wrapInt64 (exactAmount s lines) := by
  obtain ⟨_, h2, h3⟩ := checkLines_ok s lines 0 [] (amount, midtransItems) h
  have h4 : InInt64 amount := h3 (by unfold InInt64; omega)
  rw [← wrapInt64_of_inInt64 h4]
  simpa using h2

theorem checkLines_of_valid (s : InMemoryStore) (lines : List CartItem) :
    ∀ (amount : Int) (midtransItems : List MidtransItem),
      (∀ it ∈ lines, ∃ p, s.products.get it.ProductID = some p ∧ it.Quantity ≤ p.Stock) →
        ∃ total, checkLines s lines amount midtransItems
          = .ok (total, midtransItems ++ midtransItemsOf s lines) := by
  induction lines with
  | nil =>
    intro amount midtransItems _
    exact ⟨amount, by simp [checkLines, midtransItemsOf]⟩
  | cons it rest ih =>
    intro amount midtransItems hv
    obtain ⟨p, hp, hq⟩ := hv it (List.mem_cons_self _ _)
    obtain ⟨total, ht⟩ := ih (wrapInt64 (amount + wrapInt64 (it.Quantity * p.PriceCents)))
      (midtransItems
        ++ [{ ID := p.ID, Price := p.PriceCents, Quantity := it.Quantity, Name := p.Name }])
      (fun x hx => hv x (List.mem_cons_of_mem _ hx))
    refine ⟨total, ?_⟩
    unfold checkLines InMemoryStore.GetProduct
    simp only [hp, if_neg (not_lt.mpr hq)]
    rw [ht]
    simp [midtransItemsOf, hp]

theorem pay_ok_iff (gw : Gateway) (orderID : String) (amount : Int) (email method : String)
    (midtransItems : List MidtransItem) :
    (∃ r, pay gw orderID amount email method midtransItems = .ok r)
      ↔ PaymentSucceeds gw orderID amount email method midtransItems := by
  unfold pay PaymentSucceeds
  by_cases hm : gw.isMidtrans = true
  · rw [if_pos hm, if_pos hm]
    cases hsnap : gw.createSnapTransaction orderID amount email midtransItems with
    | error e =>
      simp only []
      cases hc : gw.charge amount method orderID email with
      | error e2 =>
        constructor
        · rintro ⟨r, hr⟩; cases hr
        · rintro (⟨r, hr⟩ | ⟨r, hr⟩) <;> cases hr
      | ok paymentRef =>
        exact ⟨fun _ => Or.inr ⟨_, rfl⟩, fun _ => ⟨_, rfl⟩⟩
    | ok snapResp =>
      exact ⟨fun _ => Or.inl ⟨_, rfl⟩, fun _ => ⟨_, rfl⟩⟩
  · rw [if_neg hm, if_neg hm]
    cases hc : gw.charge amount method orderID email with
    | error e2 =>
      constructor
      · rintro ⟨r, hr⟩; cases hr
      · rintro ⟨r, hr⟩; cases hr
    | ok paymentRef =>
      exact ⟨fun _ => ⟨_, rfl⟩, fun _ => ⟨_, rfl⟩⟩

/-- `Checkout` answers with 200 exactly when the request binds, the cart is not empty, the
loop over its lines succeeds and the payment step succeeds. -/
theorem Checkout_ok_iff (s : InMemoryStore) (gw : Gateway) (bind : Except String checkoutReq)
    (userID email id : String) (now : Time) :
    (Checkout s gw bind userID email id now).2.status = 200
      ↔ ∃ req amount midtransItems r, bind = .ok req ∧ s.cartLines userID ≠ []
          ∧ checkLines s (s.cartLines userID) 0 [] = .ok (amount, midtransItems)
          ∧ pay gw id amount email req.PaymentMethod midtransItems = .ok r := by
  unfold Checkout
  cases bind with
  | error e =>
    constructor
    · intro h; simp at h
    · rintro ⟨req, _, _, _, hb, _⟩; cases hb
  | ok req =>
    simp only [GetCart_eq]
    by_cases hlen : (s.cartLines userID).length = 0
    · rw [if_pos hlen]
      constructor
      · intro h; simp at h
      · rintro ⟨_, _, _, _, _, hne, _⟩
        exact absurd (List.length_eq_zero.mp hlen) hne
    · rw [if_neg hlen]
      have hne : s.cartLines userID ≠ [] := fun h => hlen (by rw [h]; rfl)
      cases hcl : checkLines s (s.cartLines userID) 0 [] with
      | error resp =>
        obtain ⟨msg, hmsg⟩ := checkLines_error_status s _ _ _ resp hcl
        constructor
        · intro h
          simp only [hmsg] at h
          simp at h
        · rintro ⟨_, _, _, _, _, _, hc, _⟩; cases hc
      | ok r =>
        obtain ⟨amount, midtransItems⟩ := r
        simp only [InMemoryStore.CreateOrder]
        cases hp : pay gw id amount email req.PaymentMethod midtransItems with
        | error resp =>
          obtain ⟨msg, hmsg⟩ := pay_error_status gw _ _ _ _ _ resp hp
          constructor
          · intro h
            simp only [hmsg] at h
            simp at h
          · rintro ⟨req2, a2, m2, r2, hb, _, hc, hpay⟩
            cases hb
            cases hc
            rw [hp] at hpay
            cases hpay
        | ok r2 =>
          obtain ⟨paymentURL, paymentRef⟩ := r2
          exact ⟨fun _ => ⟨req, amount, midtransItems, _, rfl, hne, rfl, hp⟩, fun _ => rfl⟩

/-- C24: a run of `Checkout` that does not answer with 200 leaves the lines of the cart of
the user as they were; a run that answers with 200 leaves the user without cart lines, and the
order, with the lines the cart had, is stored; and the answer is 200 exactly when the request
binds, the cart is not empty, every line names a product on record with a stock of at least
its quantity, and the payment succeeds. -/
theorem Checkout_clears_cart_on_success (s : InMemoryStore) (gw : Gateway)
    (bind : Except String checkoutReq) (userID email id : String) (now : Time) :
    ((Checkout s gw bind userID email id now).2.status ≠ 200 →
        (Checkout s gw bind userID email id now).1.cartLines userID = s.cartLines userID)
      ∧ ((Checkout s gw bind userID email id now).2.status = 200 →
          (Checkout s gw bind userID email id now).1.cartLines userID = []
            ∧ ∃ o, (Checkout s gw bind userID email id now).1.orders.get id = some o
                ∧ o.Items = s.cartLines userID)
      ∧ ((Checkout s gw bind userID email id now).2.status = 200
          ↔ ∃ req, bind = .ok req ∧ s.cartLines userID ≠ []
              ∧ (∀ it ∈ s.cartLines userID,
                  ∃ p, s.products.get it.ProductID = some p ∧ it.Quantity ≤ p.Stock)
              ∧ PaymentSucceeds gw id (wrapInt64 (exactAmount s (s.cartLines userID))) email
                  req.PaymentMethod (midtransItemsOf s (s.cartLines userID))) := by
  refine ⟨?_, ?_, ?_⟩
  · rcases Checkout_cases s gw bind userID email id now with
      ⟨h1, msg, h2⟩ | ⟨amount, midtransItems, _,
        ⟨h1, msg, h2⟩ | ⟨paymentURL, paymentRef, h1, h2⟩⟩
    · intro _; rw [h1]
    · intro _; rw [h1]; rfl
    · intro h
      rw [h2] at h
      exact absurd rfl h
  · rcases Checkout_cases s gw bind userID email id now with
      ⟨h1, msg, h2⟩ | ⟨amount, midtransItems, _,
        ⟨h1, msg, h2⟩ | ⟨paymentURL, paymentRef, h1, h2⟩⟩
    · intro h
      rw [h2] at h
      exact absurd h (by simp)
    · intro h
      rw [h2] at h
      exact absurd h (by simp)
    · intro _
      rw [h1]
      exact ⟨cartLines_ClearCart _ _, _, order_after_payment s userID _ amount id paymentRef now,
        rfl⟩
  · rw [Checkout_ok_iff]
    constructor
    · rintro ⟨req, amount, midtransItems, r, hb, hne, hcl, hp⟩
      have hv := (checkLines_ok s _ 0 [] _ hcl).1
      have ha := amount_of_checkLines s _ amount midtransItems hcl
      obtain ⟨total, ht⟩ := checkLines_of_valid s (s.cartLines userID) 0 [] hv
      rw [hcl] at ht
      simp only [Except.ok.injEq, Prod.mk.injEq, List.nil_append] at ht
      refine ⟨req, hb, hne, hv, ?_⟩
      rw [← ha, ← ht.2]
      exact (pay_ok_iff _ _ _ _ _ _).mp ⟨r, hp⟩
    · rintro ⟨req, hb, hne, hv, hpay⟩
      obtain ⟨total, ht⟩ := checkLines_of_valid s (s.cartLines userID) 0 [] hv
      have ha := amount_of_checkLines s _ total _ ht
      rw [← ha] at hpay
      obtain ⟨r, hr⟩ := (pay_ok_iff _ _ _ _ _ _).mpr hpay
      exact ⟨req, total, _, r, hb, hne, ht, by simpa using hr⟩

/-- The checkout of the cart `(p1, 2)` through the mock gateway is answered with 200; the
cart of `u1`, which had one line, has none afterwards, and the order `o1` is stored with that
line. -/
theorem Checkout_clears_cart_on_success_witness :
    (Checkout cartReady MockGateway (.ok qrisRequest) "u1" "budi@example.com" "o1" 5).2.status
        = 200
      ∧ cartReady.cartLines "u1" = [{ ProductID := "p1", Quantity := 2 }]
      ∧ (Checkout cartReady MockGateway (.ok qrisRequest) "u1" "budi@example.com" "o1"
          5).1.cartLines "u1" = []
      ∧ ∃ o, (Checkout cartReady MockGateway (.ok qrisRequest) "u1" "budi@example.com" "o1"
              5).1.orders.get "o1" = some o
          ∧ o.Items = cartReady.cartLines "u1" :=
  ⟨rfl, rfl,
   (Checkout_clears_cart_on_success cartReady MockGateway (.ok qrisRequest) "u1"
     "budi@example.com" "o1" 5).2.1 rfl⟩

/-- C28, what the code does: with a gateway that refuses the charge, the checkout of the cart
`(p1, 2)` is answered with 402, and afterwards the order `o1` is stored and the stock of `p1`
is 3 instead of 5. -/
theorem Checkout_declined_keeps_order :
    (Checkout cartReady refusingGateway (.ok qrisRequest) "u1" "budi@example.com" "o1" 5).2
        = { status := 402, body := .error "Payment gagal" }
      ∧ cartReady.orders = []
      ∧ (Checkout cartReady refusingGateway (.ok qrisRequest) "u1" "budi@example.com" "o1"
          5).1.orders
        = [("o1", { ID := "o1", UserID := "u1",
                    Items := [{ ProductID := "p1", Quantity := 2 }], Amount := 200,
                    Status := "pending", PaymentRef := "", CreatedAt := 5 })]
      ∧ cartReady.products.get "p1" = some (sampleProduct "p1" 100 5)
      ∧ (Checkout cartReady refusingGateway (.ok qrisRequest) "u1" "budi@example.com" "o1"
          5).1.products.get "p1"
        = some (sampleProduct "p1" 100 3) :=
  ⟨rfl, rfl, rfl, rfl, rfl⟩

/-- C28, amended: a run of `Checkout` that answers with an error other than 402 leaves the
store as it was; a run that answers with 402 leaves the store as `CreateOrder` left it, with
the pending order stored under its identity and the stock after the decrements. -/
theorem Checkout_failure_effect (s : InMemoryStore) (gw : Gateway)
    (bind : Except String checkoutReq) (userID email id : String) (now : Time)
    (h : (Checkout s gw bind userID email id now).2.status ≠ 200) :
    ((Checkout s gw bind userID email id now).2.status ≠ 402 →
        (Checkout s gw bind userID email id now).1 = s)
      ∧ ((Checkout s gw bind userID email id now).2.status = 402 →
          ∃ amount,
            (Checkout s gw bind userID email id now).1.orders
                = s.orders.set id
                    { ID := id, UserID := userID, Items := s.cartLines userID,
                      Amount := amount, Status := "pending", PaymentRef := "",
                      CreatedAt := now }
              ∧ (Checkout s gw bind userID email id now).1.products
                = InMemoryStore.decrementStock s.products (s.cartLines userID)) := by
  rcases Checkout_cases s gw bind userID email id now with
    ⟨h1, msg, h2⟩ | ⟨amount, midtransItems, _,
      ⟨h1, msg, h2⟩ | ⟨paymentURL, paymentRef, h1, h2⟩⟩
  · refine ⟨fun _ => h1, fun h3 => ?_⟩
    rw [h2] at h3
    exact absurd h3 (by simp)
  · refine ⟨fun h3 => ?_, fun _ => ⟨amount, ?_, ?_⟩⟩
    · rw [h2] at h3
      exact absurd rfl h3
    · rw [h1]; rfl
    · rw [h1]; rfl
  · rw [h2] at h
    exact absurd rfl h

/-- The checkout of a cart that names the unknown product `p3` is answered with 400 and
leaves the store as it was. -/
theorem Checkout_failure_effect_witness :
    (Checkout strayCart MockGateway (.ok qrisRequest) "u1" "budi@example.com" "o1" 5).2
        = { status := 400, body := .error "Invalid product in cart: p3" }
      ∧ (Checkout strayCart MockGateway (.ok qrisRequest) "u1" "budi@example.com" "o1" 5).1
        = strayCart :=
  ⟨rfl,
   (Checkout_failure_effect strayCart MockGateway (.ok qrisRequest) "u1" "budi@example.com"
      "o1" 5 (by decide)).1 (by decide)⟩

/-- C30, what the code does: with the price 4611686018427387904 and the quantity 2 the exact
amount is 9223372036854775808, and the checkout reports and stores the amount
-9223372036854775808. -/
theorem Checkout_amount_overflows :
    exactAmount dearStore (dearStore.cartLines "u1") = 9223372036854775808
      ∧ (Checkout dearStore MockGateway (.ok qrisRequest) "u1" "budi@example.com" "o1" 5).2
        = { status := 200,
            body := .order
              { OrderID := "o1", Status := "pending", Amount := -9223372036854775808,
                PaymentRef := "pay_o1", PaymentURL := "", RedirectURL := "",
                Items := [{ ProductID := "p1", Quantity := 2 }], CreatedAt := 5 } }
      ∧ (Checkout dearStore MockGateway (.ok qrisRequest) "u1" "budi@example.com" "o1"
          5).1.orders
        = [("o1", { ID := "o1", UserID := "u1",
                    Items := [{ ProductID := "p1", Quantity := 2 }],
                    Amount := -9223372036854775808, Status := "pending",
                    PaymentRef := "pay_o1", CreatedAt := 5 })] :=
  ⟨rfl, rfl, rfl⟩

/-- C30, amended: when `Checkout` does not answer with 400, so that it has reached
`CreateOrder`, every line of the cart names a product on record whose stock is at least the
quantity of the line; the order is stored with the lines of the cart and with an amount that
is the sum over the lines of quantity times current price, reduced to 64 bits; the amount is
that sum itself when the sum is within 64 bits; and the response of a successful run reports
the stored amount. -/
theorem Checkout_amount (s : InMemoryStore) (gw : Gateway)
    (bind : Except String checkoutReq) (userID email id : String) (now : Time)
    (h : (Checkout s gw bind userID email id now).2.status ≠ 400) :
    (∀ it ∈ s.cartLines userID,
        ∃ p, s.products.get it.ProductID = some p ∧ it.Quantity ≤ p.Stock)
      ∧ ∃ o, (Checkout s gw bind userID email id now).1.orders.get id = some o
          ∧ o.Items = s.cartLines userID
          ∧ o.Amount = wrapInt64 (exactAmount s (s.cartLines userID))
          ∧ (InInt64 (exactAmount s (s.cartLines userID)) →
              o.Amount = exactAmount s (s.cartLines userID))
          ∧ (∀ r, (Checkout s gw bind userID email id now).2.body = .order r →
              r.Amount = o.Amount) := by
  rcases Checkout_cases s gw bind userID email id now with
    ⟨h1, msg, h2⟩ | ⟨amount, midtransItems, hcl,
      ⟨h1, msg, h2⟩ | ⟨paymentURL, paymentRef, h1, h2⟩⟩
  · rw [h2] at h
    exact absurd rfl h
  · have ha := amount_of_checkLines s _ amount midtransItems hcl
    refine ⟨(checkLines_ok s _ 0 [] _ hcl).1,
      Order.mk id userID (s.cartLines userID) amount "pending" "" now, ?_, rfl, ha, ?_, ?_⟩
    · rw [h1]
      exact GoMap.get_set_self _ _ _
    · intro hin
      exact ha.trans (wrapInt64_of_inInt64 hin)
    · intro r hr
      rw [h2] at hr
      cases hr
  · have ha := amount_of_checkLines s _ amount midtransItems hcl
    refine ⟨(checkLines_ok s _ 0 [] _ hcl).1,
      Order.mk id userID (s.cartLines userID) amount "pending" paymentRef now,
      ?_, rfl, ha, ?_, ?_⟩
    · rw [h1]
      exact order_after_payment s userID _ amount id paymentRef now
    · intro hin
      exact ha.trans (wrapInt64_of_inInt64 hin)
    · intro r hr
      rw [h2] at hr
      simp only [Body.order.injEq] at hr
      rw [← hr]

/-- The checkout of the cart `(p1, 2)` at the price 100 stores and reports the amount
200. -/
theorem Checkout_amount_witness :
    (Checkout cartReady MockGateway (.ok qrisRequest) "u1" "budi@example.com" "o1" 5).2.status
        ≠ 400
      ∧ exactAmount cartReady (cartReady.cartLines "u1") = 200
      ∧ ∃ o, (Checkout cartReady MockGateway (.ok qrisRequest) "u1" "budi@example.com" "o1"
              5).1.orders.get "o1" = some o
          ∧ o.Amount = 200 := by
  have h : (Checkout cartReady MockGateway (.ok qrisRequest) "u1" "budi@example.com" "o1"
      5).2.status ≠ 400 := by decide
  obtain ⟨o, ho, _, _, hexact, _⟩ :=
    (Checkout_amount cartReady MockGateway (.ok qrisRequest) "u1" "budi@example.com" "o1" 5
      h).2
  exact ⟨h, rfl, o, ho, hexact (by decide)⟩

end CheckoutHandler

/-! ## The bestseller ranking -/

namespace ProductsHandler

theorem addSales_get (items : List CartItem) :
    ∀ (sales : GoMap Int) (k : String),
      wrapInt64 (((addSales sales items).get k).getD 0)
          = wrapInt64 ((sales.get k).getD 0
              + ((items.filter (fun it => decide (it.ProductID = k))).map
                  CartItem.Quantity).sum)
        ∧ (InInt64 ((sales.get k).getD 0) → InInt64 (((addSales sales items).get k).getD 0)) := by
  induction items with
  | nil => intro sales k; simp [addSales]
  | cons item rest ih =>
    intro sales k
    unfold addSales
    obtain ⟨h1, h2⟩ := ih
      (sales.set item.ProductID (wrapInt64 ((sales.get item.ProductID).getD 0 + item.Quantity)))
      k
    rw [GoMap.get_set] at h1 h2
    by_cases hk : item.ProductID = k
    · subst hk
      simp only [if_true, Option.getD_some] at h1 h2
      refine ⟨?_, fun _ => h2 (wrapInt64_inInt64 _)⟩
      rw [h1]
      simp only [List.filter_cons, decide_True, if_true, List.map_cons, List.sum_cons]
      unfold wrapInt64
      omega
    · simp only [hk, if_false] at h1 h2
      refine ⟨?_, h2⟩
      rw [h1]
      simp only [List.filter_cons, hk, decide_False]
      simp

theorem countSales_get (lower : String → String) (orders : List Order) :
    ∀ (sales : GoMap Int) (k : String),
      wrapInt64 (((countSales lower sales orders).get k).getD 0)
          = wrapInt64 ((sales.get k).getD 0 + soldQuantity lower orders k)
        ∧ (InInt64 ((sales.get k).getD 0) →
            InInt64 (((countSales lower sales orders).get k).getD 0)) := by
  induction orders with
  | nil => intro sales k; simp [countSales, soldQuantity]
  | cons o rest ih =>
    intro sales k
    unfold countSales
    by_cases hskip : lower o.Status ≠ "paid" ∧ lower o.Status ≠ "done"
        ∧ lower o.Status ≠ "completed"
    · rw [if_pos hskip]
      have hno : ¬ CountsAsSale lower o := by
        unfold CountsAsSale
        rintro (h | h | h)
        · exact hskip.1 h
        · exact hskip.2.1 h
        · exact hskip.2.2 h
      obtain ⟨h1, h2⟩ := ih sales k
      refine ⟨?_, h2⟩
      rw [h1]
      simp only [soldQuantity, List.filter_cons, hno, decide_False]
      simp
    · rw [if_neg hskip]
      have hyes : CountsAsSale lower o := by
        unfold CountsAsSale
        by_contra hc
        exact hskip ⟨fun h => hc (Or.inl h), fun h => hc (Or.inr (Or.inl h)),
          fun h => hc (Or.inr (Or.inr h))⟩
      obtain ⟨h1, h2⟩ := ih (addSales sales o.Items) k
      obtain ⟨h3, h4⟩ := addSales_get o.Items sales k
      refine ⟨?_, fun h => h2 (h4 h)⟩
      rw [h1]
      have he : soldQuantity lower (o :: rest) k
          = quantityIn k o + soldQuantity lower rest k := by
        simp only [soldQuantity, List.filter_cons, hyes, decide_True, if_true, List.map_cons,
          List.sum_cons]
      rw [he]
      unfold quantityIn
      unfold wrapInt64 at h3 ⊢
      omega

/-- The sales `AdminList` counts for a product: the sold quantity, in 64 bits. -/
theorem countSales_eq (lower : String → String) (orders : List Order) (k : String) :
    ((countSales lower [] orders).get k).getD 0 = wrapInt64 (soldQuantity lower orders k) := by
  obtain ⟨h1, h2⟩ := countSales_get lower orders [] k
  have h0 : InInt64 (((countSales lower [] orders).get k).getD 0) :=
    h2 (by simp only [GoMap.get, Option.getD_none]; decide)
  rw [← wrapInt64_of_inInt64 h0, h1]
  simp [GoMap.get]

theorem soldQuantity_perm (lower : String → String) {l1 l2 : List Order} (h : l1.Perm l2)
    (k : String) : soldQuantity lower l1 k = soldQuantity lower l2 k :=
  ((h.filter _).map _).sum_eq

theorem lessBestseller_false_iff (sales : GoMap Int) (a b : Product) :
    lessBestseller sales b a = false
      ↔ ((sales.get a.ID).getD 0 > (sales.get b.ID).getD 0
          ∨ ((sales.get a.ID).getD 0 = (sales.get b.ID).getD 0 ∧ a.CreatedAt ≥ b.CreatedAt)) := by
  unfold lessBestseller
  by_cases h : (sales.get b.ID).getD 0 = (sales.get a.ID).getD 0
  · rw [if_pos h, decide_eq_false_iff_not]
    constructor
    · intro h2
      exact Or.inr ⟨h.symm, not_lt.mp h2⟩
    · rintro (h2 | h2)
      · omega
      · exact not_lt.mpr h2.2
  · rw [if_neg h, decide_eq_false_iff_not]
    constructor
    · intro h2
      left
      omega
    · rintro (h2 | h2)
      · omega
      · exact absurd h2.1.symm h

theorem rank_total (sa sb ca cb : Int) :
    (sa > sb ∨ (sa = sb ∧ ca ≥ cb)) ∨ (sb > sa ∨ (sb = sa ∧ cb ≥ ca)) := by
  omega

theorem rank_trans (sa sb sc ca cb cc : Int)
    (h1 : sa > sb ∨ (sa = sb ∧ ca ≥ cb)) (h2 : sb > sc ∨ (sb = sc ∧ cb ≥ cc)) :
    sa > sc ∨ (sa = sc ∧ ca ≥ cc) := by
  omega

theorem stableInsertionSort_sortsBy (sales : GoMap Int) :
    SortsBy stableInsertionSort (lessBestseller sales) := by
  intro ps
  haveI : IsTotal Product (fun a b => lessBestseller sales b a = false) :=
    ⟨fun a b => by
      simp only [lessBestseller_false_iff]
      exact rank_total _ _ _ _⟩
  haveI : IsTrans Product (fun a b => lessBestseller sales b a = false) :=
    ⟨fun a b c => by
      simp only [lessBestseller_false_iff]
      exact rank_trans _ _ _ _ _ _⟩
  exact ⟨List.perm_insertionSort _ ps, List.sorted_insertionSort _ ps⟩

/-- C26, refuted as stated: on the store in which `p1` was sold twice in the quantity
4611686018427387904 and `p2` once in the quantity 1, the sold quantity of `p1` is
9223372036854775808, and the listing puts `p2` before `p1`. -/
theorem AdminList_bestseller_overflows :
    soldQuantity lowerSome (bigSales.orders.map Prod.snd) "p1" = 9223372036854775808
      ∧ soldQuantity lowerSome (bigSales.orders.map Prod.snd) "p2" = 1
      ∧ AdminList bigSales "" "bestseller" lowerSome stableInsertionSort
          (Traversal.stored Product) (Traversal.stored Order)
        = { status := 200,
            body := .products
              [{ sampleProduct "p2" 200 10 with CreatedAt := 2 },
               { sampleProduct "p1" 100 10 with CreatedAt := 1 }] } :=
  ⟨rfl, rfl, rfl⟩

/-- C26, amended: with `sort=bestseller`, and with a `sort.SliceStable` that sorts by the
comparison it is given, `AdminList` answers with 200 and a list of products that is a
rearrangement of the result of `ListProducts(q)` and in which every product stands before the
products whose sold quantity, reduced to 64 bits, is less, and before those for which it is
the same and which were created earlier; when the sold quantities of the listed products are
within 64 bits, the same holds of the sold quantities themselves.  The sold quantity is the
sum of the quantities of the items of the product over the stored orders whose status in
small letters is `paid`, `done` or `completed`. -/
theorem AdminList_bestseller (s : InMemoryStore) (q : String) (lower : String → String)
    (sortStable : (Product → Product → Bool) → List Product → List Product)
    (tp : Traversal Product) (tq : Traversal Order)
    (hsort : ∀ sales : GoMap Int, SortsBy sortStable (lessBestseller sales)) :
    ∃ ps out, s.ListProducts q tp = .ok ps
      ∧ AdminList s q "bestseller" lower sortStable tp tq
          = { status := 200, body := .products out }
      ∧ out.Perm ps
      ∧ out.Pairwise
          (RanksBefore (fun k => wrapInt64 (soldQuantity lower (s.orders.map Prod.snd) k)))
      ∧ ((∀ p ∈ ps, InInt64 (soldQuantity lower (s.orders.map Prod.snd) p.ID)) →
          out.Pairwise (RanksBefore (soldQuantity lower (s.orders.map Prod.snd)))) := by
  obtain ⟨hperm, hsorted⟩ := hsort (countSales lower [] ((tq.visit s.orders).map Prod.snd))
    (((tp.visit s.products).filter (fun kv => InMemoryStore.matchesQuery kv.2 q)).map Prod.snd)
  have hp := fun k => soldQuantity_perm lower ((tq.perm s.orders).map Prod.snd) k
  have hw : (sortStable (lessBestseller (countSales lower []
        ((tq.visit s.orders).map Prod.snd)))
      (((tp.visit s.products).filter
        (fun kv => InMemoryStore.matchesQuery kv.2 q)).map Prod.snd)).Pairwise
      (RanksBefore (fun k => wrapInt64 (soldQuantity lower (s.orders.map Prod.snd) k))) := by
    refine hsorted.imp ?_
    intro a b hab
    rw [lessBestseller_false_iff, countSales_eq, countSales_eq, hp, hp] at hab
    exact hab
  refine ⟨_, _, rfl, rfl, hperm, hw, ?_⟩
  intro hin
  refine hw.imp_of_mem ?_
  intro a b ha hb hab
  have h1 := wrapInt64_of_inInt64 (hin a (hperm.mem_iff.mp ha))
  have h2 := wrapInt64_of_inInt64 (hin b (hperm.mem_iff.mp hb))
  unfold RanksBefore at hab ⊢
  simp only [h1, h2] at hab
  exact hab

/-- On the store with the sales 3 for `p1`, 3 for `p2` and none for `p3`, the listing is
`p2`, `p1`, `p3`: the two products that sold 3 come first, the newer of them before the
other. -/
theorem AdminList_bestseller_witness :
    (∀ sales : GoMap Int, SortsBy stableInsertionSort (lessBestseller sales))
      ∧ AdminList salesStore "" "bestseller" lowerSome stableInsertionSort
          (Traversal.stored Product) (Traversal.stored Order)
        = { status := 200,
            body := .products
              [{ sampleProduct "p2" 200 10 with CreatedAt := 2 },
               { sampleProduct "p1" 100 10 with CreatedAt := 1 },
               { sampleProduct "p3" 300 10 with CreatedAt := 3 }] }
      ∧ ∃ ps out, salesStore.ListProducts "" (Traversal.stored Product) = .ok ps
          ∧ AdminList salesStore "" "bestseller" lowerSome stableInsertionSort
              (Traversal.stored Product) (Traversal.stored Order)
            = { status := 200, body := .products out }
          ∧ out.Perm ps
          ∧ out.Pairwise
              (RanksBefore
                (fun k => wrapInt64 (soldQuantity lowerSome (salesStore.orders.map Prod.snd) k)))
          ∧ ((∀ p ∈ ps, InInt64 (soldQuantity lowerSome (salesStore.orders.map Prod.snd) p.ID)) →
              out.Pairwise
                (RanksBefore (soldQuantity lowerSome (salesStore.orders.map Prod.snd)))) :=
  ⟨stableInsertionSort_sortsBy, rfl,
   AdminList_bestseller salesStore "" lowerSome stableInsertionSort (Traversal.stored Product)
     (Traversal.stored Order) stableInsertionSort_sortsBy⟩

end ProductsHandler

end Ecommerce
